import Mathlib

/-!
Radix sorter and face ordering of the mini3d scene renderer.

Shallow embedding of `src/external/bitshifter_radixsort/radixsort.c`, of the camera
construction, key packing, projection, draw ordering and face drawing of `src/mini3d/scene.c`,
and of the ordered dither tables of `src/util/pixel_ops.c` as `src/effects/fx_prettyhip.c`
indexes them, with proofs that

* a scatter pass driven by the prefix-summed histogram is a stable counting sort by one byte,
* four such passes sort 32-bit keys stably and permute the (key, value) pairs,
* `float_flip` is a monotone bijection from binary32 patterns in numeric order to unsigned
  words, inverted by `inv_float_flip`, so that `radix8sort_f32` sorts floats numerically,
* `Scene3D_drawShape` packs the face index into the low byte of the flipped depth, and reads
  the temp buffer of the sorter instead of the buffer the returned selector designates, which
  still holds every face once,
* `drawShapeFace` culls by depth, bounds and the sign of the signed area it computes in
  `float`, lights with a clamped truncated index into the 33-entry pattern ramp, and calls the
  primitives as the style flags say,
* the scatter indices of every pass are below `size` and pairwise distinct, and the 64-bit
  helpers read the four low bytes of a key only,
* `Scene3D_setCamera` guards the divisions of its yaw and roll stages by tests on vector
  components, does not guard the normalisation of the look direction, which divides by zero
  when the look-at point equals the camera origin, and skips the roll for an up vector with
  no `x` and `y`,
* the 2x2 dither table and the matrix in its comment disagree in frames 2 and 3.

Conventions of the embedding:
* a C buffer (`uint32_t*`, or `float*` read through a `uint32_t*`) is a `List Nat`; reading
  index `i` is `getD i 0`, writing is `set`;
* `uint32_t` arithmetic that can wrap is reduced with `u32` (`% 2^32`);
* pointer arithmetic `hist + bucket * kHistSize` is a base offset into the histogram list;
* a loop `for (i = 0; i < n; ++i)` is a left fold over `List.range n`;
* functions that write through pointers return the final contents of what they write;
* a C `float` outside the sorter is a value of `F32`, the IEEE-754 binary32 numbers with
  infinities and NaN, and every float operation rounds its exact result to nearest, ties to
  even; the result of a conversion to `int` that C leaves undefined is a parameter;
* `Scene3D_setCamera` returns, next to what it stores, the divisors of the divisions it has
  made, and helpers declared in headers that are not among the sources (`mathlib.h`,
  `render.h`, `math.h`) are parameters of the model.
-/

namespace Radixsort

/-- Macro `kRadixBits`: `#define kRadixBits 8`. -/
def kRadixBits : Nat := 8

/-- Macro `kHistBuckets`: `(1 + (((sizeof(uint32_t) * 8) - 1) / kRadixBits))`. -/
def kHistBuckets : Nat := 1 + (((4 * 8) - 1) / kRadixBits)

/-- Macro `kHistSize`: `(1 << kRadixBits)`. -/
def kHistSize : Nat := 1 <<< kRadixBits

/-- Reduction of an arithmetic result to `uint32_t`. -/
def u32 (x : Nat) : Nat := x % 2 ^ 32

/-- Function `float_flip`: `mask = -((int32_t)(f >> 31)) | 0x80000000; return f ^ mask;` -/
def float_flip (f : Nat) : Nat :=
  let mask := u32 (2 ^ 32 - (f >>> 31)) ||| 0x80000000
  f ^^^ mask

/-- Function `inv_float_flip`: `mask = ((f >> 31) - 1) | 0x80000000; return f ^ mask;` -/
def inv_float_flip (f : Nat) : Nat :=
  let mask := u32 ((f >>> 31) + 2 ^ 32 - 1) ||| 0x80000000
  f ^^^ mask

/-- Body of the inner loop shared by the `init_histograms_*` functions: `++offset[pos]`
for each of the `kHistBuckets` byte positions of `key`. -/
def init_histograms_key (hist : List Nat) (key : Nat) : List Nat :=
  (List.range kHistBuckets).foldl (fun h bucket =>
    let shift := bucket * kRadixBits
    let pos := (key >>> shift) &&& (kHistSize - 1)
    let offset := bucket * kHistSize
    h.set (offset + pos) (u32 (h.getD (offset + pos) 0 + 1))) hist

/-- Function `init_histograms_u32(hist, keys_in, size)`. -/
def init_histograms_u32 (hist : List Nat) (keys_in : List Nat) (size : Nat) : List Nat :=
  (List.range size).foldl (fun h i =>
    let key := keys_in.getD i 0
    init_histograms_key h key) hist

/-- Function `init_histograms_f32(hist, keys_in, size)`: as the `u32` version, on flipped keys. -/
def init_histograms_f32 (hist : List Nat) (keys_in : List Nat) (size : Nat) : List Nat :=
  (List.range size).foldl (fun h i =>
    let key := float_flip (keys_in.getD i 0)
    init_histograms_key h key) hist

/-- First loop of `sum_histograms`: `sum[bucket] = offset[0]; offset[0] = 0;` -/
def sum_histograms_first (hist : List Nat) : List Nat × List Nat :=
  (List.range kHistBuckets).foldl (fun (st : List Nat × List Nat) bucket =>
    let offset := bucket * kHistSize
    (st.1.set offset 0, st.2.set bucket (st.1.getD offset 0)))
    (hist, List.replicate kHistBuckets 0)

/-- Inner loop of the second loop of `sum_histograms`, for one digit `i`:
`tsum = offset[i] + sum[bucket]; offset[i] = sum[bucket]; sum[bucket] = tsum;` -/
def sum_histograms_digit (st : List Nat × List Nat) (i : Nat) : List Nat × List Nat :=
  (List.range kHistBuckets).foldl (fun (st : List Nat × List Nat) bucket =>
    let offset := bucket * kHistSize
    let tsum := u32 (st.1.getD (offset + i) 0 + st.2.getD bucket 0)
    (st.1.set (offset + i) (st.2.getD bucket 0), st.2.set bucket tsum)) st

/-- Function `sum_histograms(hist)`: every entry becomes the sum of the previous entries of
its bucket. The local array `sum` starts here as zeros; every entry is written before it is
read. -/
def sum_histograms (hist : List Nat) : List Nat :=
  ((List.range' 1 (kHistSize - 1)).foldl sum_histograms_digit (sum_histograms_first hist)).1

/-- State of a scatter loop: the histogram and the two output buffers. -/
structure PassState where
  hist : List Nat
  keys_out : List Nat
  values_out : List Nat
deriving DecidableEq, Repr

/-- Function `radixpass_u32(hist + offset, shift, mask, keys_in, keys_out, values_in,
values_out, size)`. -/
def radixpass_u32 (hist : List Nat) (offset shift mask : Nat)
    (keys_in keys_out values_in values_out : List Nat) (size : Nat) : PassState :=
  (List.range size).foldl (fun (st : PassState) i =>
    let key := keys_in.getD i 0
    let pos := (key >>> shift) &&& mask
    let index := st.hist.getD (offset + pos) 0
    { hist := st.hist.set (offset + pos) (u32 (index + 1)),
      keys_out := st.keys_out.set index key,
      values_out := st.values_out.set index (values_in.getD i 0) })
    { hist := hist, keys_out := keys_out, values_out := values_out }

/-- The two key buffers `keys[2]` and the two value buffers `values[2]` of a sort. -/
structure Buffers where
  keys0 : List Nat
  keys1 : List Nat
  values0 : List Nat
  values1 : List Nat
deriving DecidableEq, Repr

/-- Entry `keys[i]` of the array of the two key buffers. -/
def Buffers.keys (b : Buffers) (i : Nat) : List Nat := if i = 0 then b.keys0 else b.keys1

/-- Entry `values[i]` of the array of the two value buffers. -/
def Buffers.values (b : Buffers) (i : Nat) : List Nat := if i = 0 then b.values0 else b.values1

/-- Replace `keys[i]` and `values[i]` by the buffers a pass has written. -/
def Buffers.store (b : Buffers) (i : Nat) (st : PassState) : Buffers :=
  if i = 0 then { b with keys0 := st.keys_out, values0 := st.values_out }
  else { b with keys1 := st.keys_out, values1 := st.values_out }

/-- Result of a sort: the returned selector and the final contents of the four buffers. -/
structure SortResult where
  out : Nat
  hist : List Nat
  bufs : Buffers
deriving DecidableEq, Repr

/-- C `!in` for `in = bucket & 1`. -/
def lnot (x : Nat) : Nat := if x = 0 then 1 else 0

/-- Function `radixsort_u32(keys_in, keys_temp, values_in, values_temp, size)`. -/
def radixsort_u32 (keys_in keys_temp values_in values_temp : List Nat) (size : Nat) :
    SortResult :=
  let hist := List.replicate (kHistBuckets * kHistSize) 0
  let hist := init_histograms_u32 hist keys_in size
  let hist := sum_histograms hist
  let kHistMask := kHistSize - 1
  (List.range kHistBuckets).foldl (fun (r : SortResult) bucket =>
    let in_ := bucket &&& 1
    let out := lnot in_
    let st := radixpass_u32 r.hist (bucket * kHistSize) (bucket * kRadixBits) kHistMask
      (r.bufs.keys in_) (r.bufs.keys out) (r.bufs.values in_) (r.bufs.values out) size
    { out := out, hist := st.hist, bufs := r.bufs.store out st })
    { out := 0, hist := hist,
      bufs := { keys0 := keys_in, keys1 := keys_temp,
                values0 := values_in, values1 := values_temp } }

/-- Function `radix8sort_u32(keys_in_out, keys_temp, values_in_out, values_temp, size)`. -/
def radix8sort_u32 (keys_in_out keys_temp values_in_out values_temp : List Nat) (size : Nat) :
    SortResult :=
  radixsort_u32 keys_in_out keys_temp values_in_out values_temp size

/-- Function `radixsort_f32(keys_in_f32, keys_temp_f32, values_in, values_temp, size)`; a float
buffer is the list of the 32-bit patterns of its elements
(`uint32_t* keys_in = (uint32_t*)keys_in_f32`). -/
def radixsort_f32 (keys_in_f32 keys_temp_f32 values_in values_temp : List Nat) (size : Nat) :
    SortResult :=
  let keys_in := keys_in_f32
  let keys_temp := keys_temp_f32
  let hist := List.replicate (kHistBuckets * kHistSize) 0
  let hist := init_histograms_f32 hist keys_in size
  let hist := sum_histograms hist
  let bufs : Buffers :=
    { keys0 := keys_in, keys1 := keys_temp, values0 := values_in, values1 := values_temp }
  let kHistMask := kHistSize - 1
  -- first pass: flip the keys while scattering
  let r : SortResult :=
    let bucket := 0
    let in_ := bucket &&& 1
    let out := lnot in_
    let offset := bucket * kHistSize
    let st := (List.range size).foldl (fun (st : PassState) i =>
      let key := float_flip ((bufs.keys in_).getD i 0)
      let pos := key &&& kHistMask
      let index := st.hist.getD (offset + pos) 0
      { hist := st.hist.set (offset + pos) (u32 (index + 1)),
        keys_out := st.keys_out.set index key,
        values_out := st.values_out.set index ((bufs.values in_).getD i 0) })
      { hist := hist, keys_out := bufs.keys out, values_out := bufs.values out }
    { out := out, hist := st.hist, bufs := bufs.store out st }
  -- `for (bucket = 1; bucket < kHistBuckets - 1; ++bucket)`
  let r := (List.range' 1 (kHistBuckets - 1 - 1)).foldl (fun (r : SortResult) bucket =>
    let in_ := bucket &&& 1
    let out := lnot in_
    let st := radixpass_u32 r.hist (bucket * kHistSize) (bucket * kRadixBits) kHistMask
      (r.bufs.keys in_) (r.bufs.keys out) (r.bufs.values in_) (r.bufs.values out) size
    { out := out, hist := st.hist, bufs := r.bufs.store out st }) r
  -- last pass: flip the keys back while scattering
  let bucket := kHistBuckets - 1
  let shift := bucket * kRadixBits
  let in_ := bucket &&& 1
  let out := lnot in_
  let offset := bucket * kHistSize
  let st := (List.range size).foldl (fun (st : PassState) i =>
    let key := (r.bufs.keys in_).getD i 0
    let pos := (key >>> shift) &&& kHistMask
    let index := st.hist.getD (offset + pos) 0
    { hist := st.hist.set (offset + pos) (u32 (index + 1)),
      keys_out := st.keys_out.set index (inv_float_flip key),
      values_out := st.values_out.set index ((r.bufs.values in_).getD i 0) })
    { hist := r.hist, keys_out := r.bufs.keys out, values_out := r.bufs.values out }
  { out := out, hist := st.hist, bufs := r.bufs.store out st }

/-- Function `radix8sort_f32(keys_in_out_f32, keys_temp_f32, values_in_out, values_temp,
size)`. -/
def radix8sort_f32 (keys_in_out_f32 keys_temp_f32 values_in_out values_temp : List Nat)
    (size : Nat) : SortResult :=
  radixsort_f32 keys_in_out_f32 keys_temp_f32 values_in_out values_temp size

/-- The key buffer designated by the returned selector (0 = `keys_in_out`, 1 = `keys_temp`). -/
def SortResult.keys (r : SortResult) : List Nat := r.bufs.keys r.out

/-- The value buffer designated by the returned selector. -/
def SortResult.values (r : SortResult) : List Nat := r.bufs.values r.out


/-! ## Specification-level definitions used by the proofs -/

/-- Digit `b` of a key: `(key >> (b * kRadixBits)) & kHistMask`. -/
def digit (b key : Nat) : Nat := (key >>> (b * kRadixBits)) &&& (kHistSize - 1)

/-- Sum of `f 0 .. f (e-1)`. -/
def prefixSum (f : Nat → Nat) : Nat → Nat
  | 0 => 0
  | e + 1 => prefixSum f e + f e

/-- Number of items whose digit is below `d`. -/
def cntLt {α : Type} (dg : α → Nat) (d : Nat) (xs : List α) : Nat :=
  xs.countP (fun x => decide (dg x < d))

/-- Number of items whose digit is `d`. -/
def cntEq {α : Type} (dg : α → Nat) (d : Nat) (xs : List α) : Nat :=
  xs.countP (fun x => decide (dg x = d))

/-- Items whose digit is `d`, in their original order. -/
def bucket {α : Type} (dg : α → Nat) (d : Nat) (xs : List α) : List α :=
  xs.filter (fun x => decide (dg x = d))

/-- Buckets `0 .. m-1` one after the other: the stable counting sort by digit. -/
def bucketCat {α : Type} (dg : α → Nat) (m : Nat) (xs : List α) : List α :=
  (List.range m).flatMap (fun d => bucket dg d xs)

/-- One iteration of a scatter loop on item `x`: `index = hist[pos]++`, `keys_out[index] = ..`,
`values_out[index] = ..`, where `pos = dg x` and the written words are `wk x`, `wv x`. -/
def scatterStep {α : Type} (dg wk wv : α → Nat) (offset : Nat) (st : PassState) (x : α) :
    PassState :=
  let index := st.hist.getD (offset + dg x) 0
  { hist := st.hist.set (offset + dg x) (u32 (index + 1)),
    keys_out := st.keys_out.set index (wk x),
    values_out := st.values_out.set index (wv x) }

/-- The same iteration seen on the histogram and one output buffer, into which `w x` is
written. -/
def scatterStep1 {α : Type} (dg w : α → Nat) (offset : Nat) (st : List Nat × List Nat) (x : α) :
    List Nat × List Nat :=
  let index := st.1.getD (offset + dg x) 0
  (st.1.set (offset + dg x) (u32 (index + 1)), st.2.set index (w x))

/-- Loop invariant of a scatter pass over `xs` after the items `done` have been processed, for
the histogram and one output buffer that started as `hist0` and `out0`. -/
structure ScatterInv {α : Type} (dg w : α → Nat) (offset : Nat) (hist0 out0 : List Nat)
    (xs done : List α) (st : List Nat × List Nat) : Prop where
  hist_length : st.1.length = hist0.length
  hist_other : ∀ p, (p < offset ∨ offset + 256 ≤ p) → st.1.getD p 0 = hist0.getD p 0
  hist_block : ∀ d, d < 256 → st.1.getD (offset + d) 0 = cntLt dg d xs + cntEq dg d done
  out_length : st.2.length = out0.length
  out_tail : st.2.drop xs.length = out0.drop xs.length
  out_seg : ∀ d, d < 256 →
    ((st.2.drop (cntLt dg d xs)).take (cntEq dg d done)) = (bucket dg d done).map w

/-- The (key, value) pairs a pass reads from its input buffers: `(keys_in[i], values_in[i])`
for `i < size`. -/
def readPairs (keys_in values_in : List Nat) (size : Nat) : List (Nat × Nat) :=
  (List.range size).map (fun i => (keys_in.getD i 0, values_in.getD i 0))

/-- The keys a pass reads from its input buffer: `keys_in[i]` for `i < size`. -/
def readKeys (keys_in : List Nat) (size : Nat) : List Nat :=
  (List.range size).map (fun i => keys_in.getD i 0)

/-- One least-significant-digit pass on keys alone: stable counting sort by digit `b`. -/
def lsdKeys (b : Nat) (ks : List Nat) : List Nat := bucketCat (digit b) 256 ks

/-- One least-significant-digit pass on (key, value) pairs: stable counting sort by digit `b`
of the key. -/
def lsdPass (b : Nat) (ps : List (Nat × Nat)) : List (Nat × Nat) :=
  bucketCat (fun p => digit b p.1) 256 ps

/-- A pair with its key passed through `float_flip`. -/
def flipPair (p : Nat × Nat) : Nat × Nat := (float_flip p.1, p.2)

/-! ## IEEE-754 binary32 reading of a 32-bit pattern -/

/-- A pattern is a NaN when its exponent field is all ones and its mantissa is not zero, that
is when its low 31 bits exceed those of infinity. -/
def f32_isNaN (f : Nat) : Bool := decide (0x7F800000 < f % 2 ^ 31)

/-- Magnitude of a binary32 number with exponent-and-mantissa bits `x`, in units of `2^-149`
(the value of the least subnormal): `m` for a subnormal, `(2^23 + m) * 2^(e-1)` for a normal
number. Every finite magnitude is an exact multiple of the unit; infinity (`e = 255`, `m = 0`)
reads as `2^277`, above every finite magnitude. -/
def f32_mag (x : Nat) : Nat :=
  if x / 2 ^ 23 = 0 then x % 2 ^ 23 else (2 ^ 23 + x % 2 ^ 23) * 2 ^ (x / 2 ^ 23 - 1)

/-- Numeric value of a binary32 pattern in units of `2^-149`: sign bit 31 and magnitude. -/
def f32_scaled (f : Nat) : Int :=
  if f / 2 ^ 31 % 2 = 1 then -(f32_mag (f % 2 ^ 31) : Int) else (f32_mag (f % 2 ^ 31) : Int)

/-- Numeric value of a pattern, `none` for a NaN. -/
def f32_value (f : Nat) : Option Int := if f32_isNaN f then none else some (f32_scaled f)

/-- Numeric `a < b` on patterns; false when either is a NaN. -/
def f32_lt (a b : Nat) : Bool :=
  match f32_value a, f32_value b with
  | some x, some y => decide (x < y)
  | _, _ => false

/-- Numeric `a <= b` on patterns; false when either is a NaN. -/
def f32_le (a b : Nat) : Bool :=
  match f32_value a, f32_value b with
  | some x, some y => decide (x ≤ y)
  | _, _ => false

/-- Sign-magnitude reading of a pattern: bit 31 is the sign, the low 31 bits the magnitude. -/
def signMagnitude (f : Nat) : Int :=
  if f / 2 ^ 31 % 2 = 1 then -((f % 2 ^ 31 : Nat) : Int) else ((f % 2 ^ 31 : Nat) : Int)

/-! ## The 64-bit helpers -/

/-- Function `init_histograms_u64(hist, keys_in, size)`; a `uint64_t` buffer is the list of its
elements. The loop visits the same `kHistBuckets` byte positions as the 32-bit version. -/
def init_histograms_u64 (hist : List Nat) (keys_in : List Nat) (size : Nat) : List Nat :=
  (List.range size).foldl (fun h i =>
    let key := keys_in.getD i 0
    init_histograms_key h key) hist

/-- Function `radixpass_u64(hist + offset, shift, mask, keys_in, keys_out, values_in,
values_out, size)`; `pos = (key >> shift) & mask` is computed in 64 bits and, `mask` being a
`uint32_t`, fits the `uint32_t` it is stored in. -/
def radixpass_u64 (hist : List Nat) (offset shift mask : Nat)
    (keys_in keys_out values_in values_out : List Nat) (size : Nat) : PassState :=
  (List.range size).foldl (fun (st : PassState) i =>
    let key := keys_in.getD i 0
    let pos := (key >>> shift) &&& mask
    let index := st.hist.getD (offset + pos) 0
    { hist := st.hist.set (offset + pos) (u32 (index + 1)),
      keys_out := st.keys_out.set index key,
      values_out := st.values_out.set index (values_in.getD i 0) })
    { hist := hist, keys_out := keys_out, values_out := values_out }

/-! ## The scatter indices of a pass -/

/-- The loop of `radixpass_u32` on the histogram alone, recording in order the value
`index = hist[pos]++` of every iteration: the slots of `keys_out` and `values_out` that the pass
writes. -/
def radixpass_u32_indices (hist : List Nat) (offset shift mask : Nat)
    (keys_in : List Nat) (size : Nat) : List Nat :=
  ((List.range size).foldl (fun (st : List Nat × List Nat) i =>
    let key := keys_in.getD i 0
    let pos := (key >>> shift) &&& mask
    let index := st.1.getD (offset + pos) 0
    (st.1.set (offset + pos) (u32 (index + 1)), st.2 ++ [index]))
    (hist, [])).2

/-- Function `radixsort_u32` with, next to its result, the scatter indices of each of its
passes. -/
def radixsort_u32_indices (keys_in keys_temp values_in values_temp : List Nat) (size : Nat) :
    SortResult × List (List Nat) :=
  let hist := List.replicate (kHistBuckets * kHistSize) 0
  let hist := init_histograms_u32 hist keys_in size
  let hist := sum_histograms hist
  let kHistMask := kHistSize - 1
  (List.range kHistBuckets).foldl (fun (acc : SortResult × List (List Nat)) bucket =>
    let r := acc.1
    let in_ := bucket &&& 1
    let out := lnot in_
    let indices := radixpass_u32_indices r.hist (bucket * kHistSize) (bucket * kRadixBits)
      kHistMask (r.bufs.keys in_) size
    let st := radixpass_u32 r.hist (bucket * kHistSize) (bucket * kRadixBits) kHistMask
      (r.bufs.keys in_) (r.bufs.keys out) (r.bufs.values in_) (r.bufs.values out) size
    ({ out := out, hist := st.hist, bufs := r.bufs.store out st }, acc.2 ++ [indices]))
    ({ out := 0, hist := hist,
       bufs := { keys0 := keys_in, keys1 := keys_temp,
                 values0 := values_in, values1 := values_temp } }, [])

/-- Slot of item `x` in a counting sort of `xs` by digit, when the items `done` precede it:
the start of its bucket plus the number of earlier items of the same digit. -/
def slotOf {α : Type} (dg : α → Nat) (xs done : List α) (x : α) : Nat :=
  cntLt dg (dg x) xs + cntEq dg (dg x) done

/-- Slots of the items `rest`, in order, when the items `done` precede them. -/
def slots {α : Type} (dg : α → Nat) (xs : List α) : List α → List α → List Nat
  | _, [] => []
  | done, x :: rest => slotOf dg xs done x :: slots dg xs (done ++ [x]) rest

/-- One iteration of the loop of `radixpass_u32_indices` on an item of digit `dg x`. -/
def traceStep {α : Type} (dg : α → Nat) (offset : Nat) (st : List Nat × List Nat) (x : α) :
    List Nat × List Nat :=
  let index := st.1.getD (offset + dg x) 0
  (st.1.set (offset + dg x) (u32 (index + 1)), st.2 ++ [index])

/-- The scatter indices of a pass over `size` items are in range and written once: one index
per item, each below `size`, no two equal. -/
def InRangeOnce (size : Nat) (indices : List Nat) : Prop :=
  indices.length = size ∧ (∀ index ∈ indices, index < size) ∧ indices.Nodup

end Radixsort

namespace Scene

/-- Function `float_flip` of `scene.c` (a second, textually identical copy of the one in
`radixsort.c`):
`mask = -((int32_t)(f >> 31)) | 0x80000000; return f ^ mask;` -/
def float_flip (f : Nat) : Nat :=
  let mask := Radixsort.u32 (2 ^ 32 - (f >>> 31)) ||| 0x80000000
  f ^^^ mask

/-- Key-building loop of `Scene3D_drawShape`. `zbits i` is the bit pattern of the float
`z = -(p0.z + p1.z + p2.z)` of face `i`. Per face:
`tmp_order_table1[i] = i; zbits.u = float_flip(zbits.u); zbits.u = (zbits.u & 0xFFFFFF00) | i;
tmp_order_table1[i] = zbits.u;` -/
def Scene3D_drawShape_keys (zbits : Nat → Nat) (nFaces : Nat) (tmp_order_table1 : List Nat) :
    List Nat :=
  (List.range nFaces).foldl (fun table i =>
    let table := table.set i i
    let u := float_flip (zbits i)
    let u := (u &&& 0xFFFFFF00) ||| i
    table.set i u) tmp_order_table1

/-- Sort call and draw loop of `Scene3D_drawShape`: the entries `sortedOrder[i]` read by the
draw loop, in the order the loop reads them.
`sortResIndex = radix8sort_u32(tmp_order_table1, tmp_order_table2, nFaces);
sortedOrder = sortResIndex == 1 ? tmp_order_table1 : tmp_order_table2;`
The call site names only the two key tables and the size; the value buffers the sorter of
`radixsort.c` also takes are parameters here (they do not influence the key buffers). -/
def Scene3D_drawShape_walk (zbits : Nat → Nat) (nFaces : Nat)
    (tmp_order_table1 tmp_order_table2 values_in_out values_temp : List Nat) : List Nat :=
  let table1 := Scene3D_drawShape_keys zbits nFaces tmp_order_table1
  let r := Radixsort.radix8sort_u32 table1 tmp_order_table2 values_in_out values_temp nFaces
  let sortResIndex := r.out
  let sortedOrder := if sortResIndex = 1 then r.bufs.keys0 else r.bufs.keys1
  (List.range nFaces).map (fun i => sortedOrder.getD i 0)

/-- Face indices the draw loop passes to `drawShapeFace`: `fi = sortedOrder[i] & 0xFF`. -/
def Scene3D_drawShape_faces (zbits : Nat → Nat) (nFaces : Nat)
    (tmp_order_table1 tmp_order_table2 values_in_out values_temp : List Nat) : List Nat :=
  (Scene3D_drawShape_walk zbits nFaces tmp_order_table1 tmp_order_table2
    values_in_out values_temp).map (fun e => e &&& 0xFF)

/-- The packed keys of faces `0 .. nFaces-1`: `(float_flip(z_i) & 0xFFFFFF00) | i`. -/
def packedKeys (zbits : Nat → Nat) (nFaces : Nat) : List Nat :=
  (List.range nFaces).map (fun i => (float_flip (zbits i) &&& 0xFFFFFF00) ||| i)


/-! ## Binary32 arithmetic

A C `float` of `scene.c` is a value of IEEE-754 binary32: a finite number, an infinity or a NaN.
In `F32.fin q` a finite value is carried by the rational `q` it denotes, and zero stands for
both `+0` and `-0`, which no comparison and no conversion of the code tells apart. Every
arithmetic operation computes the exact result and rounds it with `rn`, to nearest with ties to
even, as a compiler does with `FLT_EVAL_METHOD` 0 and no contraction to fused multiply-add. -/

/-- A value of type `float`. -/
inductive F32 where
  | fin (q : ℚ)
  | inf (neg : Bool)
  | nan
deriving DecidableEq

/-- Rounding of a rational to the nearest integer, a tie to the even one. -/
def rhe (x : ℚ) : ℤ :=
  if x - ⌊x⌋ < 1 / 2 then ⌊x⌋
  else if 1 / 2 < x - ⌊x⌋ then ⌊x⌋ + 1
  else if ⌊x⌋ % 2 = 0 then ⌊x⌋ else ⌊x⌋ + 1

/-- Exponent of the binade of a magnitude `a`: `floor (log2 a)`, and -126 for the subnormal
range (and for zero). -/
def binade (a : ℚ) : ℤ := max (Int.log 2 a) (-126)

/-- Rounding of a magnitude to nearest with ties to even: to a multiple of the unit
`2^(e - 23)` of its binade `e`. A rounded magnitude of `2^128` or more stands for an
overflow. -/
def roundMag (a : ℚ) : ℚ := (rhe (a / 2 ^ (binade a - 23)) : ℚ) * 2 ^ (binade a - 23)

/-- Rounding of an exact result to binary32: the rounded magnitude with the sign of the exact
result. -/
def rn (q : ℚ) : F32 :=
  if 2 ^ 128 ≤ roundMag |q| then F32.inf (decide (q < 0))
  else F32.fin (if q < 0 then -roundMag |q| else roundMag |q|)

/-- Unary minus of C on `float`. -/
def fneg : F32 → F32
  | F32.fin q => F32.fin (-q)
  | F32.inf s => F32.inf (!s)
  | F32.nan => F32.nan

/-- Operator `+` of C on `float`. -/
def fadd : F32 → F32 → F32
  | F32.fin a, F32.fin b => rn (a + b)
  | F32.fin _, F32.inf t => F32.inf t
  | F32.inf s, F32.fin _ => F32.inf s
  | F32.inf s, F32.inf t => if s = t then F32.inf s else F32.nan
  | F32.fin _, F32.nan => F32.nan
  | F32.inf _, F32.nan => F32.nan
  | F32.nan, _ => F32.nan

/-- Operator `-` of C on `float`. -/
def fsub (a b : F32) : F32 := fadd a (fneg b)

/-- Operator `*` of C on `float`. -/
def fmul : F32 → F32 → F32
  | F32.fin a, F32.fin b => rn (a * b)
  | F32.fin a, F32.inf t => if a = 0 then F32.nan else F32.inf (decide (a < 0) != t)
  | F32.inf s, F32.fin b => if b = 0 then F32.nan else F32.inf (s != decide (b < 0))
  | F32.inf s, F32.inf t => F32.inf (s != t)
  | F32.fin _, F32.nan => F32.nan
  | F32.inf _, F32.nan => F32.nan
  | F32.nan, _ => F32.nan

/-- Operator `/` of C on `float`. A zero divisor is taken as `+0`: the zero divisors of
`scene.c` are square roots of sums of squares. -/
def fdiv : F32 → F32 → F32
  | F32.fin a, F32.fin b =>
    if b = 0 then (if a = 0 then F32.nan else F32.inf (decide (a < 0))) else rn (a / b)
  | F32.fin _, F32.inf _ => F32.fin 0
  | F32.inf s, F32.fin b => F32.inf (s != decide (b < 0))
  | F32.inf _, F32.inf _ => F32.nan
  | F32.fin _, F32.nan => F32.nan
  | F32.inf _, F32.nan => F32.nan
  | F32.nan, _ => F32.nan

/-- Operator `<` of C on `float`: false when an operand is a NaN. -/
def flt : F32 → F32 → Bool
  | F32.fin a, F32.fin b => decide (a < b)
  | F32.fin _, F32.inf t => !t
  | F32.inf s, F32.fin _ => s
  | F32.inf s, F32.inf t => s && !t
  | F32.fin _, F32.nan => false
  | F32.inf _, F32.nan => false
  | F32.nan, _ => false

/-- Operator `<=` of C on `float`: false when an operand is a NaN. -/
def fle : F32 → F32 → Bool
  | F32.fin a, F32.fin b => decide (a ≤ b)
  | F32.fin _, F32.inf t => !t
  | F32.inf s, F32.fin _ => s
  | F32.inf s, F32.inf t => s || !t
  | F32.fin _, F32.nan => false
  | F32.inf _, F32.nan => false
  | F32.nan, _ => false

/-- Operator `==` of C on `float`: false when an operand is a NaN; `a != b` is its negation. -/
def feq : F32 → F32 → Bool
  | F32.fin a, F32.fin b => decide (a = b)
  | F32.inf s, F32.inf t => decide (s = t)
  | F32.fin _, F32.inf _ => false
  | F32.inf _, F32.fin _ => false
  | F32.fin _, F32.nan => false
  | F32.inf _, F32.nan => false
  | F32.nan, _ => false

/-- Whether the conversion `(int)` of a float is defined in C: the value is finite and its
truncation fits `int`. -/
def intDefined : F32 → Prop
  | F32.fin q => -2 ^ 31 - 1 < q ∧ q < 2 ^ 31
  | F32.inf _ => False
  | F32.nan => False

instance (x : F32) : Decidable (intDefined x) := by
  cases x <;> unfold intDefined <;> infer_instance

/-- Conversion `(int)` of a float in C: truncation toward zero when the truncated value fits
`int`. Otherwise the conversion is undefined in C; the model takes what the platform yields
from the parameter `out_of_range` (`INT_MIN` on x86-64, the saturated value on ARM), and no
theorem depends on a choice of it unless it says so. -/
def float_to_int (out_of_range : F32 → Int) (x : F32) : Int :=
  match x with
  | F32.fin q =>
    if -2 ^ 31 - 1 < q ∧ q < 2 ^ 31 then (if 0 ≤ q then ⌊q⌋ else ⌈q⌉) else out_of_range x
  | F32.inf _ => out_of_range x
  | F32.nan => out_of_range x

/-! ## The pattern table and the scratch-buffer capacities of `scene.c` -/

/-- Table `patterns` of `scene.c`: 8x8 stipple bitmaps, one byte per row. -/
def patterns : List (List Nat) :=
  [
    [0x00, 0x00, 0x00, 0x00, 0x00, 0x00, 0x00, 0x00],
    [0x80, 0x00, 0x00, 0x00, 0x08, 0x00, 0x00, 0x00],
    [0x88, 0x00, 0x00, 0x00, 0x88, 0x00, 0x00, 0x00],
    [0x88, 0x00, 0x20, 0x00, 0x88, 0x00, 0x02, 0x00],
    [0x88, 0x00, 0x22, 0x00, 0x88, 0x00, 0x22, 0x00],
    [0xa8, 0x00, 0x22, 0x00, 0x8a, 0x00, 0x22, 0x00],
    [0xaa, 0x00, 0x22, 0x00, 0xaa, 0x00, 0x22, 0x00],
    [0xaa, 0x00, 0xa2, 0x00, 0xaa, 0x00, 0x2a, 0x00],
    [0xaa, 0x00, 0xaa, 0x00, 0xaa, 0x00, 0xaa, 0x00],
    [0xaa, 0x40, 0xaa, 0x00, 0xaa, 0x04, 0xaa, 0x00],
    [0xaa, 0x44, 0xaa, 0x00, 0xaa, 0x44, 0xaa, 0x00],
    [0xaa, 0x44, 0xaa, 0x10, 0xaa, 0x44, 0xaa, 0x01],
    [0xaa, 0x44, 0xaa, 0x11, 0xaa, 0x44, 0xaa, 0x11],
    [0xaa, 0x54, 0xaa, 0x11, 0xaa, 0x45, 0xaa, 0x11],
    [0xaa, 0x55, 0xaa, 0x11, 0xaa, 0x55, 0xaa, 0x11],
    [0xaa, 0x55, 0xaa, 0x51, 0xaa, 0x55, 0xaa, 0x15],
    [0xaa, 0x55, 0xaa, 0x55, 0xaa, 0x55, 0xaa, 0x55],
    [0xba, 0x55, 0xaa, 0x55, 0xab, 0x55, 0xaa, 0x55],
    [0xbb, 0x55, 0xaa, 0x55, 0xbb, 0x55, 0xaa, 0x55],
    [0xbb, 0x55, 0xea, 0x55, 0xbb, 0x55, 0xae, 0x55],
    [0xbb, 0x55, 0xee, 0x55, 0xbb, 0x55, 0xee, 0x55],
    [0xfb, 0x55, 0xee, 0x55, 0xbf, 0x55, 0xee, 0x55],
    [0xff, 0x55, 0xee, 0x55, 0xff, 0x55, 0xee, 0x55],
    [0xff, 0x55, 0xfe, 0x55, 0xff, 0x55, 0xef, 0x55],
    [0xff, 0x55, 0xff, 0x55, 0xff, 0x55, 0xff, 0x55],
    [0xff, 0x55, 0xff, 0xd5, 0xff, 0x55, 0xff, 0x5d],
    [0xff, 0x55, 0xff, 0xdd, 0xff, 0x55, 0xff, 0xdd],
    [0xff, 0x75, 0xff, 0xdd, 0xff, 0x57, 0xff, 0xdd],
    [0xff, 0x77, 0xff, 0xdd, 0xff, 0x77, 0xff, 0xdd],
    [0xff, 0x77, 0xff, 0xfd, 0xff, 0x77, 0xff, 0xdf],
    [0xff, 0x77, 0xff, 0xff, 0xff, 0x77, 0xff, 0xff],
    [0xff, 0xf7, 0xff, 0xff, 0xff, 0x7f, 0xff, 0xff],
    [0xff, 0xff, 0xff, 0xff, 0xff, 0xff, 0xff, 0xff]
  ]

/-- Modelled from the spec: the two capacity fields of `Scene3D` (declared in `scene.h`, not
under src/), both of type `int`. -/
structure Scene3D where
  tmp_points_cap : Int
  tmp_faces_cap : Int
deriving DecidableEq

/-- Function `Scene3D_init`, on the capacities: `tmp_points_cap = tmp_faces_cap = 0`. -/
def Scene3D_init (scene : Scene3D) : Scene3D :=
  { scene with tmp_points_cap := 0, tmp_faces_cap := 0 }

/-- Temporary-buffer block of `Scene3D_drawShape`, on the capacities:
`if (tmp_points_cap < nPoints) tmp_points_cap = nPoints;`
`if (tmp_faces_cap < nFaces) tmp_faces_cap = nFaces;` -/
def Scene3D_drawShape_caps (scene : Scene3D) (nPoints nFaces : Int) : Scene3D :=
  let scene :=
    if scene.tmp_points_cap < nPoints then { scene with tmp_points_cap := nPoints } else scene
  let scene :=
    if scene.tmp_faces_cap < nFaces then { scene with tmp_faces_cap := nFaces } else scene
  scene

/-- The capacities after drawing the shapes of a list one after the other, each given by its
`(nPoints, nFaces)`. -/
def drawShapes (scene : Scene3D) (shapes : List (Int × Int)) : Scene3D :=
  shapes.foldl (fun s sh => Scene3D_drawShape_caps s sh.1 sh.2) scene

/-! ## Face drawing and projection of `scene.c` -/

/-- Modelled from the spec: type `float3` of `mathlib.h` (not under src/), a vector of three
float components `x`, `y`, `z`, as `scene.c` uses it. -/
structure float3 where
  x : F32
  y : F32
  z : F32
deriving DecidableEq

/-- Macro `WIDTH`: `#define WIDTH 400`, converted to `float` where it is compared with one. -/
def WIDTH : F32 := F32.fin 400

/-- Macro `HEIGHT`: `#define HEIGHT 240`, converted to `float` where it is compared with one. -/
def HEIGHT : F32 := F32.fin 240

/-- A call of a rasterization primitive made by `drawShapeFace`; the arguments `bitmap` and
`rowstride`, passed on unchanged, are left out, and a pattern pointer `&patterns[vi]` is the
row of the table it points to. -/
inductive DrawCall where
  | fillTriangle (p1 p2 p3 : float3) (pattern : List Nat)
  | drawLine (p1 p2 : float3) (thick : Int) (pattern : List Nat)
deriving DecidableEq

/-- Lighting block of `drawShapeFace` for the value `dot` of `v3_dot(*normal, scene->light)`:
`v = 0.5f - dot * 0.5f; vi = (int)(32.99f * v); if (vi > 32) vi = 32; else if (vi < 0) vi = 0;`
The literal `32.99f` is the binary32 value nearest to 32.99. -/
def drawShapeFace_vi (out_of_range : F32 → Int) (dot : F32) : Int :=
  let v := fsub (F32.fin (1 / 2)) (fmul dot (F32.fin (1 / 2)))
  let vi := float_to_int out_of_range (fmul (rn (3299 / 100)) v)
  if vi > 32 then 32 else if vi < 0 then 0 else vi

/-- The float `32.99f * v` of the lighting block, which the block converts to `int`. -/
def drawShapeFace_vf (dot : F32) : F32 :=
  fmul (rn (3299 / 100)) (fsub (F32.fin (1 / 2)) (fmul dot (F32.fin (1 / 2))))

/-- Edge index of `drawShapeFace`: `vi -= 16; if (vi < 0) vi = 0;` -/
def drawShapeFace_edge_vi (vi : Int) : Int :=
  let vi := vi - 16
  if vi < 0 then 0 else vi

/-- Signed area `d` of `drawShapeFace`, each operation rounded to binary32:
`dx21 = x2 - x1; dy31 = y3 - y1; dx31 = x3 - x1; dy21 = y2 - y1; d = dx21 * dy31 - dy21 * dx31`. -/
def drawShapeFace_d (p1 p2 p3 : float3) : F32 :=
  let dx21 := fsub p2.x p1.x
  let dy31 := fsub p3.y p1.y
  let dx31 := fsub p3.x p1.x
  let dy21 := fsub p2.y p1.y
  fsub (fmul dx21 dy31) (fmul dy21 dx31)

/-- Function `drawShapeFace(scene, bitmap, rowstride, p1, p2, p3, normal, style)`: the list of
primitive calls it makes, in order. Of `scene` only `scene->light` is read. The helper `v3_dot`
(of `mathlib.h`) and the flags `kRenderFilled`, `kRenderWireframe` (of `render.h`), which are not
under src/, are parameters, as is the result `out_of_range` of an undefined conversion to
`int`. -/
def drawShapeFace (out_of_range : F32 → Int) (v3_dot : float3 → float3 → F32)
    (kRenderFilled kRenderWireframe : Nat)
    (light p1 p2 p3 normal : float3) (style : Nat) : List DrawCall :=
  -- If any vertex is behind the camera, skip it
  if fle p1.z (F32.fin 0) = true ∨ fle p2.z (F32.fin 0) = true ∨ fle p3.z (F32.fin 0) = true
  then []
  else
    let x1 := p1.x
    let y1 := p1.y
    let x2 := p2.x
    let y2 := p2.y
    let x3 := p3.x
    let y3 := p3.y
    -- quick bounds check
    if (flt x1 (F32.fin 0) = true ∧ flt x2 (F32.fin 0) = true ∧ flt x3 (F32.fin 0) = true) ∨
        (fle WIDTH x1 = true ∧ fle WIDTH x2 = true ∧ fle WIDTH x3 = true) ∨
        (flt y1 (F32.fin 0) = true ∧ flt y2 (F32.fin 0) = true ∧ flt y3 (F32.fin 0) = true) ∨
        (fle HEIGHT y1 = true ∧ fle HEIGHT y2 = true ∧ fle HEIGHT y3 = true) then []
    else
      -- only render front side of faces via winding order
      let d := drawShapeFace_d p1 p2 p3
      if fle (F32.fin 0) d = true then []
      else
        -- lighting
        let vi := drawShapeFace_vi out_of_range (v3_dot normal light)
        -- fill
        let fill :=
          if style &&& kRenderFilled ≠ 0 then
            [DrawCall.fillTriangle p1 p2 p3 (patterns.getD vi.toNat [])]
          else []
        -- edges
        let edges :=
          if style &&& kRenderWireframe ≠ 0 then
            let vi := drawShapeFace_edge_vi vi
            let pattern := patterns.getD vi.toNat []
            [DrawCall.drawLine p1 p2 1 pattern, DrawCall.drawLine p2 p3 1 pattern,
              DrawCall.drawLine p3 p1 1 pattern]
          else []
        fill ++ edges

/-- Body of the projection loop of `Scene3D_drawShape` for one point, each operation rounded to
binary32:
`if (p->z > 0) { p->x = scale * (p->x / p->z + 1.6666666f * centerx);
p->y = scale * (p->y / p->z + centery); }`
The literal `1.6666666f` is the binary32 value nearest to 1.6666666. -/
def Scene3D_drawShape_project_point (scale centerx centery : F32) (p : float3) : float3 :=
  if flt (F32.fin 0) p.z = true then
    let p : float3 :=
      { p with x := fmul scale (fadd (fdiv p.x p.z) (fmul (rn (16666666 / 10000000)) centerx)) }
    let p : float3 := { p with y := fmul scale (fadd (fdiv p.y p.z) centery) }
    p
  else p

/-- Projection loop of `Scene3D_drawShape` over `tmp_points[0 .. nPoints-1]`. -/
def Scene3D_drawShape_project (scale centerx centery : F32) (tmp_points : List float3)
    (nPoints : Nat) : List float3 :=
  (List.range nPoints).foldl (fun pts i =>
    pts.set i (Scene3D_drawShape_project_point scale centerx centery
      (pts.getD i { x := F32.fin 0, y := F32.fin 0, z := F32.fin 0 }))) tmp_points

/-- Modelled from the spec: helper `v3_dot` of `mathlib.h` (not under src/), the dot product
`a.x*b.x + a.y*b.y + a.z*b.z` of two vectors with each operation rounded to binary32; it stands
for the parameter `v3_dot` where the model is evaluated at concrete inputs. -/
def v3_dot_f32 (a b : float3) : F32 :=
  fadd (fadd (fmul a.x b.x) (fmul a.y b.y)) (fmul a.z b.z)

/-- Bit `c` of byte `r` of a pattern: one pixel of the 8x8 stipple. -/
def patternBit (row : List Nat) (r c : Nat) : Bool := (row.getD r 0).testBit c

/-- Number of set bits of a pattern, over its bytes and the 8 bits of each. -/
def inkCount (row : List Nat) : Nat :=
  (row.map (fun b => (List.range 8).countP (fun c => b.testBit c))).sum

/-- Whether a primitive call is a call of `fillTriangle`. -/
def DrawCall.isFill : DrawCall → Bool
  | DrawCall.fillTriangle _ _ _ _ => true
  | DrawCall.drawLine _ _ _ _ => false

/-- Whether a primitive call is a call of `drawLine`. -/
def DrawCall.isLine : DrawCall → Bool
  | DrawCall.fillTriangle _ _ _ _ => false
  | DrawCall.drawLine _ _ _ _ => true

/-- The quick bounds check of `drawShapeFace`: all three vertices off the same side of the
`WIDTH` x `HEIGHT` screen. -/
def offScreen (p1 p2 p3 : float3) : Prop :=
  (flt p1.x (F32.fin 0) = true ∧ flt p2.x (F32.fin 0) = true ∧ flt p3.x (F32.fin 0) = true) ∨
  (fle WIDTH p1.x = true ∧ fle WIDTH p2.x = true ∧ fle WIDTH p3.x = true) ∨
  (flt p1.y (F32.fin 0) = true ∧ flt p2.y (F32.fin 0) = true ∧ flt p3.y (F32.fin 0) = true) ∨
  (fle HEIGHT p1.y = true ∧ fle HEIGHT p2.y = true ∧ fle HEIGHT p3.y = true)

instance (p1 p2 p3 : float3) : Decidable (offScreen p1 p2 p3) := by
  unfold offScreen
  infer_instance

/-- Definition following the words of the spec for the projected `x` of a point with `z > 0`,
`scale * (x/z + (4/3) * centerX)`, in exact arithmetic; compared with what
`Scene3D_drawShape_project_point` stores. -/
def project_x_four_thirds (scale centerx x z : ℚ) : ℚ := scale * (x / z + 4 / 3 * centerx)

/-- Definition following the words of the spec for the pattern index,
`round(32.99 * v)` clamped to `[0, 32]` with `v = 0.5 - 0.5 * dot`; compared with
`drawShapeFace_vi`, which is what the code computes. -/
def vi_rounded (dot : ℚ) : Int :=
  let v := 1 / 2 - 1 / 2 * dot
  max 0 (min 32 (round (3299 / 100 * v)))

/-! ## Camera construction of `scene.c` -/

/-- Modelled from the spec: type `xform` of `mathlib.h` (not under src/), an affine transform:
a 3x3 linear part, here the list `m` of its nine entries row by row, and a translation `x`, `y`,
`z` (the fields that `scene.c` writes). -/
structure xform where
  m : List F32
  x : F32
  y : F32
  z : F32
deriving DecidableEq

/-- The helpers that `Scene3D_setCamera` calls and that are not under src/ (`sqrtf` of
`math.h`; `v3_lensq`, `mtx_identity`, `mtx_make`, `mtx_multiply` of `mathlib.h`), as parameters
of the model. -/
structure CameraHelpers where
  sqrtf : F32 → F32
  v3_lensq : float3 → F32
  mtx_identity : xform
  mtx_make : F32 → F32 → F32 → F32 → F32 → F32 → F32 → F32 → F32 → xform
  mtx_multiply : xform → xform → xform

/-- What `Scene3D_setCamera` leaves behind: the values stored in `scene->scale` and
`scene->camera`, and the divisors of the float divisions it has executed, in order. -/
structure CameraStore where
  scale : F32
  camera : xform
  divisors : List F32
deriving DecidableEq

/-- Function `Scene3D_setCamera(scene, origin, lookAt, scale, up)`. The integer constants 240,
0 and 1 are converted to `float` where they meet one. -/
def Scene3D_setCamera (H : CameraHelpers) (origin lookAt : float3) (scale : F32) (up : float3) :
    CameraStore :=
  let camera := H.mtx_identity
  let camera : xform := { camera with x := fneg origin.x }
  let camera : xform := { camera with y := fneg origin.y }
  let camera : xform := { camera with z := fneg origin.z }
  let dir : float3 :=
    { x := fsub lookAt.x origin.x, y := fsub lookAt.y origin.y, z := fsub lookAt.z origin.z }
  let l := H.sqrtf (H.v3_lensq dir)
  let dir : float3 := { dir with x := fdiv dir.x l }
  let dir : float3 := { dir with y := fdiv dir.y l }
  let dir : float3 := { dir with z := fdiv dir.z l }
  let divisors := [l, l, l]
  let scene_scale := fmul (F32.fin 240) scale
  -- first yaw around the y axis
  let h := F32.fin 0
  let yawed : F32 × xform × List F32 :=
    if feq dir.x (F32.fin 0) = false ∨ feq dir.z (F32.fin 0) = false then
      let h := H.sqrtf (fadd (fmul dir.x dir.x) (fmul dir.z dir.z))
      let yaw := H.mtx_make (fdiv dir.z h) (F32.fin 0) (fdiv (fneg dir.x) h) (F32.fin 0)
        (F32.fin 1) (F32.fin 0) (fdiv dir.x h) (F32.fin 0) (fdiv dir.z h)
      (h, H.mtx_multiply camera yaw, divisors ++ [h, h, h, h])
    else (h, camera, divisors)
  let h := yawed.1
  let camera := yawed.2.1
  let divisors := yawed.2.2
  -- then pitch up/down to y elevation
  let pitch := H.mtx_make (F32.fin 1) (F32.fin 0) (F32.fin 0) (F32.fin 0) h (fneg dir.y)
    (F32.fin 0) dir.y h
  let camera := H.mtx_multiply camera pitch
  -- and roll to position the up vector
  if feq up.x (F32.fin 0) = false ∨ feq up.y (F32.fin 0) = false then
    let l := H.sqrtf (fadd (fmul up.x up.x) (fmul up.y up.y))
    let roll := H.mtx_make (fdiv up.y l) (fdiv up.x l) (F32.fin 0) (fdiv (fneg up.x) l)
      (fdiv up.y l) (F32.fin 0) (F32.fin 0) (F32.fin 0) (F32.fin 1)
    { scale := scene_scale, camera := H.mtx_multiply camera roll,
      divisors := divisors ++ [l, l, l, l] }
  else
    { scale := scene_scale, camera := camera, divisors := divisors }

/-- The look direction `lookAt - origin` of `Scene3D_setCamera` before it is normalised. -/
def lookDiff (origin lookAt : float3) : float3 :=
  { x := fsub lookAt.x origin.x, y := fsub lookAt.y origin.y, z := fsub lookAt.z origin.z }

/-- The length `l` by which `Scene3D_setCamera` divides the look direction. -/
def lookLength (H : CameraHelpers) (origin lookAt : float3) : F32 :=
  H.sqrtf (H.v3_lensq (lookDiff origin lookAt))

/-- The normalised look direction `dir` of `Scene3D_setCamera`. -/
def lookDir (H : CameraHelpers) (origin lookAt : float3) : float3 :=
  { x := fdiv (lookDiff origin lookAt).x (lookLength H origin lookAt),
    y := fdiv (lookDiff origin lookAt).y (lookLength H origin lookAt),
    z := fdiv (lookDiff origin lookAt).z (lookLength H origin lookAt) }

/-- The planar length `h` of the normalised look direction, by which the yaw stage divides. -/
def planarLength (H : CameraHelpers) (origin lookAt : float3) : F32 :=
  H.sqrtf (fadd (fmul (lookDir H origin lookAt).x (lookDir H origin lookAt).x)
    (fmul (lookDir H origin lookAt).z (lookDir H origin lookAt).z))

/-- The length `l` of the projection of the up vector, by which the roll stage divides. -/
def upLength (H : CameraHelpers) (up : float3) : F32 :=
  H.sqrtf (fadd (fmul up.x up.x) (fmul up.y up.y))

/-- Definition following the words of the spec for the pre-roll camera transform: the
translation by `-origin`, composed with the yaw built from `(dir.z/h, dir.x/h)` when
`dir.x != 0 or dir.z != 0` (`h` the planar length of `dir`, and no yaw with `h = 0` otherwise),
composed with the pitch built from `(h, dir.y)`; compared with what `Scene3D_setCamera`
stores. -/
def prerollTransform (H : CameraHelpers) (origin lookAt : float3) : xform :=
  let dir := lookDir H origin lookAt
  let translation : xform :=
    { m := H.mtx_identity.m, x := fneg origin.x, y := fneg origin.y, z := fneg origin.z }
  if feq dir.x (F32.fin 0) = false ∨ feq dir.z (F32.fin 0) = false then
    let h := planarLength H origin lookAt
    let yaw := H.mtx_make (fdiv dir.z h) (F32.fin 0) (fdiv (fneg dir.x) h) (F32.fin 0)
      (F32.fin 1) (F32.fin 0) (fdiv dir.x h) (F32.fin 0) (fdiv dir.z h)
    let pitch := H.mtx_make (F32.fin 1) (F32.fin 0) (F32.fin 0) (F32.fin 0) h (fneg dir.y)
      (F32.fin 0) dir.y h
    H.mtx_multiply (H.mtx_multiply translation yaw) pitch
  else
    let pitch := H.mtx_make (F32.fin 1) (F32.fin 0) (F32.fin 0) (F32.fin 0) (F32.fin 0)
      (fneg dir.y) (F32.fin 0) dir.y (F32.fin 0)
    H.mtx_multiply translation pitch

/-- Modelled from the spec: function `sqrtf` of `math.h` (not under src/) as IEEE 754
specifies it, the correctly rounded square root. For `q > 0` the root lies in the binade
`e = floor (log2 q / 2)`; with `r = q / 4^(e - 23)` the root is `sqrt r` units of that binade,
`s = floor (sqrt r)`, and `sqrt r` is below, above or at `s + 1/2` as `r` is below, above or at
`s*s + s + 1/4`. It stands for the parameter `sqrtf` where the model is evaluated at concrete
inputs. -/
def sqrtf_nearest : F32 → F32
  | F32.fin q =>
    if q < 0 then F32.nan
    else if q = 0 then F32.fin 0
    else
      let e : ℤ := max (Int.log 2 q / 2) (-126)
      let r : ℚ := q / 2 ^ (2 * (e - 23))
      let s : ℤ := (Nat.sqrt ⌊r⌋.toNat : ℕ)
      let n : ℤ :=
        if r < s * s + s + 1 / 4 then s
        else if (s * s + s + 1 / 4 : ℚ) < r then s + 1
        else if s % 2 = 0 then s else s + 1
      rn ((n : ℚ) * 2 ^ (e - 23))
  | F32.inf s => if s then F32.nan else F32.inf false
  | F32.nan => F32.nan

/-- Modelled from the spec: the helpers of `mathlib.h` (not under src/) for evaluating the
model at concrete inputs, each operation rounded to `float`: `v3_lensq` is the squared length
`x*x + y*y + z*z`, `mtx_identity` the identity linear part with no translation, `mtx_make` the
linear part with the nine given entries and no translation, and `mtx_multiply l r` the
composition that applies `l` first and then `r`. -/
def floatHelpers : CameraHelpers :=
  { sqrtf := sqrtf_nearest,
    v3_lensq := fun v => fadd (fadd (fmul v.x v.x) (fmul v.y v.y)) (fmul v.z v.z),
    mtx_identity :=
      { m := [F32.fin 1, F32.fin 0, F32.fin 0, F32.fin 0, F32.fin 1, F32.fin 0,
              F32.fin 0, F32.fin 0, F32.fin 1],
        x := F32.fin 0, y := F32.fin 0, z := F32.fin 0 },
    mtx_make := fun m11 m12 m13 m21 m22 m23 m31 m32 m33 =>
      { m := [m11, m12, m13, m21, m22, m23, m31, m32, m33],
        x := F32.fin 0, y := F32.fin 0, z := F32.fin 0 },
    mtx_multiply := fun l r =>
      let a := fun i j => l.m.getD (3 * i + j) (F32.fin 0)
      let b := fun i j => r.m.getD (3 * i + j) (F32.fin 0)
      { m := (List.range 9).map (fun k =>
          fadd (fadd (fmul (b (k / 3) 0) (a 0 (k % 3))) (fmul (b (k / 3) 1) (a 1 (k % 3))))
            (fmul (b (k / 3) 2) (a 2 (k % 3)))),
        x := fadd (fadd (fadd (fmul (b 0 0) l.x) (fmul (b 0 1) l.y)) (fmul (b 0 2) l.z)) r.x,
        y := fadd (fadd (fadd (fmul (b 1 0) l.x) (fmul (b 1 1) l.y)) (fmul (b 1 2) l.z)) r.y,
        z := fadd (fadd (fadd (fmul (b 2 0) l.x) (fmul (b 2 1) l.y)) (fmul (b 2 2) l.z)) r.z } }

end Scene

namespace Effects

/-! ## Ordered dither tables of `util/pixel_ops.c` as used by `effects/fx_prettyhip.c` -/

/-- Table `g_order_pattern_2x2` of `util/pixel_ops.c`. -/
def g_order_pattern_2x2 : List (List Int) := [[1, 0], [0, 2], [2, 0], [0, 1]]

/-- Table `g_order_pattern_3x2` of `util/pixel_ops.c`. -/
def g_order_pattern_3x2 : List (List Int) := [[1, 0], [0, 3], [2, 0], [0, 1], [3, 0], [0, 2]]

/-- Table `g_order_pattern_4x2` of `util/pixel_ops.c`. -/
def g_order_pattern_4x2 : List (List Int) :=
  [[1, 0], [0, 3], [3, 0], [0, 1], [2, 0], [0, 4], [4, 0], [0, 2]]

/-- Table `g_order_pattern_4x3` of `util/pixel_ops.c`. -/
def g_order_pattern_4x3 : List (List Int) :=
  [[1, 0, 0], [0, 0, 3], [0, 0, 1], [4, 0, 0], [0, 2, 0], [0, 0, 4],
   [3, 0, 0], [0, 1, 0], [0, 3, 0], [2, 0, 0], [0, 0, 2], [0, 4, 0]]

/-- The matrix in the comment above `g_order_pattern_2x2`: rows `0 3` and `2 1`; the entry at
`[row][column]` is the label of that cell of the pixel block. -/
def matrix_2x2 : List (List Nat) := [[0, 3], [2, 1]]

/-- The matrix in the comment above `g_order_pattern_3x2`: rows `0 2 4` and `3 5 1`. -/
def matrix_3x2 : List (List Nat) := [[0, 2, 4], [3, 5, 1]]

/-- The matrix in the comment above `g_order_pattern_4x2`: rows `0 4 2 6` and `3 7 1 5`. -/
def matrix_4x2 : List (List Nat) := [[0, 4, 2, 6], [3, 7, 1, 5]]

/-- The matrix in the comment above `g_order_pattern_4x3`: rows `0 9 6 3`, `7 4 8 B` and
`2 A 1 5` (hexadecimal labels). -/
def matrix_4x3 : List (List Nat) := [[0, 9, 6, 3], [7, 4, 8, 11], [2, 10, 1, 5]]

/-- Row selection of the background loop of `fx_prettyhip_update` for screen row `py`:
`t_frame_index = G.frame_count & 3; t_row_index = py & 1;`
`col_offset = g_order_pattern_2x2[t_frame_index][t_row_index] - 1;`
a negative result means that the row evaluates no pixel. -/
def fx_prettyhip_update_col_offset (frame_count py : Nat) : Int :=
  let t_frame_index := frame_count &&& 3
  let t_row_index := py &&& 1
  (g_order_pattern_2x2.getD t_frame_index []).getD t_row_index 0 - 1

/-- Background loop of `fx_prettyhip_update`: the indices `pix_idx` of `g_screen_buffer` that
it writes, in order. `LCD_COLUMNS` and `LCD_ROWS` (of `pd_api.h`, not under src/) are
parameters. The inner loop `for (px = col_offset; px < LCD_COLUMNS; px += 2, pix_idx += 2)`
runs `(LCD_COLUMNS - col_offset + 1) / 2` times. -/
def fx_prettyhip_update_pixels (LCD_COLUMNS LCD_ROWS frame_count : Nat) : List Nat :=
  (List.range LCD_ROWS).flatMap (fun py =>
    let col_offset := fx_prettyhip_update_col_offset frame_count py
    if col_offset < 0 then []
    else
      let pix_idx := py * LCD_COLUMNS + col_offset.toNat
      (List.range ((LCD_COLUMNS - col_offset.toNat + 1) / 2)).map (fun k => pix_idx + 2 * k))

/-- The cells `(row, column)` of a pixel block that a table selects in frame `k` under the
indexing of `fx_prettyhip_update`: in row `r` the column `table[k][r] - 1`, none when the entry
is 0. -/
def selectedCells (table : List (List Int)) (k : Nat) : List (Nat × Nat) :=
  (List.range (table.getD k []).length).flatMap (fun r =>
    let col_offset := (table.getD k []).getD r 0 - 1
    if col_offset < 0 then [] else [(r, col_offset.toNat)])

/-- The cells `(row, column)` of a matrix that carry the label `k`. -/
def labelledCells (matrix : List (List Nat)) (k : Nat) : List (Nat × Nat) :=
  (List.range matrix.length).flatMap (fun r =>
    ((List.range (matrix.getD r []).length).filter
      (fun c => (matrix.getD r []).getD c 0 = k)).map (fun c => (r, c)))

end Effects

namespace Radixsort

/-! ## Bit-level facts about `float_flip` and `inv_float_flip` -/

theorem xor_ones (f : Nat) (h : f < 2 ^ 32) : f ^^^ 0xFFFFFFFF = 2 ^ 32 - 1 - f := by
  apply Nat.eq_of_testBit_eq
  intro i
  have e1 : (0xFFFFFFFF : Nat) = 2 ^ 32 - 1 := by norm_num
  have e2 : 2 ^ 32 - 1 - f = 2 ^ 32 - (f + 1) := by omega
  rw [e1, e2, Nat.testBit_xor, Nat.testBit_two_pow_sub_one, Nat.testBit_two_pow_sub_succ h]
  by_cases hi : i < 32
  · simp [hi]
  · have : f.testBit i = false :=
      Nat.testBit_lt_two_pow (lt_of_lt_of_le h (Nat.pow_le_pow_right (by norm_num) (by omega)))
    simp [hi, this]

theorem xor_sign_lo (f : Nat) (h : f < 2 ^ 31) : f ^^^ 0x80000000 = 2 ^ 31 + f := by
  apply Nat.eq_of_testBit_eq
  intro i
  have e1 : (0x80000000 : Nat) = 2 ^ 31 := by norm_num
  rw [e1, Nat.testBit_xor, Nat.testBit_two_pow]
  rcases Nat.lt_trichotomy i 31 with hi | hi | hi
  · rw [Nat.testBit_two_pow_add_gt hi]
    have : ¬ (31 = i) := by omega
    simp [this]
  · subst hi
    rw [Nat.testBit_two_pow_add_eq, Nat.testBit_lt_two_pow h]
    simp
  · have h1 : f.testBit i = false :=
      Nat.testBit_lt_two_pow (lt_of_lt_of_le h (Nat.pow_le_pow_right (by norm_num) (by omega)))
    have h2 : (2 ^ 31 + f).testBit i = false := by
      apply Nat.testBit_lt_two_pow
      have : 2 ^ 32 ≤ 2 ^ i := Nat.pow_le_pow_right (by norm_num) (by omega)
      omega
    have : ¬ (31 = i) := by omega
    rw [h1, h2]
    simp [this]

theorem xor_sign_hi (f : Nat) (h1 : 2 ^ 31 ≤ f) (h2 : f < 2 ^ 32) :
    f ^^^ 0x80000000 = f - 2 ^ 31 := by
  have h := xor_sign_lo (f - 2 ^ 31) (by omega)
  have e : 2 ^ 31 + (f - 2 ^ 31) = f := by omega
  rw [e] at h
  calc f ^^^ 0x80000000 = ((f - 2 ^ 31) ^^^ 0x80000000) ^^^ 0x80000000 := by rw [h]
    _ = f - 2 ^ 31 := by rw [Nat.xor_assoc, Nat.xor_self, Nat.xor_zero]

theorem shift31_lo (f : Nat) (h : f < 2 ^ 31) : f >>> 31 = 0 := by
  rw [Nat.shiftRight_eq_div_pow]; exact Nat.div_eq_of_lt h

theorem shift31_hi (f : Nat) (h1 : 2 ^ 31 ≤ f) (h2 : f < 2 ^ 32) : f >>> 31 = 1 := by
  rw [Nat.shiftRight_eq_div_pow]; omega

theorem float_flip_lo (f : Nat) (h : f < 2 ^ 31) : float_flip f = 2 ^ 31 + f := by
  have : float_flip f = f ^^^ 0x80000000 := by
    simp only [float_flip, u32, shift31_lo f h]; rfl
  rw [this, xor_sign_lo f h]

theorem float_flip_hi (f : Nat) (h1 : 2 ^ 31 ≤ f) (h2 : f < 2 ^ 32) :
    float_flip f = 2 ^ 32 - 1 - f := by
  have : float_flip f = f ^^^ 0xFFFFFFFF := by
    simp only [float_flip, u32, shift31_hi f h1 h2]; rfl
  rw [this, xor_ones f h2]

theorem inv_float_flip_lo (f : Nat) (h : f < 2 ^ 31) : inv_float_flip f = 2 ^ 32 - 1 - f := by
  have : inv_float_flip f = f ^^^ 0xFFFFFFFF := by
    simp only [inv_float_flip, u32, shift31_lo f h]; rfl
  rw [this, xor_ones f (by omega)]

theorem inv_float_flip_hi (f : Nat) (h1 : 2 ^ 31 ≤ f) (h2 : f < 2 ^ 32) :
    inv_float_flip f = f - 2 ^ 31 := by
  have : inv_float_flip f = f ^^^ 0x80000000 := by
    simp only [inv_float_flip, u32, shift31_hi f h1 h2]; rfl
  rw [this, xor_sign_hi f h1 h2]

theorem float_flip_lt (f : Nat) (h : f < 2 ^ 32) : float_flip f < 2 ^ 32 := by
  by_cases h1 : f < 2 ^ 31
  · rw [float_flip_lo f h1]; omega
  · rw [float_flip_hi f (by omega) h]; omega

theorem inv_float_flip_float_flip (f : Nat) (h : f < 2 ^ 32) :
    inv_float_flip (float_flip f) = f := by
  by_cases h1 : f < 2 ^ 31
  · rw [float_flip_lo f h1, inv_float_flip_hi _ (by omega) (by omega)]; omega
  · rw [float_flip_hi f (by omega) h, inv_float_flip_lo _ (by omega)]; omega

theorem float_flip_inv_float_flip (f : Nat) (h : f < 2 ^ 32) :
    float_flip (inv_float_flip f) = f := by
  by_cases h1 : f < 2 ^ 31
  · rw [inv_float_flip_lo f h1, float_flip_hi _ (by omega) (by omega)]; omega
  · rw [inv_float_flip_hi f (by omega) h, float_flip_lo _ (by omega)]; omega

/-! ## `float_flip` respects the numeric order -/

/-- The reading `f32_scaled` on familiar patterns, in units of `2^-149`: 1.0, -1.5, the least
subnormal, the least normal number `2^-126`, both zeros, and the infinities. -/
theorem f32_scaled_examples :
    f32_scaled 0x3F800000 = 2 ^ 149 ∧ f32_scaled 0xBFC00000 = -(3 * 2 ^ 148) ∧
    f32_scaled 0x00000001 = 1 ∧ f32_scaled 0x00800000 = 2 ^ 23 ∧
    f32_scaled 0x00000000 = 0 ∧ f32_scaled 0x80000000 = 0 ∧
    f32_scaled 0x7F800000 = 2 ^ 277 ∧ f32_scaled 0xFF800000 = -(2 ^ 277) ∧
    f32_scaled 0x7F7FFFFF = (2 ^ 24 - 1) * 2 ^ 253 := by
  refine ⟨?_, ?_, ?_, ?_, ?_, ?_, ?_, ?_, ?_⟩ <;> norm_num [f32_scaled, f32_mag]

theorem f32_mag_mono {x y : Nat} (h : x ≤ y) : f32_mag x ≤ f32_mag y := by
  have e23 : (2 : Nat) ^ 23 = 8388608 := by norm_num
  unfold f32_mag
  rw [e23]
  have hdx := Nat.div_add_mod x 8388608
  have hdy := Nat.div_add_mod y 8388608
  have hmx := Nat.mod_lt x (show 0 < 8388608 by norm_num)
  have hmy := Nat.mod_lt y (show 0 < 8388608 by norm_num)
  have hle : x / 8388608 ≤ y / 8388608 := Nat.div_le_div_right h
  generalize x / 8388608 = ex at *
  generalize y / 8388608 = ey at *
  generalize x % 8388608 = mx at *
  generalize y % 8388608 = my at *
  by_cases hx0 : ex = 0
  · by_cases hy0 : ey = 0
    · rw [if_pos hx0, if_pos hy0]; omega
    · rw [if_pos hx0, if_neg hy0]
      have : 0 < 2 ^ (ey - 1) := by positivity
      calc mx ≤ (8388608 + my) * 1 := by omega
        _ ≤ (8388608 + my) * 2 ^ (ey - 1) := Nat.mul_le_mul_left _ this
  · have hy0 : ey ≠ 0 := by omega
    rw [if_neg hx0, if_neg hy0]
    by_cases hee : ex = ey
    · subst hee
      exact Nat.mul_le_mul_right _ (by omega)
    · have hpow : 2 ^ ex ≤ 2 ^ (ey - 1) := Nat.pow_le_pow_right (by norm_num) (by omega)
      have hsplit : 2 ^ ex = 2 * 2 ^ (ex - 1) := by
        have : ex = (ex - 1) + 1 := by omega
        conv_lhs => rw [this, Nat.pow_succ]
        ring
      calc (8388608 + mx) * 2 ^ (ex - 1) ≤ (8388608 + 8388608) * 2 ^ (ex - 1) :=
            Nat.mul_le_mul_right _ (by omega)
        _ = 8388608 * 2 ^ ex := by rw [hsplit]; ring
        _ ≤ 8388608 * 2 ^ (ey - 1) := Nat.mul_le_mul_left _ hpow
        _ ≤ (8388608 + my) * 2 ^ (ey - 1) := Nat.mul_le_mul_right _ (by omega)

/-- The order of flipped words is the numeric order of the patterns. -/
theorem f32_scaled_le_of_flip_le (a b : Nat) (ha : a < 2 ^ 32) (hb : b < 2 ^ 32)
    (h : float_flip a ≤ float_flip b) : f32_scaled a ≤ f32_scaled b := by
  unfold f32_scaled
  by_cases ha1 : a < 2 ^ 31
  · have sa : a / 2 ^ 31 % 2 = 0 := by omega
    have ma : a % 2 ^ 31 = a := by omega
    rw [float_flip_lo a ha1] at h
    by_cases hb1 : b < 2 ^ 31
    · have sb : b / 2 ^ 31 % 2 = 0 := by omega
      have mb : b % 2 ^ 31 = b := by omega
      rw [float_flip_lo b hb1] at h
      rw [sa, sb, ma, mb]
      simp only [zero_ne_one, if_false]
      exact_mod_cast f32_mag_mono (by omega : a ≤ b)
    · rw [float_flip_hi b (by omega) hb] at h
      omega
  · have sa : a / 2 ^ 31 % 2 = 1 := by omega
    rw [float_flip_hi a (by omega) ha] at h
    by_cases hb1 : b < 2 ^ 31
    · have sb : b / 2 ^ 31 % 2 = 0 := by omega
      rw [sa, sb]
      simp only [zero_ne_one, if_false, if_true]
      have h1 : (0 : Int) ≤ (f32_mag (a % 2 ^ 31) : Int) := Int.ofNat_nonneg _
      have h2 : (0 : Int) ≤ (f32_mag (b % 2 ^ 31) : Int) := Int.ofNat_nonneg _
      omega
    · have sb : b / 2 ^ 31 % 2 = 1 := by omega
      rw [float_flip_hi b (by omega) hb] at h
      rw [sa, sb]
      simp only [if_true]
      have := f32_mag_mono (by omega : b % 2 ^ 31 ≤ a % 2 ^ 31)
      omega

theorem signMagnitude_le_of_flip_le (a b : Nat) (ha : a < 2 ^ 32) (hb : b < 2 ^ 32)
    (h : float_flip a ≤ float_flip b) : signMagnitude a ≤ signMagnitude b := by
  unfold signMagnitude
  by_cases ha1 : a < 2 ^ 31
  · rw [float_flip_lo a ha1] at h
    by_cases hb1 : b < 2 ^ 31
    · rw [float_flip_lo b hb1] at h
      have sa : a / 2 ^ 31 % 2 = 0 := by omega
      have sb : b / 2 ^ 31 % 2 = 0 := by omega
      rw [sa, sb]
      simp only [zero_ne_one, if_false]
      omega
    · rw [float_flip_hi b (by omega) hb] at h
      omega
  · rw [float_flip_hi a (by omega) ha] at h
    have sa : a / 2 ^ 31 % 2 = 1 := by omega
    by_cases hb1 : b < 2 ^ 31
    · have sb : b / 2 ^ 31 % 2 = 0 := by omega
      rw [sa, sb]
      simp only [zero_ne_one, if_false, if_true]
      omega
    · rw [float_flip_hi b (by omega) hb] at h
      have sb : b / 2 ^ 31 % 2 = 1 := by omega
      rw [sa, sb]
      simp only [if_true]
      omega

/-! ## List and fold helpers -/

theorem seg_set_other {α : Type} (l : List α) (a m i : Nat) (x : α) (h : i < a ∨ a + m ≤ i) :
    ((l.set i x).drop a).take m = (l.drop a).take m := by
  apply List.ext_getElem?
  intro j
  simp only [List.getElem?_take, List.getElem?_drop, List.getElem?_set]
  by_cases hj : j < m
  · have : ¬ (i = a + j) := by omega
    simp [hj, this]
  · simp [hj]

theorem seg_set_next {α : Type} (l : List α) (a m : Nat) (x : α) (h : a + m < l.length) :
    ((l.set (a + m) x).drop a).take (m + 1) = (l.drop a).take m ++ [x] := by
  apply List.ext_getElem?
  intro j
  have hlen : ((l.drop a).take m).length = m := by
    simp only [List.length_take, List.length_drop]; omega
  simp only [List.getElem?_take, List.getElem?_drop, List.getElem?_set]
  rcases Nat.lt_trichotomy j m with hj | hj | hj
  · rw [List.getElem?_append_left (by omega)]
    have h1 : j < m + 1 := by omega
    have h2 : ¬ (a + m = a + j) := by omega
    simp [h1, h2, hj, List.getElem?_take, List.getElem?_drop]
  · subst hj
    rw [List.getElem?_append_right (by omega)]
    simp [hlen, h]
  · rw [List.getElem?_append_right (by omega)]
    have h1 : ¬ (j < m + 1) := by omega
    have h2 : j - ((l.drop a).take m).length ≠ 0 := by omega
    simp only [h1, if_false]
    rw [List.getElem?_eq_none]
    simp only [List.length_singleton]; omega

theorem getD_set_eq (l : List Nat) (i : Nat) (x : Nat) (h : i < l.length) :
    (l.set i x).getD i 0 = x := by
  simp [List.getD_eq_getElem?_getD, List.getElem?_set, h]

theorem getD_set_ne (l : List Nat) (i j : Nat) (x : Nat) (h : i ≠ j) :
    (l.set i x).getD j 0 = l.getD j 0 := by
  simp [List.getD_eq_getElem?_getD, List.getElem?_set, h]

theorem getElem?_zip_getD (ks vs : List Nat) (i : Nat) (hk : i < ks.length) (hv : i < vs.length) :
    (ks.zip vs)[i]? = some (ks.getD i 0, vs.getD i 0) := by
  have h : i < (ks.zip vs).length := by simp [List.length_zip]; omega
  rw [List.getElem?_eq_getElem h, List.getElem_zip, List.getD_eq_getElem _ _ hk,
    List.getD_eq_getElem _ _ hv]

theorem readKeys_length (ks : List Nat) (size : Nat) : (readKeys ks size).length = size := by
  simp [readKeys]

theorem readKeys_eq_take (ks : List Nat) (size : Nat) (h : size ≤ ks.length) :
    readKeys ks size = ks.take size := by
  apply List.ext_getElem?
  intro i
  unfold readKeys
  by_cases hi : i < size
  · rw [List.getElem?_map, List.getElem?_range hi, Option.map_some', List.getElem?_take_of_lt hi,
      List.getD_eq_getElem _ _ (by omega), List.getElem?_eq_getElem (by omega)]
  · rw [List.getElem?_eq_none (by simp; omega), List.getElem?_eq_none (by simp; omega)]

theorem readKeys_append (A t : List Nat) (size : Nat) (h : A.length = size) :
    readKeys (A ++ t) size = A := by
  rw [readKeys_eq_take _ _ (by simp; omega), List.take_left' h]

theorem readKeys_self (ks : List Nat) : readKeys ks ks.length = ks := by
  rw [readKeys_eq_take _ _ (le_refl _), List.take_length]

theorem readPairs_fst (ki vi : List Nat) (size : Nat) :
    (readPairs ki vi size).map Prod.fst = readKeys ki size := by
  unfold readPairs readKeys
  rw [List.map_map]
  rfl

theorem readPairs_snd (ki vi : List Nat) (size : Nat) :
    (readPairs ki vi size).map Prod.snd = readKeys vi size := by
  unfold readPairs readKeys
  rw [List.map_map]
  rfl

theorem zip_map_fst_snd (X : List (Nat × Nat)) :
    (X.map Prod.fst).zip (X.map Prod.snd) = X := by
  rw [List.zip_map']
  exact List.map_id'' (fun _ => rfl) X

theorem readPairs_eq_zip (ki vi : List Nat) (size : Nat) :
    readPairs ki vi size = (readKeys ki size).zip (readKeys vi size) := by
  rw [← readPairs_fst ki vi size, ← readPairs_snd ki vi size, zip_map_fst_snd]

/-- Reading back the pairs `X` from buffers that start with their keys and their values. -/
theorem readPairs_append (X : List (Nat × Nat)) (t u : List Nat) (size : Nat)
    (h : X.length = size) :
    readPairs (X.map Prod.fst ++ t) (X.map Prod.snd ++ u) size = X := by
  rw [readPairs_eq_zip, readKeys_append _ _ _ (by simp [h]), readKeys_append _ _ _ (by simp [h]),
    zip_map_fst_snd]

theorem readPairs_self (ki vi : List Nat) (h : vi.length = ki.length) :
    readPairs ki vi ki.length = ki.zip vi := by
  rw [readPairs_eq_zip, readKeys_self, ← h, readKeys_self]

/-! ## The scatter loop is a stable counting sort -/

section Scatter
variable {α : Type}

theorem cntLt_succ (dg : α → Nat) (d : Nat) (xs : List α) :
    cntLt dg (d + 1) xs = cntLt dg d xs + cntEq dg d xs := by
  induction xs with
  | nil => simp [cntLt, cntEq]
  | cons x xs ih =>
    simp only [cntLt, cntEq, List.countP_cons] at ih ⊢
    rcases Nat.lt_trichotomy (dg x) d with h | h | h
    · have h1 : dg x < d + 1 := by omega
      have h2 : ¬ dg x = d := by omega
      simp [h, h1, h2]; omega
    · have h1 : dg x < d + 1 := by omega
      have h2 : ¬ dg x < d := by omega
      simp [h, h1, h2]; omega
    · have h1 : ¬ dg x < d + 1 := by omega
      have h2 : ¬ dg x = d := by omega
      have h3 : ¬ dg x < d := by omega
      simp [h1, h2, h3]; omega

theorem cntLt_mono (dg : α → Nat) {d e : Nat} (h : d ≤ e) (xs : List α) :
    cntLt dg d xs ≤ cntLt dg e xs := by
  apply List.countP_mono_left
  intro x _ hx
  simp only [decide_eq_true_eq] at hx ⊢
  omega

theorem cntLt_step (dg : α → Nat) {d e : Nat} (h : d < e) (xs : List α) :
    cntLt dg d xs + cntEq dg d xs ≤ cntLt dg e xs := by
  rw [← cntLt_succ]; exact cntLt_mono dg h xs

theorem cntLt_le_length (dg : α → Nat) (d : Nat) (xs : List α) : cntLt dg d xs ≤ xs.length :=
  List.countP_le_length _

theorem cntLt_zero (dg : α → Nat) (xs : List α) : cntLt dg 0 xs = 0 := by
  simp [cntLt]

theorem cntLt_all (dg : α → Nat) (m : Nat) (xs : List α) (h : ∀ x ∈ xs, dg x < m) :
    cntLt dg m xs = xs.length := by
  unfold cntLt
  rw [List.countP_eq_length]
  intro x hx
  simpa using h x hx

theorem cntEq_append (dg : α → Nat) (d : Nat) (xs ys : List α) :
    cntEq dg d (xs ++ ys) = cntEq dg d xs + cntEq dg d ys := by
  simp [cntEq, List.countP_append]

/-- The slot written for item `x` after the items `done`: it lies inside the bucket of `dg x`,
below `xs.length`, and outside the part already filled of every other bucket. -/
theorem scatter_slot (dg : α → Nat) (xs done rest : List α) (x : α)
    (hxs : done ++ x :: rest = xs) :
    cntLt dg (dg x) xs + cntEq dg (dg x) done + 1 ≤ xs.length ∧
    ∀ d, d ≠ dg x →
      (cntLt dg (dg x) xs + cntEq dg (dg x) done < cntLt dg d xs ∨
       cntLt dg d xs + cntEq dg d done ≤ cntLt dg (dg x) xs + cntEq dg (dg x) done) := by
  have hcount : cntEq dg (dg x) done + 1 ≤ cntEq dg (dg x) xs := by
    rw [← hxs, cntEq_append]
    simp [cntEq, List.countP_cons]
  constructor
  · have h1 := cntLt_succ dg (dg x) xs
    have h2 := cntLt_le_length dg (dg x + 1) xs
    omega
  · intro d hne
    rcases Nat.lt_or_gt_of_ne hne with h | h
    · right
      have h1 := cntLt_step dg h xs
      have h2 : cntEq dg d done ≤ cntEq dg d xs := by
        rw [← hxs, cntEq_append]; omega
      omega
    · left
      have h1 := cntLt_step dg h xs
      omega

theorem scatterInv_step (dg w : α → Nat) (offset : Nat) (hist0 out0 : List Nat)
    (xs done rest : List α) (x : α) (st : List Nat × List Nat)
    (hxs : done ++ x :: rest = xs) (hdg : dg x < 256) (hlen : xs.length < 2 ^ 32)
    (hoff : offset + 256 ≤ hist0.length) (hcap : xs.length ≤ out0.length)
    (inv : ScatterInv dg w offset hist0 out0 xs done st) :
    ScatterInv dg w offset hist0 out0 xs (done ++ [x]) (scatterStep1 dg w offset st x) := by
  have hidx : st.1.getD (offset + dg x) 0 = cntLt dg (dg x) xs + cntEq dg (dg x) done :=
    inv.hist_block _ hdg
  obtain ⟨hbound, hsep⟩ := scatter_slot dg xs done rest x hxs
  have hcnt_same : cntEq dg (dg x) (done ++ [x]) = cntEq dg (dg x) done + 1 := by
    simp [cntEq, List.countP_append]
  have hcnt_other : ∀ d, d ≠ dg x → cntEq dg d (done ++ [x]) = cntEq dg d done := by
    intro d hne
    have : ¬ dg x = d := fun h => hne h.symm
    simp [cntEq, List.countP_append, List.countP_cons, this]
  have hb_same : bucket dg (dg x) (done ++ [x]) = bucket dg (dg x) done ++ [x] := by
    simp [bucket, List.filter_append]
  have hb_other : ∀ d, d ≠ dg x → bucket dg d (done ++ [x]) = bucket dg d done := by
    intro d hne
    have : ¬ dg x = d := fun h => hne h.symm
    simp [bucket, List.filter_append, this]
  constructor
  · simp [scatterStep1, inv.hist_length]
  · intro p hp
    simp only [scatterStep1]
    rw [getD_set_ne _ _ _ _ (by omega)]
    exact inv.hist_other p hp
  · intro d hd
    simp only [scatterStep1]
    by_cases hne : d = dg x
    · subst hne
      rw [getD_set_eq _ _ _ (by rw [inv.hist_length]; omega), hidx, hcnt_same]
      unfold u32
      rw [Nat.mod_eq_of_lt (by omega)]
      omega
    · rw [getD_set_ne _ _ _ _ (by omega), hcnt_other d hne]
      exact inv.hist_block d hd
  · simp [scatterStep1, inv.out_length]
  · simp only [scatterStep1, hidx]
    rw [List.drop_set_of_lt _ _ (by omega)]
    exact inv.out_tail
  · intro d hd
    simp only [scatterStep1, hidx]
    by_cases hne : d = dg x
    · subst hne
      rw [hcnt_same, hb_same, seg_set_next _ _ _ _ (by rw [inv.out_length]; omega),
        inv.out_seg _ hd]
      simp
    · rw [hcnt_other d hne, hb_other d hne, seg_set_other _ _ _ _ _ (hsep d hne)]
      exact inv.out_seg d hd

theorem scatterInv_foldl (dg w : α → Nat) (offset : Nat) (hist0 out0 : List Nat) (xs : List α)
    (hdg : ∀ x ∈ xs, dg x < 256) (hlen : xs.length < 2 ^ 32)
    (hoff : offset + 256 ≤ hist0.length) (hcap : xs.length ≤ out0.length) :
    ∀ (rest done : List α) (st : List Nat × List Nat), done ++ rest = xs →
      ScatterInv dg w offset hist0 out0 xs done st →
      ScatterInv dg w offset hist0 out0 xs xs (rest.foldl (scatterStep1 dg w offset) st) := by
  intro rest
  induction rest with
  | nil =>
    intro done st h inv
    simp only [List.append_nil] at h
    subst h
    simpa using inv
  | cons x rest ih =>
    intro done st h inv
    simp only [List.foldl_cons]
    apply ih (done ++ [x])
    · simpa using h
    · have hx : x ∈ xs := by rw [← h]; simp
      exact scatterInv_step dg w offset hist0 out0 xs done rest x st h (hdg x hx) hlen hoff
        hcap inv

theorem take_cntLt (dg w : α → Nat) (xs : List α) (out : List Nat)
    (hseg : ∀ d, d < 256 →
      ((out.drop (cntLt dg d xs)).take (cntEq dg d xs)) = (bucket dg d xs).map w) :
    ∀ m, m ≤ 256 → out.take (cntLt dg m xs) = (bucketCat dg m xs).map w := by
  intro m
  induction m with
  | zero => intro _; simp [cntLt_zero, bucketCat]
  | succ m ih =>
    intro hm
    rw [cntLt_succ, List.take_add, ih (by omega), hseg m (by omega)]
    simp [bucketCat, List.range_succ, List.flatMap_append]

theorem scatterInv_init (dg w : α → Nat) (offset : Nat) (hist0 out0 : List Nat) (xs : List α)
    (hH : ∀ d, d < 256 → hist0.getD (offset + d) 0 = cntLt dg d xs) :
    ScatterInv dg w offset hist0 out0 xs [] (hist0, out0) where
  hist_length := rfl
  hist_other := fun _ _ => rfl
  hist_block := fun d hd => by
    show hist0.getD (offset + d) 0 = cntLt dg d xs + cntEq dg d []
    rw [hH d hd]; simp [cntEq]
  out_length := rfl
  out_tail := rfl
  out_seg := fun d _ => by simp [cntEq, bucket]

/-- What a scatter loop over `xs` leaves in an output buffer of at least `xs.length` words when
the histogram block holds the exclusive prefix sums of the digit counts of `xs`: the stable
counting sort of `xs` by digit, followed by the untouched rest of the buffer. -/
theorem scatter1_foldl (dg w : α → Nat) (offset : Nat) (hist0 out0 : List Nat) (xs : List α)
    (hdg : ∀ x ∈ xs, dg x < 256) (hlen : xs.length < 2 ^ 32)
    (hoff : offset + 256 ≤ hist0.length) (hcap : xs.length ≤ out0.length)
    (hH : ∀ d, d < 256 → hist0.getD (offset + d) 0 = cntLt dg d xs) :
    (xs.foldl (scatterStep1 dg w offset) (hist0, out0)).2
      = (bucketCat dg 256 xs).map w ++ out0.drop xs.length ∧
    (xs.foldl (scatterStep1 dg w offset) (hist0, out0)).1.length = hist0.length ∧
    ∀ p, (p < offset ∨ offset + 256 ≤ p) →
      (xs.foldl (scatterStep1 dg w offset) (hist0, out0)).1.getD p 0 = hist0.getD p 0 := by
  have inv : ScatterInv dg w offset hist0 out0 xs xs
      (xs.foldl (scatterStep1 dg w offset) (hist0, out0)) :=
    scatterInv_foldl dg w offset hist0 out0 xs hdg hlen hoff hcap xs [] _ (by simp)
      (scatterInv_init dg w offset hist0 out0 xs hH)
  have hall := cntLt_all dg 256 xs hdg
  refine ⟨?_, inv.hist_length, inv.hist_other⟩
  have h := take_cntLt dg w xs _ inv.out_seg 256 (le_refl _)
  rw [hall] at h
  rw [← h, ← inv.out_tail, List.take_append_drop]

/-- The histogram and the key buffer of a scatter loop do not depend on the value buffers. -/
theorem scatterStep_keys (dg wk wv : α → Nat) (offset : Nat) (xs : List α) :
    ∀ st : PassState,
      ((xs.foldl (scatterStep dg wk wv offset) st).hist,
        (xs.foldl (scatterStep dg wk wv offset) st).keys_out)
      = xs.foldl (scatterStep1 dg wk offset) (st.hist, st.keys_out) := by
  induction xs with
  | nil => intro st; rfl
  | cons x xs ih => intro st; simp only [List.foldl_cons]; rw [ih]; rfl

/-- The histogram and the value buffer of a scatter loop do not depend on the key buffers. -/
theorem scatterStep_values (dg wk wv : α → Nat) (offset : Nat) (xs : List α) :
    ∀ st : PassState,
      ((xs.foldl (scatterStep dg wk wv offset) st).hist,
        (xs.foldl (scatterStep dg wk wv offset) st).values_out)
      = xs.foldl (scatterStep1 dg wv offset) (st.hist, st.values_out) := by
  induction xs with
  | nil => intro st; rfl
  | cons x xs ih => intro st; simp only [List.foldl_cons]; rw [ih]; rfl

/-- Result of a scatter loop on both output buffers. -/
theorem scatter_foldl (dg wk wv : α → Nat) (offset : Nat) (hist0 : List Nat) (xs : List α)
    (ko vo : List Nat)
    (hdg : ∀ x ∈ xs, dg x < 256) (hlen : xs.length < 2 ^ 32)
    (hoff : offset + 256 ≤ hist0.length)
    (hH : ∀ d, d < 256 → hist0.getD (offset + d) 0 = cntLt dg d xs) :
    (xs.length ≤ ko.length →
      (xs.foldl (scatterStep dg wk wv offset)
          { hist := hist0, keys_out := ko, values_out := vo }).keys_out
        = (bucketCat dg 256 xs).map wk ++ ko.drop xs.length ∧
      (xs.foldl (scatterStep dg wk wv offset)
          { hist := hist0, keys_out := ko, values_out := vo }).hist.length = hist0.length ∧
      ∀ p, (p < offset ∨ offset + 256 ≤ p) →
        (xs.foldl (scatterStep dg wk wv offset)
          { hist := hist0, keys_out := ko, values_out := vo }).hist.getD p 0
          = hist0.getD p 0) ∧
    (xs.length ≤ vo.length →
      (xs.foldl (scatterStep dg wk wv offset)
          { hist := hist0, keys_out := ko, values_out := vo }).values_out
        = (bucketCat dg 256 xs).map wv ++ vo.drop xs.length) := by
  constructor
  · intro hcap
    have hp := scatterStep_keys dg wk wv offset xs
      { hist := hist0, keys_out := ko, values_out := vo }
    obtain ⟨h1, h2, h3⟩ := scatter1_foldl dg wk offset hist0 ko xs hdg hlen hoff hcap hH
    rw [← hp] at h1 h2 h3
    exact ⟨h1, h2, h3⟩
  · intro hcap
    have hp := scatterStep_values dg wk wv offset xs
      { hist := hist0, keys_out := ko, values_out := vo }
    obtain ⟨h1, _, _⟩ := scatter1_foldl dg wv offset hist0 vo xs hdg hlen hoff hcap hH
    rw [← hp] at h1
    exact h1

end Scatter

theorem readPairs_length (ki vi : List Nat) (size : Nat) : (readPairs ki vi size).length = size := by
  simp [readPairs]

/-- A scatter loop written over indices `0 .. size-1` of a key buffer and a value buffer. -/
theorem scatter_range (dg wk wv : Nat × Nat → Nat) (offset : Nat) (hist ki ko vi vo : List Nat)
    (size : Nat) (hlt : size < 2 ^ 32)
    (hdg : ∀ x, dg x < 256) (hoff : offset + 256 ≤ hist.length)
    (hH : ∀ d, d < 256 → hist.getD (offset + d) 0 = cntLt dg d (readPairs ki vi size)) :
    (size ≤ ko.length →
      ((List.range size).foldl
          (fun st i => scatterStep dg wk wv offset st (ki.getD i 0, vi.getD i 0))
          { hist := hist, keys_out := ko, values_out := vo }).keys_out
        = (bucketCat dg 256 (readPairs ki vi size)).map wk ++ ko.drop size ∧
      ((List.range size).foldl
          (fun st i => scatterStep dg wk wv offset st (ki.getD i 0, vi.getD i 0))
          { hist := hist, keys_out := ko, values_out := vo }).hist.length = hist.length ∧
      ∀ p, (p < offset ∨ offset + 256 ≤ p) →
        ((List.range size).foldl
          (fun st i => scatterStep dg wk wv offset st (ki.getD i 0, vi.getD i 0))
          { hist := hist, keys_out := ko, values_out := vo }).hist.getD p 0 = hist.getD p 0) ∧
    (size ≤ vo.length →
      ((List.range size).foldl
          (fun st i => scatterStep dg wk wv offset st (ki.getD i 0, vi.getD i 0))
          { hist := hist, keys_out := ko, values_out := vo }).values_out
        = (bucketCat dg 256 (readPairs ki vi size)).map wv ++ vo.drop size) := by
  have hfold : (List.range size).foldl
      (fun st i => scatterStep dg wk wv offset st (ki.getD i 0, vi.getD i 0))
      { hist := hist, keys_out := ko, values_out := vo }
      = (readPairs ki vi size).foldl (scatterStep dg wk wv offset)
          { hist := hist, keys_out := ko, values_out := vo } := by
    unfold readPairs
    rw [List.foldl_map]
  rw [hfold]
  have h := scatter_foldl dg wk wv offset hist (readPairs ki vi size) ko vo (fun x _ => hdg x)
    (by rw [readPairs_length]; exact hlt) hoff hH
  rw [readPairs_length] at h
  exact h

/-! ## Properties of the stable counting sort -/

section BucketCat
variable {α : Type}

theorem filter_bucket (dg : α → Nat) (q : α → Bool) (d0 d : Nat) (xs : List α)
    (hq : ∀ x ∈ xs, q x = true → dg x = d0) :
    (bucket dg d xs).filter q = if d = d0 then xs.filter q else [] := by
  unfold bucket
  rw [List.filter_filter]
  by_cases h : d = d0
  · subst h
    rw [if_pos rfl]
    apply List.filter_congr
    intro x hx
    by_cases hqx : q x = true
    · simp [hqx, hq x hx hqx]
    · simp [hqx]
  · rw [if_neg h, List.filter_eq_nil_iff]
    intro x hx hc
    simp only [Bool.and_eq_true, decide_eq_true_eq] at hc
    exact h (hc.2.symm.trans (hq x hx hc.1))

theorem filter_bucketCat (dg : α → Nat) (q : α → Bool) (d0 : Nat) (xs : List α)
    (hq : ∀ x ∈ xs, q x = true → dg x = d0) :
    ∀ m, (bucketCat dg m xs).filter q = if d0 < m then xs.filter q else [] := by
  intro m
  induction m with
  | zero => simp [bucketCat]
  | succ m ih =>
    have e : bucketCat dg (m + 1) xs = bucketCat dg m xs ++ bucket dg m xs := by
      simp [bucketCat, List.range_succ, List.flatMap_append]
    rw [e, List.filter_append, ih, filter_bucket dg q d0 m xs hq]
    by_cases h1 : d0 < m
    · have h2 : d0 < m + 1 := by omega
      have h3 : ¬ m = d0 := by omega
      simp [h1, h2, h3]
    · by_cases h3 : m = d0
      · have h2 : d0 < m + 1 := by omega
        simp [h1, h2, h3]
      · have h2 : ¬ d0 < m + 1 := by omega
        simp [h1, h2, h3]

/-- Stability: the items selected by a predicate that fixes the digit keep their order. -/
theorem filter_bucketCat_all (dg : α → Nat) (q : α → Bool) (d0 m : Nat) (xs : List α)
    (hall : ∀ x ∈ xs, dg x < m) (hq : ∀ x ∈ xs, q x = true → dg x = d0) :
    (bucketCat dg m xs).filter q = xs.filter q := by
  rw [filter_bucketCat dg q d0 xs hq m]
  by_cases h : d0 < m
  · rw [if_pos h]
  · rw [if_neg h]
    symm
    rw [List.filter_eq_nil_iff]
    intro x hx hqx
    have h1 := hall x hx
    have h2 := hq x hx hqx
    omega

theorem bucketCat_perm [DecidableEq α] (dg : α → Nat) (m : Nat) (xs : List α)
    (hall : ∀ x ∈ xs, dg x < m) : (bucketCat dg m xs).Perm xs := by
  rw [List.perm_iff_count]
  intro a
  rw [List.count_eq_countP, List.count_eq_countP, List.countP_eq_length_filter,
    List.countP_eq_length_filter,
    filter_bucketCat_all dg (fun x => x == a) (dg a) m xs hall]
  intro x _ hx
  simp only [beq_iff_eq] at hx
  rw [hx]

/-- One more digit: a list ordered by the low part `lo` becomes ordered by `lo + M * digit`. -/
theorem bucketCat_pairwise (dg lo : α → Nat) (M m : Nat) (xs : List α)
    (hlo : ∀ x ∈ xs, lo x < M) (hp : xs.Pairwise (fun a b => lo a ≤ lo b)) :
    (bucketCat dg m xs).Pairwise (fun a b => lo a + M * dg a ≤ lo b + M * dg b) := by
  unfold bucketCat
  rw [List.pairwise_flatMap]
  constructor
  · intro d _
    have h1 : (bucket dg d xs).Pairwise (fun a b => lo a ≤ lo b) := hp.filter _
    refine List.Pairwise.imp_of_mem ?_ h1
    intro a b ha hb hab
    simp only [bucket, List.mem_filter, decide_eq_true_eq] at ha hb
    rw [ha.2, hb.2]
    omega
  · refine List.Pairwise.imp ?_ (List.pairwise_lt_range m)
    intro d1 d2 hd x hx y hy
    simp only [bucket, List.mem_filter, decide_eq_true_eq] at hx hy
    have h1 := hlo x hx.1
    rw [hx.2, hy.2]
    have h2 : M * (d1 + 1) ≤ M * d2 := Nat.mul_le_mul_left M hd
    rw [Nat.mul_add, Nat.mul_one] at h2
    omega

end BucketCat

theorem bucketCat_map {α β : Type} (dg : β → Nat) (f : α → β) (m : Nat) (xs : List α) :
    bucketCat dg m (xs.map f) = (bucketCat (fun x => dg (f x)) m xs).map f := by
  unfold bucketCat bucket
  rw [List.map_flatMap]
  congr 1
  funext d
  rw [List.filter_map]
  rfl

theorem cntLt_map {α β : Type} (dg : β → Nat) (f : α → β) (d : Nat) (xs : List α) :
    cntLt dg d (xs.map f) = cntLt (fun x => dg (f x)) d xs := by
  unfold cntLt
  rw [List.countP_map]
  rfl

/-! ## Histograms -/

theorem kHistBuckets_eq : kHistBuckets = 4 := rfl
theorem kHistSize_eq : kHistSize = 256 := rfl
theorem kRadixBits_eq : kRadixBits = 8 := rfl

theorem digit_eq (b key : Nat) : digit b key = key / 256 ^ b % 256 := by
  have h : kHistSize - 1 = 2 ^ 8 - 1 := rfl
  rw [digit, h, Nat.and_pow_two_sub_one_eq_mod, Nat.shiftRight_eq_div_pow, kRadixBits_eq,
    Nat.mul_comm, Nat.pow_mul]

theorem digit_lt (b key : Nat) : digit b key < 256 := by
  rw [digit_eq]; exact Nat.mod_lt _ (by norm_num)

theorem init_histograms_key_aux (h : List Nat) (key : Nat) (hl : h.length = 1024) :
    ∀ nb, nb ≤ 4 →
      ((List.range nb).foldl (fun h bucket =>
        h.set (bucket * kHistSize + digit bucket key)
          (u32 (h.getD (bucket * kHistSize + digit bucket key) 0 + 1))) h).length = 1024 ∧
      ∀ b d, d < 256 →
        ((List.range nb).foldl (fun h bucket =>
          h.set (bucket * kHistSize + digit bucket key)
            (u32 (h.getD (bucket * kHistSize + digit bucket key) 0 + 1))) h).getD (b * 256 + d) 0
        = if b < nb ∧ d = digit b key then u32 (h.getD (b * 256 + d) 0 + 1)
          else h.getD (b * 256 + d) 0 := by
  intro nb
  induction nb with
  | zero => intro _; simp [hl]
  | succ nb ih =>
    intro hnb
    obtain ⟨ihl, ihg⟩ := ih (by omega)
    rw [List.range_succ, List.foldl_append]
    simp only [List.foldl_cons, List.foldl_nil, List.length_set, kHistSize_eq]
    simp only [kHistSize_eq] at ihl ihg
    refine ⟨ihl, ?_⟩
    intro b d hd
    have hdl := digit_lt nb key
    by_cases hb : b = nb ∧ d = digit nb key
    · obtain ⟨rfl, rfl⟩ := hb
      rw [getD_set_eq _ _ _ (by rw [ihl]; omega), ihg b _ hdl]
      simp
    · rw [getD_set_ne _ _ _ _ (by omega), ihg b d hd]
      by_cases h1 : b < nb ∧ d = digit b key
      · have h2 : b < nb + 1 ∧ d = digit b key := ⟨by omega, h1.2⟩
        simp [h1, h2]
      · have h2 : ¬ (b < nb + 1 ∧ d = digit b key) := by
          rintro ⟨h3, h4⟩
          by_cases h5 : b = nb
          · subst h5; exact hb ⟨rfl, h4⟩
          · exact h1 ⟨by omega, h4⟩
        simp [h1, h2]

theorem init_histograms_key_spec (h : List Nat) (key : Nat) (hl : h.length = 1024) :
    (init_histograms_key h key).length = 1024 ∧
    ∀ b d, b < 4 → d < 256 →
      (init_histograms_key h key).getD (b * 256 + d) 0
        = if d = digit b key then u32 (h.getD (b * 256 + d) 0 + 1) else h.getD (b * 256 + d) 0 := by
  have h4 := init_histograms_key_aux h key hl 4 (le_refl _)
  refine ⟨h4.1, ?_⟩
  intro b d hb hd
  have := h4.2 b d hd
  simp only [hb, true_and] at this
  exact this

/-- Histogram after folding `init_histograms_key` over a list of keys. -/
theorem init_histograms_foldl (keys : List Nat) :
    ∀ (h : List Nat), h.length = 1024 →
      (∀ b d, b < 4 → d < 256 → h.getD (b * 256 + d) 0 + keys.length < 2 ^ 32) →
      (keys.foldl init_histograms_key h).length = 1024 ∧
      ∀ b d, b < 4 → d < 256 →
        (keys.foldl init_histograms_key h).getD (b * 256 + d) 0
          = h.getD (b * 256 + d) 0 + keys.countP (fun k => decide (digit b k = d)) := by
  induction keys with
  | nil => intro h hl _; simp [hl]
  | cons k keys ih =>
    intro h hl hbound
    obtain ⟨l1, g1⟩ := init_histograms_key_spec h k hl
    simp only [List.foldl_cons]
    have hb1 : ∀ b d, b < 4 → d < 256 →
        (init_histograms_key h k).getD (b * 256 + d) 0 + keys.length < 2 ^ 32 := by
      intro b d hb hd
      have := hbound b d hb hd
      simp only [List.length_cons] at this
      rw [g1 b d hb hd]
      split
      · unfold u32; rw [Nat.mod_eq_of_lt (by omega)]; omega
      · omega
    obtain ⟨l2, g2⟩ := ih _ l1 hb1
    refine ⟨l2, ?_⟩
    intro b d hb hd
    have := hbound b d hb hd
    simp only [List.length_cons] at this
    rw [g2 b d hb hd, g1 b d hb hd, List.countP_cons]
    by_cases hdk : d = digit b k
    · subst hdk
      simp only [if_true, decide_True]
      unfold u32; rw [Nat.mod_eq_of_lt (by omega)]; simp; omega
    · have : ¬ digit b k = d := fun h => hdk h.symm
      simp [hdk, this]

theorem foldl_range_inv {σ : Type} (f : σ → Nat → σ) (P : Nat → σ → Prop) (s : σ) (n : Nat)
    (h0 : P 0 s) (hstep : ∀ i st, i < n → P i st → P (i + 1) (f st i)) :
    P n ((List.range n).foldl f s) := by
  induction n with
  | zero => simpa using h0
  | succ n ih =>
    rw [List.range_succ, List.foldl_append]
    simp only [List.foldl_cons, List.foldl_nil]
    exact hstep n _ (by omega) (ih (fun i st hi => hstep i st (by omega)))

theorem foldl_range'_inv {σ : Type} (f : σ → Nat → σ) (P : Nat → σ → Prop) (s : σ) (a n : Nat)
    (h0 : P a s) (hstep : ∀ i st, a ≤ i → i < a + n → P i st → P (i + 1) (f st i)) :
    P (a + n) ((List.range' a n).foldl f s) := by
  induction n with
  | zero => simpa using h0
  | succ n ih =>
    rw [List.range'_concat, List.foldl_append]
    simp only [List.foldl_cons, List.foldl_nil, Nat.one_mul]
    exact hstep (a + n) _ (by omega) (by omega) (ih (fun i st h1 h2 => hstep i st h1 (by omega)))

theorem prefixSum_mono (f : Nat → Nat) {d e : Nat} (h : d ≤ e) : prefixSum f d ≤ prefixSum f e := by
  induction e with
  | zero => have : d = 0 := by omega
            subst this; exact le_refl _
  | succ e ih =>
    by_cases hd : d = e + 1
    · subst hd; exact le_refl _
    · have := ih (by omega)
      simp only [prefixSum]; omega

theorem sum_histograms_first_spec (h : List Nat) (hl : h.length = 1024) :
    (sum_histograms_first h).1.length = 1024 ∧ (sum_histograms_first h).2.length = 4 ∧
    (∀ b d, b < 4 → d < 256 → (sum_histograms_first h).1.getD (b * 256 + d) 0
        = if d = 0 then 0 else h.getD (b * 256 + d) 0) ∧
    (∀ b, b < 4 → (sum_histograms_first h).2.getD b 0 = h.getD (b * 256) 0) := by
  have key := foldl_range_inv
    (fun (st : List Nat × List Nat) bucket =>
      (st.1.set (bucket * kHistSize) 0, st.2.set bucket (st.1.getD (bucket * kHistSize) 0)))
    (fun nb st => st.1.length = 1024 ∧ st.2.length = 4 ∧
      (∀ b d, d < 256 → st.1.getD (b * 256 + d) 0
        = if b < nb ∧ d = 0 then 0 else h.getD (b * 256 + d) 0) ∧
      (∀ b, b < nb → st.2.getD b 0 = h.getD (b * 256) 0))
    (h, List.replicate kHistBuckets 0) 4
    (by simp [hl, kHistBuckets_eq])
    (by
      rintro nb ⟨h1, s1⟩ hnb ⟨l1, l2, g1, g2⟩
      simp only [kHistSize_eq] at *
      refine ⟨by simpa using l1, by simpa using l2, ?_, ?_⟩
      · intro b d hd
        by_cases hb : b = nb ∧ d = 0
        · obtain ⟨rfl, rfl⟩ := hb
          rw [Nat.add_zero, getD_set_eq _ _ _ (by omega), if_pos ⟨Nat.lt_succ_self _, rfl⟩]
        · rw [getD_set_ne _ _ _ _ (by omega), g1 b d hd]
          by_cases h3 : b < nb ∧ d = 0
          · have : b < nb + 1 ∧ d = 0 := ⟨by omega, h3.2⟩
            simp [h3, this]
          · have : ¬ (b < nb + 1 ∧ d = 0) := by
              rintro ⟨h4, h5⟩
              by_cases h6 : b = nb
              · exact hb ⟨h6, h5⟩
              · exact h3 ⟨by omega, h5⟩
            simp [h3, this]
      · intro b hb
        by_cases hbn : b = nb
        · subst hbn
          rw [getD_set_eq _ _ _ (by omega)]
          have := g1 b 0 (by norm_num)
          rw [Nat.add_zero, if_neg (fun h => Nat.lt_irrefl _ h.1)] at this
          exact this
        · rw [getD_set_ne _ _ _ _ (by omega)]
          exact g2 b (by omega))
  obtain ⟨l1, l2, g1, g2⟩ := key
  refine ⟨l1, l2, ?_, g2⟩
  intro b d hb hd
  have := g1 b d hd
  simp only [hb, true_and] at this
  exact this

theorem sum_histograms_digit_spec (h s : List Nat) (i : Nat) (hl : h.length = 1024)
    (sl : s.length = 4) (hi : i < 256) :
    (sum_histograms_digit (h, s) i).1.length = 1024 ∧
    (sum_histograms_digit (h, s) i).2.length = 4 ∧
    (∀ b d, b < 4 → d < 256 → (sum_histograms_digit (h, s) i).1.getD (b * 256 + d) 0
        = if d = i then s.getD b 0 else h.getD (b * 256 + d) 0) ∧
    (∀ b, b < 4 → (sum_histograms_digit (h, s) i).2.getD b 0
        = u32 (h.getD (b * 256 + i) 0 + s.getD b 0)) := by
  have key := foldl_range_inv
    (fun (st : List Nat × List Nat) bucket =>
      (st.1.set (bucket * kHistSize + i) (st.2.getD bucket 0),
        st.2.set bucket (u32 (st.1.getD (bucket * kHistSize + i) 0 + st.2.getD bucket 0))))
    (fun nb st => st.1.length = 1024 ∧ st.2.length = 4 ∧
      (∀ b d, d < 256 → st.1.getD (b * 256 + d) 0
        = if b < nb ∧ d = i then s.getD b 0 else h.getD (b * 256 + d) 0) ∧
      (∀ b, st.2.getD b 0
        = if b < nb then u32 (h.getD (b * 256 + i) 0 + s.getD b 0) else s.getD b 0))
    (h, s) 4
    ⟨hl, sl, fun b d _ => by rw [if_neg (fun h => Nat.not_lt_zero _ h.1)],
      fun b => by rw [if_neg (Nat.not_lt_zero _)]⟩
    (by
      rintro nb ⟨h1, s1⟩ hnb ⟨l1, l2, g1, g2⟩
      simp only [kHistSize_eq] at *
      refine ⟨by simpa using l1, by simpa using l2, ?_, ?_⟩
      · intro b d hd
        by_cases hb : b = nb ∧ d = i
        · obtain ⟨rfl, rfl⟩ := hb
          rw [getD_set_eq _ _ _ (by omega), g2 b]
          simp
        · rw [getD_set_ne _ _ _ _ (by omega), g1 b d hd]
          by_cases h3 : b < nb ∧ d = i
          · have : b < nb + 1 ∧ d = i := ⟨by omega, h3.2⟩
            simp [h3, this]
          · have : ¬ (b < nb + 1 ∧ d = i) := by
              rintro ⟨h4, h5⟩
              by_cases h6 : b = nb
              · exact hb ⟨h6, h5⟩
              · exact h3 ⟨by omega, h5⟩
            simp [h3, this]
      · intro b
        by_cases hbn : b = nb
        · subst hbn
          rw [getD_set_eq _ _ _ (by omega), g1 b i hi, g2 b]
          simp
        · rw [getD_set_ne _ _ _ _ (fun h => hbn h.symm), g2 b]
          by_cases h3 : b < nb
          · have : b < nb + 1 := by omega
            simp [h3, this]
          · have : ¬ b < nb + 1 := by omega
            simp [h3, this])
  obtain ⟨l1, l2, g1, g2⟩ := key
  refine ⟨l1, l2, ?_, ?_⟩
  · intro b d hb hd
    have := g1 b d hd
    simp only [hb, true_and] at this
    exact this
  · intro b hb
    have := g2 b
    simp only [hb, if_true] at this
    exact this

/-- Every block of 256 counters is turned by `sum_histograms` into its exclusive prefix sums. -/
theorem sum_histograms_spec (h : List Nat) (hl : h.length = 1024)
    (hsum : ∀ b, b < 4 → prefixSum (fun e => h.getD (b * 256 + e) 0) 256 < 2 ^ 32) :
    (sum_histograms h).length = 1024 ∧
    ∀ b d, b < 4 → d < 256 →
      (sum_histograms h).getD (b * 256 + d) 0 = prefixSum (fun e => h.getD (b * 256 + e) 0) d := by
  obtain ⟨fl1, fl2, fg1, fg2⟩ := sum_histograms_first_spec h hl
  have key := foldl_range'_inv sum_histograms_digit
    (fun m st => st.1.length = 1024 ∧ st.2.length = 4 ∧
      ∀ b, b < 4 →
        st.2.getD b 0 = prefixSum (fun e => h.getD (b * 256 + e) 0) m ∧
        ∀ d, d < 256 → st.1.getD (b * 256 + d) 0
          = if d < m then prefixSum (fun e => h.getD (b * 256 + e) 0) d
            else h.getD (b * 256 + d) 0)
    (sum_histograms_first h) 1 255
    (by
      refine ⟨fl1, fl2, ?_⟩
      intro b hb
      refine ⟨by rw [fg2 b hb]; simp [prefixSum], ?_⟩
      intro d hd
      rw [fg1 b d hb hd]
      by_cases h0 : d = 0
      · subst h0; simp [prefixSum]
      · have : ¬ d < 1 := by omega
        simp [h0, this])
    (by
      rintro m ⟨h1, s1⟩ hm1 hm2 ⟨l1, l2, g⟩
      obtain ⟨dl1, dl2, dg1, dg2⟩ := sum_histograms_digit_spec h1 s1 m l1 l2 (by omega)
      refine ⟨dl1, dl2, ?_⟩
      intro b hb
      obtain ⟨gs, gh⟩ := g b hb
      simp only at gs gh
      have hle : prefixSum (fun e => h.getD (b * 256 + e) 0) (m + 1) < 2 ^ 32 :=
        lt_of_le_of_lt (prefixSum_mono _ (by omega)) (hsum b hb)
      constructor
      · rw [dg2 b hb, gs, gh m (by omega)]
        simp only [lt_irrefl, if_false]
        simp only [prefixSum] at hle ⊢
        unfold u32
        rw [Nat.mod_eq_of_lt (by omega)]
        omega
      · intro d hd
        rw [dg1 b d hb hd]
        by_cases hdm : d = m
        · subst hdm
          rw [if_pos rfl, if_pos (Nat.lt_succ_self _), gs]
        · rw [gh d hd]
          by_cases h3 : d < m
          · have : d < m + 1 := by omega
            simp [hdm, h3, this]
          · have : ¬ d < m + 1 := by omega
            simp [hdm, h3, this])
  obtain ⟨l1, _, g⟩ := key
  refine ⟨l1, ?_⟩
  intro b d hb hd
  have := (g b hb).2 d hd
  simp only [show d < 1 + 255 by omega, if_true] at this
  exact this

theorem getD_replicate_zero (n i : Nat) : (List.replicate n 0).getD i 0 = 0 := by
  rw [List.getD_eq_getElem?_getD, List.getElem?_replicate]
  split <;> rfl

theorem prefixSum_congr (f g : Nat → Nat) (d : Nat) (h : ∀ e, e < d → f e = g e) :
    prefixSum f d = prefixSum g d := by
  induction d with
  | zero => rfl
  | succ d ih =>
    simp only [prefixSum]
    rw [ih (fun e he => h e (by omega)), h d (by omega)]

theorem prefixSum_cntEq {α : Type} (dg : α → Nat) (xs : List α) (d : Nat) :
    prefixSum (fun e => cntEq dg e xs) d = cntLt dg d xs := by
  induction d with
  | zero => simp [prefixSum, cntLt_zero]
  | succ d ih => simp only [prefixSum]; rw [ih, cntLt_succ]

/-- After counting and summing, block `b` of the histogram holds for every digit `d` the number
of keys whose digit `b` is below `d`. -/
theorem sum_init_spec (keys : List Nat) (hlt : keys.length < 2 ^ 32) :
    (sum_histograms (keys.foldl init_histograms_key
      (List.replicate (kHistBuckets * kHistSize) 0))).length = 1024 ∧
    ∀ b d, b < 4 → d < 256 →
      (sum_histograms (keys.foldl init_histograms_key
        (List.replicate (kHistBuckets * kHistSize) 0))).getD (b * 256 + d) 0
        = cntLt (digit b) d keys := by
  have e0 : kHistBuckets * kHistSize = 1024 := rfl
  rw [e0]
  obtain ⟨l1, g1⟩ := init_histograms_foldl keys (List.replicate 1024 0)
    (List.length_replicate _ _)
    (by intro b d _ _; rw [getD_replicate_zero]; omega)
  have g1' : ∀ b, b < 4 → ∀ e, e < 256 →
      (keys.foldl init_histograms_key (List.replicate 1024 0)).getD (b * 256 + e) 0
        = cntEq (digit b) e keys := by
    intro b hb e he
    rw [g1 b e hb he, getD_replicate_zero, Nat.zero_add]
    rfl
  have hps : ∀ b, b < 4 → ∀ d, d ≤ 256 →
      prefixSum (fun e => (keys.foldl init_histograms_key
        (List.replicate 1024 0)).getD (b * 256 + e) 0) d = cntLt (digit b) d keys := by
    intro b hb d hd
    rw [prefixSum_congr _ (fun e => cntEq (digit b) e keys) d
      (fun e he => g1' b hb e (by omega)), prefixSum_cntEq]
  obtain ⟨l2, g2⟩ := sum_histograms_spec _ l1 (by
    intro b hb
    rw [hps b hb 256 (le_refl _)]
    exact lt_of_le_of_lt (cntLt_le_length _ _ _) hlt)
  refine ⟨l2, ?_⟩
  intro b d hb hd
  rw [g2 b d hb hd, hps b hb d (by omega)]

theorem init_histograms_u32_eq (hist keys : List Nat) (size : Nat) :
    init_histograms_u32 hist keys size = (readKeys keys size).foldl init_histograms_key hist := by
  unfold init_histograms_u32 readKeys
  rw [List.foldl_map]

theorem init_histograms_f32_eq (hist keys : List Nat) (size : Nat) :
    init_histograms_f32 hist keys size
      = ((readKeys keys size).map float_flip).foldl init_histograms_key hist := by
  unfold init_histograms_f32 readKeys
  rw [List.foldl_map, List.foldl_map]

theorem cntLt_fst (b d : Nat) (ps : List (Nat × Nat)) :
    cntLt (fun p : Nat × Nat => digit b p.1) d ps = cntLt (digit b) d (ps.map Prod.fst) := by
  unfold cntLt
  rw [List.countP_map]
  rfl

theorem cntLt_perm {α : Type} (dg : α → Nat) (d : Nat) {xs ys : List α} (h : xs.Perm ys) :
    cntLt dg d xs = cntLt dg d ys :=
  List.Perm.countP_eq _ h

/-! ## The four passes -/

theorem radixsort_u32_unroll (ki kt vi vt : List Nat) (size : Nat) :
    radixsort_u32 ki kt vi vt size =
      (let hist := sum_histograms
          (init_histograms_u32 (List.replicate (kHistBuckets * kHistSize) 0) ki size)
       let s0 := radixpass_u32 hist (0 * kHistSize) (0 * kRadixBits) (kHistSize - 1) ki kt vi vt size
       let s1 := radixpass_u32 s0.hist (1 * kHistSize) (1 * kRadixBits) (kHistSize - 1)
          s0.keys_out ki s0.values_out vi size
       let s2 := radixpass_u32 s1.hist (2 * kHistSize) (2 * kRadixBits) (kHistSize - 1)
          s1.keys_out s0.keys_out s1.values_out s0.values_out size
       let s3 := radixpass_u32 s2.hist (3 * kHistSize) (3 * kRadixBits) (kHistSize - 1)
          s2.keys_out s1.keys_out s2.values_out s1.values_out size
       { out := 0, hist := s3.hist,
         bufs := { keys0 := s3.keys_out, keys1 := s2.keys_out,
                   values0 := s3.values_out, values1 := s2.values_out } }) := by
  have hr : List.range kHistBuckets = [0, 1, 2, 3] := by decide
  unfold radixsort_u32
  simp only [hr, List.foldl_cons, List.foldl_nil]
  have a0 : 0 &&& 1 = 0 := by decide
  have a1 : 1 &&& 1 = 1 := by decide
  have a2 : 2 &&& 1 = 0 := by decide
  have a3 : 3 &&& 1 = 1 := by decide
  simp only [a0, a1, a2, a3, lnot, Buffers.keys, Buffers.values, Buffers.store, if_true,
    one_ne_zero, if_false]

theorem lsdPass_perm (b : Nat) (X : List (Nat × Nat)) : (lsdPass b X).Perm X :=
  bucketCat_perm _ 256 X (fun x _ => digit_lt b x.1)

theorem lsdKeys_perm (b : Nat) (K : List Nat) : (lsdKeys b K).Perm K :=
  bucketCat_perm _ 256 K (fun x _ => digit_lt b x)

theorem lsdPass_map_fst (b : Nat) (X : List (Nat × Nat)) :
    (lsdPass b X).map Prod.fst = lsdKeys b (X.map Prod.fst) := by
  unfold lsdPass lsdKeys
  rw [bucketCat_map]

/-- A call of `radixpass_u32` for byte `b`, when block `b` of the histogram holds the exclusive
prefix sums for the keys read: the output buffers start with the stable counting sort of what
was read and keep their words from index `size` on; the other blocks of the histogram are
untouched. -/
theorem radixpass_u32_spec (b : Nat) (hist ki ko vi vo : List Nat) (size : Nat)
    (hlt : size < 2 ^ 32) (hb : b < 4) (hhl : hist.length = 1024)
    (hH : ∀ d, d < 256 → hist.getD (b * 256 + d) 0 = cntLt (digit b) d (readKeys ki size)) :
    (size ≤ ko.length →
      (radixpass_u32 hist (b * kHistSize) (b * kRadixBits) (kHistSize - 1)
          ki ko vi vo size).keys_out = lsdKeys b (readKeys ki size) ++ ko.drop size ∧
      (radixpass_u32 hist (b * kHistSize) (b * kRadixBits) (kHistSize - 1)
          ki ko vi vo size).hist.length = 1024 ∧
      ∀ c d, c ≠ b → d < 256 →
        (radixpass_u32 hist (b * kHistSize) (b * kRadixBits) (kHistSize - 1)
          ki ko vi vo size).hist.getD (c * 256 + d) 0 = hist.getD (c * 256 + d) 0) ∧
    (size ≤ vo.length →
      (radixpass_u32 hist (b * kHistSize) (b * kRadixBits) (kHistSize - 1)
          ki ko vi vo size).values_out
        = (lsdPass b (readPairs ki vi size)).map Prod.snd ++ vo.drop size) := by
  have h := scatter_range (fun p => digit b p.1) Prod.fst Prod.snd (b * 256) hist ki ko vi vo size
    hlt (fun x => digit_lt b x.1) (by omega)
    (by intro d hd; rw [hH d hd, cntLt_fst, readPairs_fst])
  obtain ⟨hk, hv⟩ := h
  refine ⟨?_, hv⟩
  intro hcap
  obtain ⟨h1, h2, h3⟩ := hk hcap
  refine ⟨?_, h2.trans hhl, ?_⟩
  · rw [← readPairs_fst ki vi size, ← lsdPass_map_fst]
    exact h1
  · intro c d hc hd
    exact h3 (c * 256 + d) (by omega)

/-- The key buffers after `radixsort_u32`, whatever the value buffers: selector 0, `keys_in`
starts with the keys after four passes and `keys_temp` with the keys after three. -/
theorem radixsort_u32_keys_spec (ki kt vi vt : List Nat) (size : Nat)
    (hki : size ≤ ki.length) (hkt : size ≤ kt.length) (hlt : size < 2 ^ 32) :
    (radixsort_u32 ki kt vi vt size).out = 0 ∧
    (radixsort_u32 ki kt vi vt size).bufs.keys0
      = lsdKeys 3 (lsdKeys 2 (lsdKeys 1 (lsdKeys 0 (readKeys ki size)))) ++ ki.drop size ∧
    (radixsort_u32 ki kt vi vt size).bufs.keys1
      = lsdKeys 2 (lsdKeys 1 (lsdKeys 0 (readKeys ki size))) ++ kt.drop size := by
  have hK0 : (readKeys ki size).length = size := readKeys_length ki size
  obtain ⟨hl, hg⟩ := sum_init_spec (readKeys ki size) (by omega)
  rw [← init_histograms_u32_eq] at hl hg
  have hH : ∀ b, b < 4 → ∀ K : List Nat, K.Perm (readKeys ki size) → ∀ d, d < 256 →
      (sum_histograms (init_histograms_u32 (List.replicate (kHistBuckets * kHistSize) 0)
        ki size)).getD (b * 256 + d) 0 = cntLt (digit b) d K := by
    intro b hb K hK d hd
    rw [hg b d hb hd, cntLt_perm _ d hK]
  have p1 := lsdKeys_perm 0 (readKeys ki size)
  have p2 := (lsdKeys_perm 1 _).trans p1
  have p3 := (lsdKeys_perm 2 _).trans p2
  have n1 := p1.length_eq
  have n2 := p2.length_eq
  have n3 := p3.length_eq
  rw [radixsort_u32_unroll]
  simp only []
  generalize sum_histograms (init_histograms_u32 (List.replicate (kHistBuckets * kHistSize) 0)
    ki size) = hist at hl hH ⊢
  obtain ⟨k0, l0, o0⟩ := (radixpass_u32_spec 0 hist ki kt vi vt size hlt (by omega) hl
    (hH 0 (by omega) _ (List.Perm.refl _))).1 hkt
  generalize radixpass_u32 hist (0 * kHistSize) (0 * kRadixBits) (kHistSize - 1) ki kt vi vt size
    = s0 at k0 l0 o0 ⊢
  have r0 : readKeys s0.keys_out size = lsdKeys 0 (readKeys ki size) := by
    rw [k0]; exact readKeys_append _ _ _ (by omega)
  obtain ⟨k1, l1, o1⟩ := (radixpass_u32_spec 1 s0.hist s0.keys_out ki s0.values_out vi size hlt
    (by omega) l0
    (by intro d hd; rw [r0, o0 1 d (by omega) hd]; exact hH 1 (by omega) _ p1 d hd)).1 hki
  rw [r0] at k1
  generalize radixpass_u32 s0.hist (1 * kHistSize) (1 * kRadixBits) (kHistSize - 1)
    s0.keys_out ki s0.values_out vi size = s1 at k1 l1 o1 ⊢
  have r1 : readKeys s1.keys_out size = lsdKeys 1 (lsdKeys 0 (readKeys ki size)) := by
    rw [k1]; exact readKeys_append _ _ _ (by omega)
  have c0 : size ≤ s0.keys_out.length := by rw [k0]; simp; omega
  have t0 : s0.keys_out.drop size = kt.drop size := by
    rw [k0]; exact List.drop_left' (by omega)
  obtain ⟨k2, l2, o2⟩ := (radixpass_u32_spec 2 s1.hist s1.keys_out s0.keys_out s1.values_out
    s0.values_out size hlt (by omega) l1
    (by intro d hd; rw [r1, o1 2 d (by omega) hd, o0 2 d (by omega) hd]
        exact hH 2 (by omega) _ p2 d hd)).1 c0
  rw [r1, t0] at k2
  generalize radixpass_u32 s1.hist (2 * kHistSize) (2 * kRadixBits) (kHistSize - 1)
    s1.keys_out s0.keys_out s1.values_out s0.values_out size = s2 at k2 l2 o2 ⊢
  have r2 : readKeys s2.keys_out size = lsdKeys 2 (lsdKeys 1 (lsdKeys 0 (readKeys ki size))) := by
    rw [k2]; exact readKeys_append _ _ _ (by omega)
  have c1 : size ≤ s1.keys_out.length := by rw [k1]; simp; omega
  have t1 : s1.keys_out.drop size = ki.drop size := by
    rw [k1]; exact List.drop_left' (by omega)
  obtain ⟨k3, _, _⟩ := (radixpass_u32_spec 3 s2.hist s2.keys_out s1.keys_out s2.values_out
    s1.values_out size hlt (by omega) l2
    (by intro d hd; rw [r2, o2 3 d (by omega) hd, o1 3 d (by omega) hd, o0 3 d (by omega) hd]
        exact hH 3 (by omega) _ p3 d hd)).1 c1
  rw [r2, t1] at k3
  exact ⟨trivial, k3, k2⟩

/-- Both parts of `radixpass_u32_spec` in terms of the pairs `X` read by the pass. -/
theorem radixpass_u32_pairs (b : Nat) (hist ki ko vi vo : List Nat) (size : Nat)
    (X : List (Nat × Nat)) (hX : readPairs ki vi size = X)
    (hlt : size < 2 ^ 32) (hb : b < 4) (hhl : hist.length = 1024)
    (hH : ∀ d, d < 256 → hist.getD (b * 256 + d) 0 = cntLt (digit b) d (X.map Prod.fst))
    (hko : size ≤ ko.length) (hvo : size ≤ vo.length) :
    (radixpass_u32 hist (b * kHistSize) (b * kRadixBits) (kHistSize - 1)
        ki ko vi vo size).keys_out = (lsdPass b X).map Prod.fst ++ ko.drop size ∧
    (radixpass_u32 hist (b * kHistSize) (b * kRadixBits) (kHistSize - 1)
        ki ko vi vo size).values_out = (lsdPass b X).map Prod.snd ++ vo.drop size ∧
    (radixpass_u32 hist (b * kHistSize) (b * kRadixBits) (kHistSize - 1)
        ki ko vi vo size).hist.length = 1024 ∧
    ∀ c d, c ≠ b → d < 256 →
      (radixpass_u32 hist (b * kHistSize) (b * kRadixBits) (kHistSize - 1)
        ki ko vi vo size).hist.getD (c * 256 + d) 0 = hist.getD (c * 256 + d) 0 := by
  have hK : readKeys ki size = X.map Prod.fst := by rw [← hX, readPairs_fst]
  obtain ⟨hk, hv⟩ := radixpass_u32_spec b hist ki ko vi vo size hlt hb hhl
    (by intro d hd; rw [hK]; exact hH d hd)
  obtain ⟨h1, h2, h3⟩ := hk hko
  have h4 := hv hvo
  rw [hK, ← lsdPass_map_fst] at h1
  rw [hX] at h4
  exact ⟨h1, h4, h2, h3⟩

/-- The buffers after `radixsort_u32`: selector 0, the in/out buffers start with the pairs read
after four passes and the temp buffers with the pairs after three; words from index `size` on
are untouched. -/
theorem radixsort_u32_spec (ki kt vi vt : List Nat) (size : Nat)
    (hki : size ≤ ki.length) (hkt : size ≤ kt.length)
    (hvi : size ≤ vi.length) (hvt : size ≤ vt.length) (hlt : size < 2 ^ 32) :
    (radixsort_u32 ki kt vi vt size).out = 0 ∧
    (radixsort_u32 ki kt vi vt size).bufs.keys0
      = (lsdPass 3 (lsdPass 2 (lsdPass 1 (lsdPass 0 (readPairs ki vi size))))).map Prod.fst
        ++ ki.drop size ∧
    (radixsort_u32 ki kt vi vt size).bufs.values0
      = (lsdPass 3 (lsdPass 2 (lsdPass 1 (lsdPass 0 (readPairs ki vi size))))).map Prod.snd
        ++ vi.drop size ∧
    (radixsort_u32 ki kt vi vt size).bufs.keys1
      = (lsdPass 2 (lsdPass 1 (lsdPass 0 (readPairs ki vi size)))).map Prod.fst
        ++ kt.drop size ∧
    (radixsort_u32 ki kt vi vt size).bufs.values1
      = (lsdPass 2 (lsdPass 1 (lsdPass 0 (readPairs ki vi size)))).map Prod.snd
        ++ vt.drop size := by
  have hX0 : (readPairs ki vi size).length = size := readPairs_length ki vi size
  obtain ⟨hl, hg⟩ := sum_init_spec (readKeys ki size) (by rw [readKeys_length]; exact hlt)
  rw [← init_histograms_u32_eq] at hl hg
  rw [← readPairs_fst ki vi size] at hg
  have hH : ∀ b, b < 4 → ∀ X : List (Nat × Nat), X.Perm (readPairs ki vi size) →
      ∀ d, d < 256 →
      (sum_histograms (init_histograms_u32 (List.replicate (kHistBuckets * kHistSize) 0)
        ki size)).getD (b * 256 + d) 0 = cntLt (digit b) d (X.map Prod.fst) := by
    intro b hb X hX d hd
    rw [hg b d hb hd, cntLt_perm _ d (hX.map Prod.fst)]
  have p1 := lsdPass_perm 0 (readPairs ki vi size)
  have p2 := (lsdPass_perm 1 _).trans p1
  have p3 := (lsdPass_perm 2 _).trans p2
  have n1 := p1.length_eq
  have n2 := p2.length_eq
  have n3 := p3.length_eq
  rw [radixsort_u32_unroll]
  simp only []
  generalize sum_histograms (init_histograms_u32 (List.replicate (kHistBuckets * kHistSize) 0)
    ki size) = hist at hl hH ⊢
  obtain ⟨k0, v0, l0, o0⟩ := radixpass_u32_pairs 0 hist ki kt vi vt size _ rfl hlt (by omega) hl
    (hH 0 (by omega) _ (List.Perm.refl _)) hkt hvt
  generalize radixpass_u32 hist (0 * kHistSize) (0 * kRadixBits) (kHistSize - 1) ki kt vi vt size
    = s0 at k0 v0 l0 o0 ⊢
  obtain ⟨k1, v1, l1, o1⟩ := radixpass_u32_pairs 1 s0.hist s0.keys_out ki s0.values_out vi size
    (lsdPass 0 (readPairs ki vi size))
    (by rw [k0, v0]; exact readPairs_append _ _ _ _ (by omega)) hlt (by omega) l0
    (by intro d hd; rw [o0 1 d (by omega) hd]; exact hH 1 (by omega) _ p1 d hd) hki hvi
  generalize radixpass_u32 s0.hist (1 * kHistSize) (1 * kRadixBits) (kHistSize - 1)
    s0.keys_out ki s0.values_out vi size = s1 at k1 v1 l1 o1 ⊢
  have ck0 : size ≤ s0.keys_out.length := by rw [k0]; simp; omega
  have cv0 : size ≤ s0.values_out.length := by rw [v0]; simp; omega
  have tk0 : s0.keys_out.drop size = kt.drop size := by
    rw [k0]; exact List.drop_left' (by simp; omega)
  have tv0 : s0.values_out.drop size = vt.drop size := by
    rw [v0]; exact List.drop_left' (by simp; omega)
  obtain ⟨k2, v2, l2, o2⟩ := radixpass_u32_pairs 2 s1.hist s1.keys_out s0.keys_out s1.values_out
    s0.values_out size (lsdPass 1 (lsdPass 0 (readPairs ki vi size)))
    (by rw [k1, v1]; exact readPairs_append _ _ _ _ (by omega)) hlt (by omega) l1
    (by intro d hd; rw [o1 2 d (by omega) hd, o0 2 d (by omega) hd]
        exact hH 2 (by omega) _ p2 d hd) ck0 cv0
  rw [tk0] at k2
  rw [tv0] at v2
  generalize radixpass_u32 s1.hist (2 * kHistSize) (2 * kRadixBits) (kHistSize - 1)
    s1.keys_out s0.keys_out s1.values_out s0.values_out size = s2 at k2 v2 l2 o2 ⊢
  have ck1 : size ≤ s1.keys_out.length := by rw [k1]; simp; omega
  have cv1 : size ≤ s1.values_out.length := by rw [v1]; simp; omega
  have tk1 : s1.keys_out.drop size = ki.drop size := by
    rw [k1]; exact List.drop_left' (by simp; omega)
  have tv1 : s1.values_out.drop size = vi.drop size := by
    rw [v1]; exact List.drop_left' (by simp; omega)
  obtain ⟨k3, v3, _, _⟩ := radixpass_u32_pairs 3 s2.hist s2.keys_out s1.keys_out s2.values_out
    s1.values_out size (lsdPass 2 (lsdPass 1 (lsdPass 0 (readPairs ki vi size))))
    (by rw [k2, v2]; exact readPairs_append _ _ _ _ (by omega)) hlt (by omega) l2
    (by intro d hd; rw [o2 3 d (by omega) hd, o1 3 d (by omega) hd, o0 3 d (by omega) hd]
        exact hH 3 (by omega) _ p3 d hd) ck1 cv1
  rw [tk1] at k3
  rw [tv1] at v3
  exact ⟨trivial, k3, v3, k2, v2⟩

/-! ## Four least-significant-digit passes sort stably -/

theorem mod_pow_succ (k b : Nat) :
    k % 256 ^ (b + 1) = k % 256 ^ b + 256 ^ b * digit b k := by
  rw [digit_eq, Nat.pow_succ, Nat.mod_mul]

theorem lsdPass_sorted (b : Nat) (X : List (Nat × Nat))
    (h : X.Pairwise (fun a c => a.1 % 256 ^ b ≤ c.1 % 256 ^ b)) :
    (lsdPass b X).Pairwise (fun a c => a.1 % 256 ^ (b + 1) ≤ c.1 % 256 ^ (b + 1)) := by
  have h1 := bucketCat_pairwise (fun p : Nat × Nat => digit b p.1)
    (fun p : Nat × Nat => p.1 % 256 ^ b) (256 ^ b) 256 X
    (fun x _ => Nat.mod_lt _ (by positivity)) h
  refine List.Pairwise.imp ?_ h1
  intro a c hac
  rw [mod_pow_succ, mod_pow_succ]
  exact hac

theorem lsdPass_filter_key (b k : Nat) (X : List (Nat × Nat)) :
    (lsdPass b X).filter (fun p => decide (p.1 = k)) = X.filter (fun p => decide (p.1 = k)) := by
  apply filter_bucketCat_all (fun p : Nat × Nat => digit b p.1) _ (digit b k) 256 X
    (fun x _ => digit_lt b x.1)
  intro x _ hx
  simp only [decide_eq_true_eq] at hx
  rw [hx]

theorem lsd4_perm (ps : List (Nat × Nat)) :
    (lsdPass 3 (lsdPass 2 (lsdPass 1 (lsdPass 0 ps)))).Perm ps :=
  (lsdPass_perm 3 _).trans ((lsdPass_perm 2 _).trans ((lsdPass_perm 1 _).trans
    (lsdPass_perm 0 _)))

theorem lsd4_mod_sorted (ps : List (Nat × Nat)) :
    (lsdPass 3 (lsdPass 2 (lsdPass 1 (lsdPass 0 ps)))).Pairwise
      (fun a c => a.1 % 256 ^ 4 ≤ c.1 % 256 ^ 4) := by
  have h0 : ps.Pairwise (fun a c => a.1 % 256 ^ 0 ≤ c.1 % 256 ^ 0) :=
    List.pairwise_of_forall (fun a c => by simp [Nat.mod_one])
  exact lsdPass_sorted 3 _ (lsdPass_sorted 2 _ (lsdPass_sorted 1 _ (lsdPass_sorted 0 _ h0)))

theorem lsd4_sorted (ps : List (Nat × Nat)) (hk : ∀ p ∈ ps, p.1 < 2 ^ 32) :
    (lsdPass 3 (lsdPass 2 (lsdPass 1 (lsdPass 0 ps)))).Pairwise (fun a c => a.1 ≤ c.1) := by
  refine List.Pairwise.imp_of_mem ?_ (lsd4_mod_sorted ps)
  intro a c ha hc hac
  have e : (256 : Nat) ^ 4 = 2 ^ 32 := by norm_num
  rw [e, Nat.mod_eq_of_lt (hk a ((lsd4_perm ps).mem_iff.mp ha)),
    Nat.mod_eq_of_lt (hk c ((lsd4_perm ps).mem_iff.mp hc))] at hac
  exact hac

theorem lsd4_filter_key (k : Nat) (ps : List (Nat × Nat)) :
    (lsdPass 3 (lsdPass 2 (lsdPass 1 (lsdPass 0 ps)))).filter (fun p => decide (p.1 = k))
      = ps.filter (fun p => decide (p.1 = k)) := by
  rw [lsdPass_filter_key, lsdPass_filter_key, lsdPass_filter_key, lsdPass_filter_key]

/-- Two items in sublist order sit at increasing positions. -/
theorem sublist_pair_index {α : Type} (a b : α) :
    ∀ (l : List α), [a, b].Sublist l →
      ∃ i j, i < j ∧ j < l.length ∧ l[i]? = some a ∧ l[j]? = some b := by
  intro l
  induction l with
  | nil => intro h; cases h
  | cons x l ih =>
    intro h
    cases h with
    | cons _ h' =>
      obtain ⟨i, j, hij, hj, hi', hj'⟩ := ih h'
      exact ⟨i + 1, j + 1, by omega, by simp; omega, by simpa using hi', by simpa using hj'⟩
    | cons₂ _ h' =>
      have hb : b ∈ l := List.singleton_sublist.mp h'
      obtain ⟨j, hj, hjb⟩ := List.mem_iff_getElem.mp hb
      refine ⟨0, j + 1, by omega, by simp; omega, by simp, ?_⟩
      simp only [List.getElem?_cons_succ]
      rw [List.getElem?_eq_getElem hj, hjb]

/-- Two positions `i < j` of a list whose items satisfy `q` give a two-item sublist of the
filtered list. -/
theorem pair_sublist_filter {α : Type} (q : α → Bool) (l : List α) (i j : Nat) (hij : i < j)
    (hi : i < l.length) (hj : j < l.length) (hqi : q l[i] = true) (hqj : q l[j] = true) :
    [l[i], l[j]].Sublist (l.filter q) := by
  have e : l = l.take i ++ l[i] :: l.drop (i + 1) := by
    rw [List.getElem_cons_drop, List.take_append_drop]
  have hmem : l[j] ∈ l.drop (i + 1) := by
    rw [List.mem_drop_iff_getElem]
    exact ⟨j - (i + 1), by omega, by congr 1; omega⟩
  have hs : [l[i], l[j]].Sublist (l.take i ++ l[i] :: l.drop (i + 1)) :=
    List.sublist_append_of_sublist_right
      (List.Sublist.cons₂ _ (List.singleton_sublist.mpr hmem))
  have hf := hs.filter q
  rw [← e] at hf
  simpa [List.filter, hqi, hqj] using hf

/-! ## `radix8sort_u32`: sortedness, permutation, stability -/

/-- The designated buffers of `radix8sort_u32` hold the input pairs after four stable
least-significant-digit passes. -/
theorem radix8sort_u32_designated (ki kt vi vt : List Nat)
    (hvi : vi.length = ki.length) (hkt : kt.length = ki.length) (hvt : vt.length = ki.length)
    (hlt : ki.length < 2 ^ 32) :
    (radix8sort_u32 ki kt vi vt ki.length).keys
      = (lsdPass 3 (lsdPass 2 (lsdPass 1 (lsdPass 0 (ki.zip vi))))).map Prod.fst ∧
    (radix8sort_u32 ki kt vi vt ki.length).values
      = (lsdPass 3 (lsdPass 2 (lsdPass 1 (lsdPass 0 (ki.zip vi))))).map Prod.snd := by
  obtain ⟨h0, hk, hv, _, _⟩ := radixsort_u32_spec ki kt vi vt ki.length (le_refl _)
    (by omega) (by omega) (by omega) hlt
  rw [readPairs_self ki vi hvi, List.drop_length, List.append_nil] at hk
  rw [readPairs_self ki vi hvi, List.drop_eq_nil_of_le (by omega), List.append_nil] at hv
  unfold SortResult.keys SortResult.values radix8sort_u32
  rw [h0]
  exact ⟨hk, hv⟩

theorem mem_zip_fst_lt (ki vi : List Nat) (hk : ∀ k ∈ ki, k < 2 ^ 32) :
    ∀ p ∈ ki.zip vi, p.1 < 2 ^ 32 := by
  intro p hp
  exact hk p.1 (List.of_mem_zip hp).1

/-- C1: for every array of unsigned 32-bit keys (any length, duplicates allowed) with a parallel
value array, the key buffer designated by the selector returned by `radix8sort_u32` is in
non-decreasing order over the full 32-bit key. -/
theorem radix8sort_u32_sorted (keys_in_out keys_temp values_in_out values_temp : List Nat)
    (hkeys : ∀ k ∈ keys_in_out, k < 2 ^ 32)
    (hsize : keys_in_out.length < 2 ^ 32)
    (hvalues : values_in_out.length = keys_in_out.length)
    (hkt : keys_temp.length = keys_in_out.length)
    (hvt : values_temp.length = keys_in_out.length) :
    List.Sorted (fun a b => a ≤ b)
      (radix8sort_u32 keys_in_out keys_temp values_in_out values_temp keys_in_out.length).keys := by
  rw [(radix8sort_u32_designated keys_in_out keys_temp values_in_out values_temp
    hvalues hkt hvt hsize).1]
  unfold List.Sorted
  rw [List.pairwise_map]
  exact lsd4_sorted _ (mem_zip_fst_lt _ _ hkeys)

/-- Witness of C1 on a five-element input with a duplicate key and a key using the top byte. -/
theorem radix8sort_u32_sorted_witness :
    (∀ k ∈ [5, 3, 0x01000000, 3, 1], k < 2 ^ 32) ∧
    List.Sorted (fun a b => a ≤ b)
      (radix8sort_u32 [5, 3, 0x01000000, 3, 1] [0, 0, 0, 0, 0] [10, 11, 12, 13, 14]
        [0, 0, 0, 0, 0] 5).keys :=
  ⟨by decide, radix8sort_u32_sorted [5, 3, 0x01000000, 3, 1] [0, 0, 0, 0, 0] [10, 11, 12, 13, 14]
    [0, 0, 0, 0, 0] (by decide) (by decide) rfl rfl rfl⟩

/-- C2: the (key, value) pairs found in the output buffers designated by the returned selector
are a permutation of the input (key, value) pairs (and both designated buffers keep the input
length): no pair is lost, duplicated or re-paired. -/
theorem radix8sort_u32_perm (keys_in_out keys_temp values_in_out values_temp : List Nat)
    (hsize : keys_in_out.length < 2 ^ 32)
    (hvalues : values_in_out.length = keys_in_out.length)
    (hkt : keys_temp.length = keys_in_out.length)
    (hvt : values_temp.length = keys_in_out.length) :
    List.Perm
      ((radix8sort_u32 keys_in_out keys_temp values_in_out values_temp keys_in_out.length).keys.zip
        (radix8sort_u32 keys_in_out keys_temp values_in_out values_temp keys_in_out.length).values)
      (keys_in_out.zip values_in_out) ∧
    (radix8sort_u32 keys_in_out keys_temp values_in_out values_temp keys_in_out.length).keys.length
      = keys_in_out.length ∧
    (radix8sort_u32 keys_in_out keys_temp values_in_out values_temp keys_in_out.length).values.length
      = keys_in_out.length := by
  obtain ⟨hk, hv⟩ := radix8sort_u32_designated keys_in_out keys_temp values_in_out values_temp
    hvalues hkt hvt hsize
  have hl : (lsdPass 3 (lsdPass 2 (lsdPass 1 (lsdPass 0
      (keys_in_out.zip values_in_out))))).length = keys_in_out.length := by
    rw [(lsd4_perm _).length_eq, List.length_zip, hvalues, Nat.min_self]
  rw [hk, hv, zip_map_fst_snd, List.length_map, List.length_map]
  exact ⟨lsd4_perm _, hl, hl⟩

/-- Witness of C2. -/
theorem radix8sort_u32_perm_witness :
    [10, 11, 12, 13, 14].length = [5, 3, 0x01000000, 3, 1].length ∧
    List.Perm
      ((radix8sort_u32 [5, 3, 0x01000000, 3, 1] [0, 0, 0, 0, 0] [10, 11, 12, 13, 14]
        [0, 0, 0, 0, 0] 5).keys.zip
       (radix8sort_u32 [5, 3, 0x01000000, 3, 1] [0, 0, 0, 0, 0] [10, 11, 12, 13, 14]
        [0, 0, 0, 0, 0] 5).values)
      ([5, 3, 0x01000000, 3, 1].zip [10, 11, 12, 13, 14]) :=
  ⟨rfl, (radix8sort_u32_perm [5, 3, 0x01000000, 3, 1] [0, 0, 0, 0, 0] [10, 11, 12, 13, 14]
    [0, 0, 0, 0, 0] (by decide) rfl rfl rfl).1⟩

/-- C3: `radix8sort_u32` is stable. For every key `k` the output pairs with key `k` are the input
pairs with key `k` in their original order; hence for two input positions `i < j` holding equal
keys, the pair of position `i` is found in the output at a position before the pair of
position `j`. -/
theorem radix8sort_u32_stable (keys_in_out keys_temp values_in_out values_temp : List Nat)
    (hsize : keys_in_out.length < 2 ^ 32)
    (hvalues : values_in_out.length = keys_in_out.length)
    (hkt : keys_temp.length = keys_in_out.length)
    (hvt : values_temp.length = keys_in_out.length) :
    (∀ k,
      ((radix8sort_u32 keys_in_out keys_temp values_in_out values_temp keys_in_out.length).keys.zip
        (radix8sort_u32 keys_in_out keys_temp values_in_out values_temp
          keys_in_out.length).values).filter (fun p => decide (p.1 = k))
      = (keys_in_out.zip values_in_out).filter (fun p => decide (p.1 = k))) ∧
    (∀ i j, i < j → j < keys_in_out.length → keys_in_out.getD i 0 = keys_in_out.getD j 0 →
      ∃ i2 j2, i2 < j2 ∧ j2 < keys_in_out.length ∧
        ((radix8sort_u32 keys_in_out keys_temp values_in_out values_temp
            keys_in_out.length).keys.zip
          (radix8sort_u32 keys_in_out keys_temp values_in_out values_temp
            keys_in_out.length).values)[i2]?
          = some (keys_in_out.getD i 0, values_in_out.getD i 0) ∧
        ((radix8sort_u32 keys_in_out keys_temp values_in_out values_temp
            keys_in_out.length).keys.zip
          (radix8sort_u32 keys_in_out keys_temp values_in_out values_temp
            keys_in_out.length).values)[j2]?
          = some (keys_in_out.getD j 0, values_in_out.getD j 0)) := by
  obtain ⟨hk, hv⟩ := radix8sort_u32_designated keys_in_out keys_temp values_in_out values_temp
    hvalues hkt hvt hsize
  rw [hk, hv, zip_map_fst_snd]
  have hfilter := fun k => lsd4_filter_key k (keys_in_out.zip values_in_out)
  refine ⟨hfilter, ?_⟩
  intro i j hij hj hkey
  have hzl : (keys_in_out.zip values_in_out).length = keys_in_out.length := by
    simp [List.length_zip, hvalues]
  have hzi : (keys_in_out.zip values_in_out)[i]?
      = some (keys_in_out.getD i 0, values_in_out.getD i 0) :=
    getElem?_zip_getD _ _ i (by omega) (by omega)
  have hzj : (keys_in_out.zip values_in_out)[j]?
      = some (keys_in_out.getD j 0, values_in_out.getD j 0) :=
    getElem?_zip_getD _ _ j (by omega) (by omega)
  have hi' : i < (keys_in_out.zip values_in_out).length := by omega
  have hj' : j < (keys_in_out.zip values_in_out).length := by omega
  rw [List.getElem?_eq_getElem hi', Option.some.injEq] at hzi
  rw [List.getElem?_eq_getElem hj', Option.some.injEq] at hzj
  have hsub := pair_sublist_filter (fun p : Nat × Nat => decide (p.1 = keys_in_out.getD i 0))
    (keys_in_out.zip values_in_out) i j hij hi' hj' (by rw [hzi]; simp) (by rw [hzj, hkey]; simp)
  rw [← hfilter, hzi, hzj] at hsub
  obtain ⟨i2, j2, h1, h2, h3, h4⟩ :=
    sublist_pair_index _ _ _ (hsub.trans (List.filter_sublist _))
  refine ⟨i2, j2, h1, ?_, h3, h4⟩
  rw [(lsd4_perm _).length_eq, hzl] at h2
  exact h2

/-- Witness of C3. -/
theorem radix8sort_u32_stable_witness :
    [5, 3, 0x01000000, 3, 1].length < 2 ^ 32 ∧
    ∃ i2 j2, i2 < j2 ∧ j2 < 5 ∧
      ((radix8sort_u32 [5, 3, 0x01000000, 3, 1] [0, 0, 0, 0, 0] [10, 11, 12, 13, 14]
          [0, 0, 0, 0, 0] 5).keys.zip
        (radix8sort_u32 [5, 3, 0x01000000, 3, 1] [0, 0, 0, 0, 0] [10, 11, 12, 13, 14]
          [0, 0, 0, 0, 0] 5).values)[i2]? = some (3, 11) ∧
      ((radix8sort_u32 [5, 3, 0x01000000, 3, 1] [0, 0, 0, 0, 0] [10, 11, 12, 13, 14]
          [0, 0, 0, 0, 0] 5).keys.zip
        (radix8sort_u32 [5, 3, 0x01000000, 3, 1] [0, 0, 0, 0, 0] [10, 11, 12, 13, 14]
          [0, 0, 0, 0, 0] 5).values)[j2]? = some (3, 13) :=
  ⟨by decide, (radix8sort_u32_stable [5, 3, 0x01000000, 3, 1] [0, 0, 0, 0, 0]
    [10, 11, 12, 13, 14] [0, 0, 0, 0, 0] (by decide) rfl rfl rfl).2 1 3 (by decide) (by decide) rfl⟩

/-! ## `radix8sort_f32` -/

theorem radixsort_f32_unroll (ki kt vi vt : List Nat) (size : Nat) :
    radixsort_f32 ki kt vi vt size =
      (let hist := sum_histograms
          (init_histograms_f32 (List.replicate (kHistBuckets * kHistSize) 0) ki size)
       let s0 := (List.range size).foldl
          (fun st i => scatterStep (fun p : Nat × Nat => digit 0 (float_flip p.1))
            (fun p => float_flip p.1) Prod.snd (0 * 256) st (ki.getD i 0, vi.getD i 0))
          { hist := hist, keys_out := kt, values_out := vt }
       let s1 := radixpass_u32 s0.hist (1 * kHistSize) (1 * kRadixBits) (kHistSize - 1)
          s0.keys_out ki s0.values_out vi size
       let s2 := radixpass_u32 s1.hist (2 * kHistSize) (2 * kRadixBits) (kHistSize - 1)
          s1.keys_out s0.keys_out s1.values_out s0.values_out size
       let s3 := (List.range size).foldl
          (fun st i => scatterStep (fun p : Nat × Nat => digit 3 p.1)
            (fun p => inv_float_flip p.1) Prod.snd (3 * 256) st
            (s2.keys_out.getD i 0, s2.values_out.getD i 0))
          { hist := s2.hist, keys_out := s1.keys_out, values_out := s1.values_out }
       { out := 0, hist := s3.hist,
         bufs := { keys0 := s3.keys_out, keys1 := s2.keys_out,
                   values0 := s3.values_out, values1 := s2.values_out } }) := by
  have hr : List.range' 1 (kHistBuckets - 1 - 1) = [1, 2] := by decide
  have hb : kHistBuckets - 1 = 3 := rfl
  unfold radixsort_f32
  simp only [hr, hb, List.foldl_cons, List.foldl_nil]
  have a0 : 0 &&& 1 = 0 := by decide
  have a1 : 1 &&& 1 = 1 := by decide
  have a2 : 2 &&& 1 = 0 := by decide
  have a3 : 3 &&& 1 = 1 := by decide
  simp only [a0, a1, a2, a3, lnot, Buffers.keys, Buffers.values, Buffers.store, if_true,
    one_ne_zero, if_false]
  rfl

/-- The buffers after `radixsort_f32`: selector 0, and the in/out buffers start with the flipped
pairs after four stable passes with the keys flipped back. -/
theorem radixsort_f32_spec (ki kt vi vt : List Nat) (size : Nat)
    (hki : size ≤ ki.length) (hkt : size ≤ kt.length)
    (hvi : size ≤ vi.length) (hvt : size ≤ vt.length) (hlt : size < 2 ^ 32) :
    (radixsort_f32 ki kt vi vt size).out = 0 ∧
    (radixsort_f32 ki kt vi vt size).bufs.keys0
      = (lsdPass 3 (lsdPass 2 (lsdPass 1 (lsdPass 0 ((readPairs ki vi size).map flipPair))))).map
          (fun p => inv_float_flip p.1) ++ ki.drop size ∧
    (radixsort_f32 ki kt vi vt size).bufs.values0
      = (lsdPass 3 (lsdPass 2 (lsdPass 1 (lsdPass 0 ((readPairs ki vi size).map flipPair))))).map
          Prod.snd ++ vi.drop size := by
  have hX0 : ((readPairs ki vi size).map flipPair).length = size := by
    rw [List.length_map, readPairs_length]
  have hfst : ((readPairs ki vi size).map flipPair).map Prod.fst
      = (readKeys ki size).map float_flip := by
    rw [List.map_map, ← readPairs_fst ki vi size, List.map_map]
    rfl
  obtain ⟨hl, hg⟩ := sum_init_spec ((readKeys ki size).map float_flip)
    (by rw [List.length_map, readKeys_length]; exact hlt)
  rw [← init_histograms_f32_eq] at hl hg
  rw [← hfst] at hg
  have hH : ∀ b, b < 4 → ∀ X : List (Nat × Nat), X.Perm ((readPairs ki vi size).map flipPair) →
      ∀ d, d < 256 →
      (sum_histograms (init_histograms_f32 (List.replicate (kHistBuckets * kHistSize) 0)
        ki size)).getD (b * 256 + d) 0 = cntLt (digit b) d (X.map Prod.fst) := by
    intro b hb X hX d hd
    rw [hg b d hb hd, cntLt_perm _ d (hX.map Prod.fst)]
  have p1 := lsdPass_perm 0 ((readPairs ki vi size).map flipPair)
  have p2 := (lsdPass_perm 1 _).trans p1
  have p3 := (lsdPass_perm 2 _).trans p2
  have n1 := p1.length_eq
  have n2 := p2.length_eq
  have n3 := p3.length_eq
  rw [radixsort_f32_unroll]
  simp only []
  generalize sum_histograms (init_histograms_f32 (List.replicate (kHistBuckets * kHistSize) 0)
    ki size) = hist at hl hH ⊢
  -- first pass
  have e0 : lsdPass 0 ((readPairs ki vi size).map flipPair)
      = (bucketCat (fun p : Nat × Nat => digit 0 (float_flip p.1)) 256
          (readPairs ki vi size)).map flipPair := by
    unfold lsdPass
    rw [bucketCat_map]
    rfl
  obtain ⟨hk0, v0⟩ := scatter_range (fun p : Nat × Nat => digit 0 (float_flip p.1))
    (fun p => float_flip p.1) Prod.snd (0 * 256) hist ki kt vi vt size hlt
    (fun x => digit_lt 0 _) (by omega)
    (by intro d hd
        rw [hH 0 (by omega) _ (List.Perm.refl _) d hd, cntLt_map, cntLt_map]
        rfl)
  obtain ⟨k0, l0, o0⟩ := hk0 hkt
  have v0 := v0 hvt
  generalize (List.range size).foldl
    (fun st i => scatterStep (fun p : Nat × Nat => digit 0 (float_flip p.1))
      (fun p => float_flip p.1) Prod.snd (0 * 256) st (ki.getD i 0, vi.getD i 0))
    { hist := hist, keys_out := kt, values_out := vt } = s0 at k0 v0 l0 o0 ⊢
  have k0' : s0.keys_out
      = (lsdPass 0 ((readPairs ki vi size).map flipPair)).map Prod.fst ++ kt.drop size := by
    rw [k0, e0, List.map_map]; rfl
  have v0' : s0.values_out
      = (lsdPass 0 ((readPairs ki vi size).map flipPair)).map Prod.snd ++ vt.drop size := by
    rw [v0, e0, List.map_map]; rfl
  have ck0 : size ≤ s0.keys_out.length := by rw [k0']; simp; omega
  have cv0 : size ≤ s0.values_out.length := by rw [v0']; simp; omega
  have tk0 : s0.keys_out.drop size = kt.drop size := by
    rw [k0']; exact List.drop_left' (by simp; omega)
  have tv0 : s0.values_out.drop size = vt.drop size := by
    rw [v0']; exact List.drop_left' (by simp; omega)
  -- middle passes
  obtain ⟨k1, v1, l1, o1⟩ := radixpass_u32_pairs 1 s0.hist s0.keys_out ki s0.values_out vi size
    (lsdPass 0 ((readPairs ki vi size).map flipPair))
    (by rw [k0', v0']; exact readPairs_append _ _ _ _ (by omega)) hlt (by omega) (l0.trans hl)
    (by intro d hd; rw [o0 (1 * 256 + d) (by omega)]; exact hH 1 (by omega) _ p1 d hd) hki hvi
  generalize radixpass_u32 s0.hist (1 * kHistSize) (1 * kRadixBits) (kHistSize - 1)
    s0.keys_out ki s0.values_out vi size = s1 at k1 v1 l1 o1 ⊢
  obtain ⟨k2, v2, l2, o2⟩ := radixpass_u32_pairs 2 s1.hist s1.keys_out s0.keys_out s1.values_out
    s0.values_out size (lsdPass 1 (lsdPass 0 ((readPairs ki vi size).map flipPair)))
    (by rw [k1, v1]; exact readPairs_append _ _ _ _ (by omega)) hlt (by omega) l1
    (by intro d hd; rw [o1 2 d (by omega) hd, o0 (2 * 256 + d) (by omega)]
        exact hH 2 (by omega) _ p2 d hd) ck0 cv0
  generalize radixpass_u32 s1.hist (2 * kHistSize) (2 * kRadixBits) (kHistSize - 1)
    s1.keys_out s0.keys_out s1.values_out s0.values_out size = s2 at k2 v2 l2 o2 ⊢
  have ck1 : size ≤ s1.keys_out.length := by rw [k1]; simp; omega
  have cv1 : size ≤ s1.values_out.length := by rw [v1]; simp; omega
  have tk1 : s1.keys_out.drop size = ki.drop size := by
    rw [k1]; exact List.drop_left' (by simp; omega)
  have tv1 : s1.values_out.drop size = vi.drop size := by
    rw [v1]; exact List.drop_left' (by simp; omega)
  -- last pass
  have r2 : readPairs s2.keys_out s2.values_out size
      = lsdPass 2 (lsdPass 1 (lsdPass 0 ((readPairs ki vi size).map flipPair))) := by
    rw [k2, v2]; exact readPairs_append _ _ _ _ (by omega)
  obtain ⟨hk3, v3⟩ := scatter_range (fun p : Nat × Nat => digit 3 p.1)
    (fun p => inv_float_flip p.1) Prod.snd (3 * 256) s2.hist s2.keys_out s1.keys_out
    s2.values_out s1.values_out size hlt (fun x => digit_lt 3 _) (by omega)
    (by intro d hd
        rw [r2, o2 3 d (by omega) hd, o1 3 d (by omega) hd, o0 (3 * 256 + d) (by omega),
          hH 3 (by omega) _ p3 d hd, cntLt_fst])
  obtain ⟨k3, _, _⟩ := hk3 ck1
  have v3 := v3 cv1
  rw [r2, tk1] at k3
  rw [r2, tv1] at v3
  exact ⟨trivial, k3, v3⟩

/-! ## `radix8sort_f32`: numeric order and bit-identical round trip -/

theorem radix8sort_f32_designated (ki kt vi vt : List Nat)
    (hvi : vi.length = ki.length) (hkt : kt.length = ki.length) (hvt : vt.length = ki.length)
    (hlt : ki.length < 2 ^ 32) :
    (radix8sort_f32 ki kt vi vt ki.length).keys
      = (lsdPass 3 (lsdPass 2 (lsdPass 1 (lsdPass 0 ((ki.zip vi).map flipPair))))).map
          (fun p => inv_float_flip p.1) ∧
    (radix8sort_f32 ki kt vi vt ki.length).values
      = (lsdPass 3 (lsdPass 2 (lsdPass 1 (lsdPass 0 ((ki.zip vi).map flipPair))))).map
          Prod.snd := by
  obtain ⟨h0, hk, hv⟩ := radixsort_f32_spec ki kt vi vt ki.length (le_refl _)
    (by omega) (by omega) (by omega) hlt
  rw [readPairs_self ki vi hvi, List.drop_length, List.append_nil] at hk
  rw [readPairs_self ki vi hvi, List.drop_eq_nil_of_le (by omega), List.append_nil] at hv
  unfold SortResult.keys SortResult.values radix8sort_f32
  rw [h0]
  exact ⟨hk, hv⟩

theorem mem_flipPair (ki vi : List Nat) (p : Nat × Nat)
    (hp : p ∈ (ki.zip vi).map flipPair) : ∃ k ∈ ki, p.1 = float_flip k := by
  rw [List.mem_map] at hp
  obtain ⟨q, hq, rfl⟩ := hp
  exact ⟨q.1, (List.of_mem_zip hq).1, rfl⟩

/-- C4: for every array of 32-bit float keys without NaN (negative values, both zeros and
infinities included), the keys in the buffer designated by the selector returned by
`radix8sort_f32` are in non-decreasing numeric order. -/
theorem radix8sort_f32_sorted (keys_in_out_f32 keys_temp_f32 values_in_out values_temp : List Nat)
    (hkeys : ∀ k ∈ keys_in_out_f32, k < 2 ^ 32)
    (hnan : ∀ k ∈ keys_in_out_f32, f32_isNaN k = false)
    (hsize : keys_in_out_f32.length < 2 ^ 32)
    (hvalues : values_in_out.length = keys_in_out_f32.length)
    (hkt : keys_temp_f32.length = keys_in_out_f32.length)
    (hvt : values_temp.length = keys_in_out_f32.length) :
    List.Sorted (fun a b => f32_le a b = true)
      (radix8sort_f32 keys_in_out_f32 keys_temp_f32 values_in_out values_temp
        keys_in_out_f32.length).keys := by
  rw [(radix8sort_f32_designated keys_in_out_f32 keys_temp_f32 values_in_out values_temp
    hvalues hkt hvt hsize).1]
  unfold List.Sorted
  rw [List.pairwise_map]
  have hF : ∀ p ∈ (keys_in_out_f32.zip values_in_out).map flipPair, p.1 < 2 ^ 32 := by
    intro p hp
    obtain ⟨k, hk, e⟩ := mem_flipPair _ _ p hp
    rw [e]
    exact float_flip_lt k (hkeys k hk)
  refine List.Pairwise.imp_of_mem ?_ (lsd4_sorted _ hF)
  intro a c ha hc hac
  obtain ⟨ka, hka, ea⟩ := mem_flipPair _ _ a ((lsd4_perm _).mem_iff.mp ha)
  obtain ⟨kc, hkc, ec⟩ := mem_flipPair _ _ c ((lsd4_perm _).mem_iff.mp hc)
  show f32_le (inv_float_flip a.1) (inv_float_flip c.1) = true
  rw [ea, ec, inv_float_flip_float_flip ka (hkeys ka hka),
    inv_float_flip_float_flip kc (hkeys kc hkc)]
  rw [ea, ec] at hac
  have hle := f32_scaled_le_of_flip_le ka kc (hkeys ka hka) (hkeys kc hkc) hac
  simp [f32_le, f32_value, hnan ka hka, hnan kc hkc, hle]

/-- Witness of C4: -1.5, +0, -inf, 2.5, -0, +inf, the least subnormal, -1.5. -/
theorem radix8sort_f32_sorted_witness :
    (∀ k ∈ [0xBFC00000, 0x00000000, 0xFF800000, 0x40200000, 0x80000000, 0x7F800000, 0x00000001,
        0xBFC00000], f32_isNaN k = false) ∧
    List.Sorted (fun a b => f32_le a b = true)
      (radix8sort_f32 [0xBFC00000, 0x00000000, 0xFF800000, 0x40200000, 0x80000000, 0x7F800000,
        0x00000001, 0xBFC00000] [0, 0, 0, 0, 0, 0, 0, 0] [0, 1, 2, 3, 4, 5, 6, 7]
        [0, 0, 0, 0, 0, 0, 0, 0] 8).keys :=
  ⟨by decide, radix8sort_f32_sorted [0xBFC00000, 0x00000000, 0xFF800000, 0x40200000, 0x80000000,
    0x7F800000, 0x00000001, 0xBFC00000] [0, 0, 0, 0, 0, 0, 0, 0] [0, 1, 2, 3, 4, 5, 6, 7]
    [0, 0, 0, 0, 0, 0, 0, 0] (by decide) (by decide) (by decide) rfl rfl rfl⟩

/-- C5: the (key bit pattern, value) pairs in the buffers designated by the selector returned
by `radix8sort_f32` are a permutation of the input pairs: every output float is bit-identical
to an input float, the flip of the first pass being undone by the inverse flip of the last. -/
theorem radix8sort_f32_perm (keys_in_out_f32 keys_temp_f32 values_in_out values_temp : List Nat)
    (hkeys : ∀ k ∈ keys_in_out_f32, k < 2 ^ 32)
    (hsize : keys_in_out_f32.length < 2 ^ 32)
    (hvalues : values_in_out.length = keys_in_out_f32.length)
    (hkt : keys_temp_f32.length = keys_in_out_f32.length)
    (hvt : values_temp.length = keys_in_out_f32.length) :
    List.Perm
      ((radix8sort_f32 keys_in_out_f32 keys_temp_f32 values_in_out values_temp
          keys_in_out_f32.length).keys.zip
        (radix8sort_f32 keys_in_out_f32 keys_temp_f32 values_in_out values_temp
          keys_in_out_f32.length).values)
      (keys_in_out_f32.zip values_in_out) ∧
    (radix8sort_f32 keys_in_out_f32 keys_temp_f32 values_in_out values_temp
      keys_in_out_f32.length).keys.length = keys_in_out_f32.length ∧
    (radix8sort_f32 keys_in_out_f32 keys_temp_f32 values_in_out values_temp
      keys_in_out_f32.length).values.length = keys_in_out_f32.length := by
  obtain ⟨hk, hv⟩ := radix8sort_f32_designated keys_in_out_f32 keys_temp_f32 values_in_out
    values_temp hvalues hkt hvt hsize
  have hl : (lsdPass 3 (lsdPass 2 (lsdPass 1 (lsdPass 0
      ((keys_in_out_f32.zip values_in_out).map flipPair))))).length
      = keys_in_out_f32.length := by
    rw [(lsd4_perm _).length_eq, List.length_map, List.length_zip, hvalues, Nat.min_self]
  rw [hk, hv, List.zip_map', List.length_map, List.length_map]
  refine ⟨?_, hl, hl⟩
  have hback : ((keys_in_out_f32.zip values_in_out).map flipPair).map
      (fun p => (inv_float_flip p.1, p.2)) = keys_in_out_f32.zip values_in_out := by
    rw [List.map_map]
    calc (keys_in_out_f32.zip values_in_out).map ((fun p => (inv_float_flip p.1, p.2)) ∘ flipPair)
        = (keys_in_out_f32.zip values_in_out).map id :=
          List.map_congr_left (fun p hp => by
            show (inv_float_flip (float_flip p.1), p.2) = p
            rw [inv_float_flip_float_flip p.1 (mem_zip_fst_lt _ _ hkeys p hp)])
      _ = keys_in_out_f32.zip values_in_out := List.map_id _
  have hperm := (lsd4_perm ((keys_in_out_f32.zip values_in_out).map flipPair)).map
    (fun p => (inv_float_flip p.1, p.2))
  rw [hback] at hperm
  exact hperm

/-- Witness of C5. -/
theorem radix8sort_f32_perm_witness :
    (∀ k ∈ [0xBFC00000, 0x00000000, 0xFF800000, 0x40200000, 0x80000000], k < 2 ^ 32) ∧
    List.Perm
      ((radix8sort_f32 [0xBFC00000, 0x00000000, 0xFF800000, 0x40200000, 0x80000000]
          [0, 0, 0, 0, 0] [0, 1, 2, 3, 4] [0, 0, 0, 0, 0] 5).keys.zip
        (radix8sort_f32 [0xBFC00000, 0x00000000, 0xFF800000, 0x40200000, 0x80000000]
          [0, 0, 0, 0, 0] [0, 1, 2, 3, 4] [0, 0, 0, 0, 0] 5).values)
      ([0xBFC00000, 0x00000000, 0xFF800000, 0x40200000, 0x80000000].zip [0, 1, 2, 3, 4]) :=
  ⟨by decide, (radix8sort_f32_perm [0xBFC00000, 0x00000000, 0xFF800000, 0x40200000, 0x80000000]
    [0, 0, 0, 0, 0] [0, 1, 2, 3, 4] [0, 0, 0, 0, 0] (by decide) (by decide) rfl rfl rfl).1⟩

/-! ## The flip transform -/

theorem scene_float_flip_eq (f : Nat) : Scene.float_flip f = float_flip f := rfl

theorem testBit31 (f : Nat) (hf : f < 2 ^ 32) : f.testBit 31 = decide (2 ^ 31 ≤ f) := by
  rw [Nat.testBit_to_div_mod]
  by_cases h : 2 ^ 31 ≤ f
  · have : f / 2 ^ 31 % 2 = 1 := by omega
    rw [this, decide_eq_true h]
    rfl
  · have : f / 2 ^ 31 % 2 = 0 := by omega
    rw [this, decide_eq_false h]
    rfl

/-- C6: for every 32-bit word `f`, `float_flip f` (in `radixsort.c` and in its copy in
`scene.c`) is the bitwise complement of `f` when bit 31 of `f` is set, and `f` with only bit 31
toggled (`f XOR 0x80000000`) when bit 31 is clear. -/
theorem float_flip_cases (f : Nat) (hf : f < 2 ^ 32) :
    (f.testBit 31 = true →
      float_flip f = f ^^^ 0xFFFFFFFF ∧ float_flip f = 0xFFFFFFFF - f ∧
      (∀ i, i < 32 → (float_flip f).testBit i = !f.testBit i) ∧
      Scene.float_flip f = f ^^^ 0xFFFFFFFF) ∧
    (f.testBit 31 = false →
      float_flip f = f ^^^ 0x80000000 ∧
      (float_flip f).testBit 31 = true ∧
      (∀ i, i ≠ 31 → (float_flip f).testBit i = f.testBit i) ∧
      Scene.float_flip f = f ^^^ 0x80000000) := by
  rw [testBit31 f hf]
  constructor
  · intro h
    have h1 : 2 ^ 31 ≤ f := by simpa using h
    have e : float_flip f = f ^^^ 0xFFFFFFFF := by
      rw [float_flip_hi f h1 hf, xor_ones f hf]
    refine ⟨e, ?_, ?_, ?_⟩
    · rw [float_flip_hi f h1 hf]; norm_num
    · intro i hi
      have e1 : (0xFFFFFFFF : Nat) = 2 ^ 32 - 1 := by norm_num
      rw [e, Nat.testBit_xor, e1, Nat.testBit_two_pow_sub_one]
      simp [hi]
    · rw [scene_float_flip_eq, e]
  · intro h
    have h1 : f < 2 ^ 31 := by simpa using h
    have e : float_flip f = f ^^^ 0x80000000 := by
      rw [float_flip_lo f h1, xor_sign_lo f h1]
    have e1 : (0x80000000 : Nat) = 2 ^ 31 := by norm_num
    refine ⟨e, ?_, ?_, ?_⟩
    · rw [e, Nat.testBit_xor, e1, Nat.testBit_two_pow, Nat.testBit_lt_two_pow h1]
      simp
    · intro i hi
      rw [e, Nat.testBit_xor, e1, Nat.testBit_two_pow]
      have : ¬ (31 = i) := fun h => hi h.symm
      simp [this]
    · rw [scene_float_flip_eq, e]

/-- Witness of C6 on -1.0 (sign set) and 1.0 (sign clear). -/
theorem float_flip_cases_witness :
    float_flip 0xBF800000 = 0xBF800000 ^^^ 0xFFFFFFFF ∧
    float_flip 0x3F800000 = 0x3F800000 ^^^ 0x80000000 :=
  ⟨((float_flip_cases 0xBF800000 (by decide)).1 (by decide)).1,
   ((float_flip_cases 0x3F800000 (by decide)).2 (by decide)).1⟩

/-- C7: `float_flip` is order-preserving. For 32-bit patterns `a`, `b` read as sign-magnitude
numbers, and read as IEEE-754 binary32 values when neither is a NaN: if `a` is numerically less
than `b` then `float_flip a < float_flip b` as unsigned integers. Among the non-NaN patterns
negative infinity has the lowest and positive infinity the highest flipped key. -/
theorem float_flip_order_preserving (a b : Nat) (ha : a < 2 ^ 32) (hb : b < 2 ^ 32) :
    (signMagnitude a < signMagnitude b → float_flip a < float_flip b) ∧
    (f32_lt a b = true → float_flip a < float_flip b) ∧
    (f32_isNaN a = false →
      float_flip 0xFF800000 ≤ float_flip a ∧ float_flip a ≤ float_flip 0x7F800000) := by
  refine ⟨?_, ?_, ?_⟩
  · intro h
    by_contra hc
    have := signMagnitude_le_of_flip_le b a hb ha (by omega)
    omega
  · intro h
    by_contra hc
    have hle := f32_scaled_le_of_flip_le b a hb ha (by omega)
    unfold f32_lt f32_value at h
    by_cases na : f32_isNaN a = true
    · simp [na] at h
    · by_cases nb : f32_isNaN b = true
      · simp [na, nb] at h
      · simp [na, nb] at h
        omega
  · intro h
    have hinf : float_flip 0x7F800000 = 0xFF800000 := by
      rw [float_flip_lo _ (by norm_num)]; norm_num
    have hninf : float_flip 0xFF800000 = 0x007FFFFF := by
      rw [float_flip_hi _ (by norm_num) (by norm_num)]; norm_num
    have hm : a % 2 ^ 31 ≤ 0x7F800000 := by
      simpa [f32_isNaN] using h
    rw [hinf, hninf]
    by_cases h1 : a < 2 ^ 31
    · rw [float_flip_lo a h1]; omega
    · rw [float_flip_hi a (by omega) ha]; omega

/-- Witness of C7: -1.0 is below the least positive subnormal. -/
theorem float_flip_order_preserving_witness :
    f32_lt 0xBF800000 0x00000001 = true ∧ float_flip 0xBF800000 < float_flip 0x00000001 :=
  ⟨by decide, (float_flip_order_preserving 0xBF800000 0x00000001 (by decide) (by decide)).2.1
    (by decide)⟩

/-- C8: `inv_float_flip` is the exact inverse of `float_flip` on 32-bit words, in both
directions. -/
theorem inv_float_flip_inverse (f : Nat) (hf : f < 2 ^ 32) :
    inv_float_flip (float_flip f) = f ∧ float_flip (inv_float_flip f) = f :=
  ⟨inv_float_flip_float_flip f hf, float_flip_inv_float_flip f hf⟩

/-- Witness of C8 on the pattern of -1.5. -/
theorem inv_float_flip_inverse_witness :
    0xBFC00000 < 2 ^ 32 ∧
    inv_float_flip (float_flip 0xBFC00000) = 0xBFC00000 ∧
    float_flip (inv_float_flip 0xBFC00000) = 0xBFC00000 :=
  ⟨by decide, inv_float_flip_inverse 0xBFC00000 (by decide)⟩

end Radixsort

namespace Scene

open Radixsort

/-! ## Key packing and draw order of `Scene3D_drawShape` -/

theorem and_high_mask (a : Nat) (ha : a < 2 ^ 32) : a &&& 0xFFFFFF00 = 2 ^ 8 * (a / 2 ^ 8) := by
  apply Nat.eq_of_testBit_eq
  intro j
  have eM : (0xFFFFFF00 : Nat) = 2 ^ 8 * (2 ^ 24 - 1) := by norm_num
  rw [Nat.testBit_and, eM, Nat.testBit_mul_pow_two, Nat.testBit_mul_pow_two,
    Nat.testBit_two_pow_sub_one, ← Nat.shiftRight_eq_div_pow, Nat.testBit_shiftRight]
  by_cases h8 : j ≥ 8
  · have e : 8 + (j - 8) = j := by omega
    rw [e]
    by_cases h32 : j - 8 < 24
    · simp [h8, h32]
    · have : a.testBit j = false :=
        Nat.testBit_lt_two_pow (lt_of_lt_of_le ha (Nat.pow_le_pow_right (by norm_num) (by omega)))
      simp [h8, h32, this]
  · simp [h8]

/-- The packed word `(a & 0xFFFFFF00) | i` for an index below 256. -/
theorem pack_eq (a i : Nat) (ha : a < 2 ^ 32) (hi : i < 256) :
    (a &&& 0xFFFFFF00) ||| i = 2 ^ 8 * (a / 2 ^ 8) + i := by
  rw [and_high_mask a ha, Nat.mul_add_lt_is_or (by norm_num; exact hi)]

theorem pack_low (a i : Nat) (ha : a < 2 ^ 32) (hi : i < 256) :
    ((a &&& 0xFFFFFF00) ||| i) &&& 0xFF = i := by
  have e : (0xFF : Nat) = 2 ^ 8 - 1 := by norm_num
  rw [pack_eq a i ha hi, e, Nat.and_pow_two_sub_one_eq_mod]
  omega

theorem pack_high (a i : Nat) (ha : a < 2 ^ 32) (hi : i < 256) :
    ((a &&& 0xFFFFFF00) ||| i) >>> 8 = a >>> 8 := by
  rw [pack_eq a i ha hi, Nat.shiftRight_eq_div_pow, Nat.shiftRight_eq_div_pow]
  omega

/-- Entry `i` of the key table after the key-building loop. -/
theorem Scene3D_drawShape_keys_getD (zbits : Nat → Nat) (nFaces : Nat) (table : List Nat)
    (hlen : nFaces ≤ table.length) :
    (Scene3D_drawShape_keys zbits nFaces table).length = table.length ∧
    ∀ i, i < nFaces → (Scene3D_drawShape_keys zbits nFaces table).getD i 0
      = (float_flip (zbits i) &&& 0xFFFFFF00) ||| i := by
  unfold Scene3D_drawShape_keys
  apply foldl_range_inv _
    (fun m (t : List Nat) => t.length = table.length ∧
      ∀ i, i < m → t.getD i 0 = (float_flip (zbits i) &&& 0xFFFFFF00) ||| i)
  · exact ⟨rfl, fun i hi => absurd hi (Nat.not_lt_zero i)⟩
  · rintro m t hm ⟨hl, hg⟩
    refine ⟨by simp [hl], ?_⟩
    intro i hi
    by_cases him : i = m
    · subst him
      rw [getD_set_eq _ _ _ (by simp; omega)]
    · rw [getD_set_ne _ _ _ _ (fun h => him h.symm), getD_set_ne _ _ _ _ (fun h => him h.symm)]
      exact hg i (by omega)

/-- C10: for every face index `i < 256` and every depth bit pattern, the packed key that
`Scene3D_drawShape` stores for face `i` is `(float_flip(z) AND 0xFFFFFF00) OR i`; its low 8 bits
are `i` and its upper 24 bits are those of `float_flip(z)`, so masking with `0xFF` recovers the
face index. -/
theorem Scene3D_drawShape_key_packing (zbits : Nat → Nat) (nFaces : Nat)
    (tmp_order_table1 : List Nat) (i : Nat)
    (hz : zbits i < 2 ^ 32) (hcap : nFaces ≤ tmp_order_table1.length)
    (hi : i < nFaces) (h256 : i < 256) :
    (Scene3D_drawShape_keys zbits nFaces tmp_order_table1).getD i 0
      = (float_flip (zbits i) &&& 0xFFFFFF00) ||| i ∧
    (Scene3D_drawShape_keys zbits nFaces tmp_order_table1).getD i 0 &&& 0xFF = i ∧
    (Scene3D_drawShape_keys zbits nFaces tmp_order_table1).getD i 0 >>> 8
      = float_flip (zbits i) >>> 8 := by
  have hk := (Scene3D_drawShape_keys_getD zbits nFaces tmp_order_table1 hcap).2 i hi
  have hf : float_flip (zbits i) < 2 ^ 32 := by
    rw [scene_float_flip_eq]; exact float_flip_lt _ hz
  rw [hk]
  exact ⟨rfl, pack_low _ _ hf h256, pack_high _ _ hf h256⟩

/-- Witness of C10: face 1 of a two-face shape with depths -3.0 and -12.0. -/
theorem Scene3D_drawShape_key_packing_witness :
    (1 : Nat) < 256 ∧
    (Scene3D_drawShape_keys (fun i => if i = 0 then 0xC0400000 else 0xC1400000) 2 [0, 0]).getD 1 0
      &&& 0xFF = 1 :=
  ⟨by decide, (Scene3D_drawShape_key_packing (fun i => if i = 0 then 0xC0400000 else 0xC1400000)
    2 [0, 0] 1 (by decide) (by decide) (by decide) (by decide)).2.1⟩

theorem readKeys_drawShape_keys (zbits : Nat → Nat) (nFaces : Nat) (table : List Nat)
    (hcap : nFaces ≤ table.length) :
    readKeys (Scene3D_drawShape_keys zbits nFaces table) nFaces = packedKeys zbits nFaces := by
  unfold readKeys packedKeys
  apply List.map_congr_left
  intro i hi
  exact (Scene3D_drawShape_keys_getD zbits nFaces table hcap).2 i (List.mem_range.mp hi)

/-- What the draw loop reads, for every shape and every state of the scratch tables (capacity
at least `nFaces`): the packed keys as they are after the first three passes of the sorter
(the temp buffer), while the buffer designated by the returned selector starts with the keys
after all four passes. -/
theorem Scene3D_drawShape_walk_spec (zbits : Nat → Nat) (nFaces : Nat)
    (table1 table2 vals vals_temp : List Nat)
    (h1 : nFaces ≤ table1.length) (h2 : nFaces ≤ table2.length) (hn : nFaces < 2 ^ 32) :
    Scene3D_drawShape_walk zbits nFaces table1 table2 vals vals_temp
      = lsdKeys 2 (lsdKeys 1 (lsdKeys 0 (packedKeys zbits nFaces))) ∧
    (radix8sort_u32 (Scene3D_drawShape_keys zbits nFaces table1) table2 vals vals_temp
        nFaces).out = 0 ∧
    (radix8sort_u32 (Scene3D_drawShape_keys zbits nFaces table1) table2 vals vals_temp
        nFaces).keys.take nFaces
      = lsdKeys 3 (lsdKeys 2 (lsdKeys 1 (lsdKeys 0 (packedKeys zbits nFaces)))) := by
  have hkl : (Scene3D_drawShape_keys zbits nFaces table1).length = table1.length :=
    (Scene3D_drawShape_keys_getD zbits nFaces table1 h1).1
  obtain ⟨h0, k0, k1⟩ := radixsort_u32_keys_spec (Scene3D_drawShape_keys zbits nFaces table1)
    table2 vals vals_temp nFaces (by omega) h2 hn
  rw [readKeys_drawShape_keys zbits nFaces table1 h1] at k0 k1
  have hp3 : (lsdKeys 2 (lsdKeys 1 (lsdKeys 0 (packedKeys zbits nFaces)))).length = nFaces := by
    rw [((lsdKeys_perm 2 _).trans ((lsdKeys_perm 1 _).trans (lsdKeys_perm 0 _))).length_eq]
    simp [packedKeys]
  have hp4 : (lsdKeys 3 (lsdKeys 2 (lsdKeys 1 (lsdKeys 0 (packedKeys zbits nFaces))))).length
      = nFaces := by
    rw [(lsdKeys_perm 3 _).length_eq, hp3]
  refine ⟨?_, h0, ?_⟩
  · unfold Scene3D_drawShape_walk radix8sort_u32
    simp only [h0, k1, zero_ne_one, if_false]
    exact readKeys_append _ _ _ hp3
  · unfold SortResult.keys radix8sort_u32
    rw [h0]
    show (radixsort_u32 (Scene3D_drawShape_keys zbits nFaces table1) table2 vals vals_temp
      nFaces).bufs.keys0.take nFaces = _
    rw [k0]
    exact List.take_left' hp4

set_option maxRecDepth 20000 in
/-- C9, evaluation at a failing input. Shape with two faces, face 0 at depth sum -3.0 (near)
and face 1 at depth sum -12.0 (far). The sorter returns selector 0 and leaves the sorted keys
`[0x3EBFFF01, 0x3FBFFF00]` in `tmp_order_table1`, but the draw loop reads `tmp_order_table2` and
visits `[0x3FBFFF00, 0x3EBFFF01]`, which is decreasing: the near face 0 is drawn first. -/
theorem Scene3D_drawShape_walk_unsorted :
    (radix8sort_u32
        (Scene3D_drawShape_keys (fun i => if i = 0 then 0xC0400000 else 0xC1400000) 2 [0, 0])
        [0, 0] [0, 0] [0, 0] 2).out = 0 ∧
    (radix8sort_u32
        (Scene3D_drawShape_keys (fun i => if i = 0 then 0xC0400000 else 0xC1400000) 2 [0, 0])
        [0, 0] [0, 0] [0, 0] 2).keys.take 2 = [0x3EBFFF01, 0x3FBFFF00] ∧
    Scene3D_drawShape_walk (fun i => if i = 0 then 0xC0400000 else 0xC1400000) 2
        [0, 0] [0, 0] [0, 0] [0, 0] = [0x3FBFFF00, 0x3EBFFF01] ∧
    Scene3D_drawShape_faces (fun i => if i = 0 then 0xC0400000 else 0xC1400000) 2
        [0, 0] [0, 0] [0, 0] [0, 0] = [0, 1] ∧
    ¬ List.Sorted (fun a b => a ≤ b)
        (Scene3D_drawShape_walk (fun i => if i = 0 then 0xC0400000 else 0xC1400000) 2
          [0, 0] [0, 0] [0, 0] [0, 0]) := by
  obtain ⟨hw, h0, hs⟩ := Scene3D_drawShape_walk_spec
    (fun i => if i = 0 then 0xC0400000 else 0xC1400000) 2 [0, 0] [0, 0] [0, 0] [0, 0]
    (by decide) (by decide) (by decide)
  have hp : packedKeys (fun i => if i = 0 then 0xC0400000 else 0xC1400000) 2
      = [0x3FBFFF00, 0x3EBFFF01] := by decide
  have e3 : lsdKeys 2 (lsdKeys 1 (lsdKeys 0 [0x3FBFFF00, 0x3EBFFF01]))
      = [0x3FBFFF00, 0x3EBFFF01] := by decide
  have e4 : lsdKeys 3 (lsdKeys 2 (lsdKeys 1 (lsdKeys 0 [0x3FBFFF00, 0x3EBFFF01])))
      = [0x3EBFFF01, 0x3FBFFF00] := by decide
  rw [hp, e3] at hw
  rw [hp, e4] at hs
  unfold Scene3D_drawShape_faces
  rw [hs, hw]
  exact ⟨h0, rfl, rfl, by decide, by decide⟩

/-! ## Rounding to binary32 -/

theorem rhe_spec (x : ℚ) : |(rhe x : ℚ) - x| ≤ 1 / 2 := by
  have h1 := Int.floor_le x
  have h2 := Int.lt_floor_add_one x
  unfold rhe
  rw [abs_le]
  split_ifs with a b c
  · constructor <;> linarith
  · push_cast
    constructor <;> linarith
  · constructor <;> linarith
  · push_cast
    constructor <;> linarith

theorem rhe_mono {x y : ℚ} (h : x ≤ y) : rhe x ≤ rhe y := by
  by_contra hc
  push_neg at hc
  have h1 : (rhe y : ℚ) + 1 ≤ rhe x := by exact_mod_cast hc
  have hx := abs_le.mp (rhe_spec x)
  have hy := abs_le.mp (rhe_spec y)
  have e : x = y := by linarith [hx.1, hx.2, hy.1, hy.2]
  rw [e] at hc
  exact lt_irrefl _ hc

theorem rhe_intCast (n : ℤ) : rhe (n : ℚ) = n := by
  unfold rhe
  rw [Int.floor_intCast, sub_self, if_pos (by norm_num)]

theorem rhe_le_int {x : ℚ} {n : ℤ} (h : x ≤ n) : rhe x ≤ n := by
  have := rhe_mono h
  rwa [rhe_intCast] at this

theorem int_le_rhe {x : ℚ} {n : ℤ} (h : (n : ℚ) ≤ x) : n ≤ rhe x := by
  have := rhe_mono h
  rwa [rhe_intCast] at this

theorem two_zpow_pos (e : ℤ) : (0 : ℚ) < 2 ^ e := zpow_pos (by norm_num) e

theorem two_zpow_mono {a b : ℤ} (h : a ≤ b) : (2 : ℚ) ^ a ≤ 2 ^ b :=
  zpow_le_zpow_right₀ (by norm_num) h

theorem unit_mul_24 (e : ℤ) : ((2 ^ 24 : ℤ) : ℚ) * 2 ^ (e - 23) = 2 ^ (e + 1) := by
  have h24 : ((2 ^ 24 : ℤ) : ℚ) = (2 : ℚ) ^ (24 : ℤ) := by norm_num
  rw [h24, ← zpow_add₀ (by norm_num)]
  congr 1
  omega

theorem unit_mul_23 (e : ℤ) : ((2 ^ 23 : ℤ) : ℚ) * 2 ^ (e - 23) = 2 ^ e := by
  have h23 : ((2 ^ 23 : ℤ) : ℚ) = (2 : ℚ) ^ (23 : ℤ) := by norm_num
  rw [h23, ← zpow_add₀ (by norm_num)]
  congr 1
  omega

theorem binade_eq {a : ℚ} {e : ℤ} (h1 : (2 : ℚ) ^ e ≤ a) (h2 : a < 2 ^ (e + 1))
    (he : -126 ≤ e) : binade a = e := by
  have ha : 0 < a := lt_of_lt_of_le (two_zpow_pos e) h1
  have l1 : e ≤ Int.log 2 a := (Int.zpow_le_iff_le_log (by norm_num) ha).mp (by exact_mod_cast h1)
  have l2 : Int.log 2 a < e + 1 :=
    (Int.lt_zpow_iff_log_lt (by norm_num) ha).mp (by exact_mod_cast h2)
  unfold binade
  omega

theorem binade_subnormal {a : ℚ} (h0 : 0 < a) (h2 : a < 2 ^ (-126 : ℤ)) : binade a = -126 := by
  have l2 : Int.log 2 a < -126 :=
    (Int.lt_zpow_iff_log_lt (by norm_num) h0).mp (by exact_mod_cast h2)
  unfold binade
  omega

theorem binade_ge (a : ℚ) : -126 ≤ binade a := le_max_right _ _

theorem binade_mono {a b : ℚ} (h0 : 0 < a) (h : a ≤ b) : binade a ≤ binade b := by
  unfold binade
  exact max_le_max (Int.log_mono_right h0 h) (le_refl _)

theorem lt_pow_binade_succ (a : ℚ) : a < 2 ^ (binade a + 1) := by
  have h := Int.lt_zpow_succ_log_self (b := 2) (by norm_num) a
  have h2 : ((2 : ℕ) : ℚ) ^ (Int.log 2 a + 1) ≤ (2 : ℚ) ^ (binade a + 1) := by
    have : Int.log 2 a + 1 ≤ binade a + 1 := by
      unfold binade
      omega
    exact_mod_cast two_zpow_mono this
  exact lt_of_lt_of_le h h2

theorem pow_binade_le {a : ℚ} (h0 : 0 < a) (h : -126 < binade a) : (2 : ℚ) ^ binade a ≤ a := by
  have e : binade a = Int.log 2 a := by
    unfold binade at h ⊢
    omega
  rw [e]
  exact_mod_cast Int.zpow_log_le_self (b := 2) (by norm_num) h0

theorem roundMag_zero : roundMag 0 = 0 := by
  unfold roundMag
  rw [zero_div]
  have : rhe 0 = 0 := by exact_mod_cast rhe_intCast 0
  rw [this]
  simp

theorem roundMag_nonneg {a : ℚ} (h : 0 ≤ a) : 0 ≤ roundMag a := by
  unfold roundMag
  have h1 : (0 : ℚ) ≤ a / 2 ^ (binade a - 23) := div_nonneg h (le_of_lt (two_zpow_pos _))
  have h2 : (0 : ℤ) ≤ rhe (a / 2 ^ (binade a - 23)) := int_le_rhe (by exact_mod_cast h1)
  exact mul_nonneg (by exact_mod_cast h2) (le_of_lt (two_zpow_pos _))

/-- A rounded magnitude does not exceed the upper end of its binade. -/
theorem roundMag_le_pow (a : ℚ) : roundMag a ≤ 2 ^ (binade a + 1) := by
  unfold roundMag
  have hu := two_zpow_pos (binade a - 23)
  have h1 : a / 2 ^ (binade a - 23) ≤ ((2 ^ 24 : ℤ) : ℚ) := by
    rw [div_le_iff₀ hu]
    have h := lt_pow_binade_succ a
    rw [unit_mul_24]
    exact le_of_lt h
  have h2 := rhe_le_int h1
  have h3 : (rhe (a / 2 ^ (binade a - 23)) : ℚ) ≤ ((2 ^ 24 : ℤ) : ℚ) := by exact_mod_cast h2
  rw [← unit_mul_24]
  exact mul_le_mul_of_nonneg_right h3 (le_of_lt hu)

/-- A rounded magnitude of a normal binade is not below the lower end of the binade. -/
theorem pow_le_roundMag {a : ℚ} (h0 : 0 < a) (h : -126 < binade a) :
    (2 : ℚ) ^ binade a ≤ roundMag a := by
  unfold roundMag
  have hu := two_zpow_pos (binade a - 23)
  have e := (unit_mul_23 (binade a)).symm
  have h1 : ((2 ^ 23 : ℤ) : ℚ) ≤ a / 2 ^ (binade a - 23) := by
    rw [le_div_iff₀ hu, ← e]
    exact pow_binade_le h0 h
  have h2 := int_le_rhe h1
  have h3 : ((2 ^ 23 : ℤ) : ℚ) ≤ (rhe (a / 2 ^ (binade a - 23)) : ℚ) := by exact_mod_cast h2
  rw [e]
  exact mul_le_mul_of_nonneg_right h3 (le_of_lt hu)

theorem roundMag_mono {a b : ℚ} (h0 : 0 ≤ a) (h : a ≤ b) : roundMag a ≤ roundMag b := by
  rcases eq_or_lt_of_le h0 with h0 | h0
  · rw [← h0, roundMag_zero]
    exact roundMag_nonneg (by rw [← h0] at h; exact h)
  · have hb := binade_mono h0 h
    rcases eq_or_lt_of_le hb with hb | hb
    · unfold roundMag
      rw [hb]
      have hu := two_zpow_pos (binade b - 23)
      have h1 : a / 2 ^ (binade b - 23) ≤ b / 2 ^ (binade b - 23) :=
        div_le_div_of_nonneg_right h (le_of_lt hu)
      have h2 := rhe_mono h1
      exact mul_le_mul_of_nonneg_right (by exact_mod_cast h2) (le_of_lt hu)
    · have h1 := roundMag_le_pow a
      have h2 : (2 : ℚ) ^ (binade a + 1) ≤ 2 ^ binade b := two_zpow_mono (by omega)
      have h3 := pow_le_roundMag (lt_of_lt_of_le h0 h) (lt_of_le_of_lt (binade_ge a) hb)
      linarith


theorem rhe_near {x : ℚ} {n : ℤ} (h1 : (n : ℚ) - 1 / 2 < x) (h2 : x < n + 1 / 2) :
    rhe x = n := by
  have h := abs_le.mp (rhe_spec x)
  have a : (rhe x : ℚ) < n + 1 := by linarith [h.2]
  have b : (n : ℚ) - 1 < rhe x := by linarith [h.1]
  have a1 : rhe x < n + 1 := by exact_mod_cast a
  have b1 : n - 1 < rhe x := by exact_mod_cast b
  omega

theorem rhe_tie_even {x : ℚ} {n : ℤ} (h : x = n + 1 / 2) (hn : n % 2 = 0) : rhe x = n := by
  have hf : ⌊x⌋ = n := by
    rw [Int.floor_eq_iff]
    constructor <;> linarith
  unfold rhe
  rw [hf, if_neg (by rw [h]; norm_num), if_neg (by rw [h]; norm_num), if_pos hn]

theorem rhe_tie_up {x : ℚ} {n : ℤ} (h : x = n - 1 / 2) (hn : n % 2 = 0) : rhe x = n := by
  have hf : ⌊x⌋ = n - 1 := by
    rw [Int.floor_eq_iff]
    push_cast
    constructor <;> linarith
  unfold rhe
  rw [hf, if_neg (by rw [h]; push_cast; norm_num), if_neg (by rw [h]; push_cast; norm_num),
    if_neg (by omega)]
  omega

theorem rn_zero : rn 0 = F32.fin 0 := by
  unfold rn
  rw [abs_zero, roundMag_zero, if_neg (by norm_num), if_neg (by norm_num)]

theorem rn_neg (q : ℚ) : rn (-q) = fneg (rn q) := by
  unfold rn
  rw [abs_neg]
  rcases lt_trichotomy q 0 with h | h | h
  · have h1 : ¬ (-q < 0) := by linarith
    split_ifs <;> simp [fneg, h, h1]
  · subst h
    rw [neg_zero]
    have e : rn 0 = F32.fin 0 := rn_zero
    unfold rn at e
    rw [e]
    simp [fneg]
  · have h1 : -q < 0 := by linarith
    have h2 : ¬ q < 0 := by linarith
    split_ifs <;> simp [fneg, h1, h2]

theorem rn_ne_nan (q : ℚ) : rn q ≠ F32.nan := by
  unfold rn
  split_ifs <;> simp

/-- Rounding is monotone. -/
theorem rn_mono {a b : ℚ} (h : a ≤ b) : fle (rn a) (rn b) = true := by
  unfold rn
  by_cases ha : a < 0
  · by_cases hb : b < 0
    · have hm : roundMag |b| ≤ roundMag |a| := by
        apply roundMag_mono (abs_nonneg b)
        rw [abs_of_neg ha, abs_of_neg hb]
        linarith
      split_ifs with c1 c2 c2
      · simp [fle, ha, hb]
      · simp [fle, ha]
      · exfalso
        linarith
      · simp only [fle, decide_eq_true_eq]
        linarith
    · have hm := roundMag_nonneg (abs_nonneg a)
      have hm2 := roundMag_nonneg (abs_nonneg b)
      split_ifs with c1 c2 c2
      · simp [fle, ha, hb]
      · simp [fle, ha]
      · simp [fle, hb]
      · simp only [fle, decide_eq_true_eq]
        linarith
  · have hb : ¬ b < 0 := by
      push_neg at ha ⊢
      linarith
    push_neg at ha hb
    have hm : roundMag |a| ≤ roundMag |b| := by
      apply roundMag_mono (abs_nonneg a)
      rw [abs_of_nonneg ha, abs_of_nonneg hb]
      exact h
    have ha1 : ¬ a < 0 := not_lt.mpr ha
    have hb1 : ¬ b < 0 := not_lt.mpr hb
    split_ifs with c1 c2 c2
    · simp [fle, ha1, hb1]
    · exfalso
      linarith
    · simp [fle, hb1]
    · simp only [fle, decide_eq_true_eq]
      exact hm

/-- Rounding is monotone on the finite results. -/
theorem rn_mono_fin {a b x y : ℚ} (h : a ≤ b) (hx : rn a = F32.fin x) (hy : rn b = F32.fin y) :
    x ≤ y := by
  have := rn_mono h
  rw [hx, hy] at this
  simpa [fle] using this

/-- A value between two values that rounding leaves alone rounds to a finite value between
them. -/
theorem rn_between {a q b : ℚ} (ha : rn a = F32.fin a) (hb : rn b = F32.fin b)
    (h1 : a ≤ q) (h2 : q ≤ b) : ∃ x, rn q = F32.fin x ∧ a ≤ x ∧ x ≤ b := by
  have l := rn_mono h1
  have u := rn_mono h2
  rw [ha] at l
  rw [hb] at u
  cases hq : rn q with
  | fin x =>
    rw [hq] at l u
    exact ⟨x, rfl, by simpa [fle] using l, by simpa [fle] using u⟩
  | inf s =>
    rw [hq] at l u
    cases s <;> simp [fle] at l u
  | nan => exact absurd hq (rn_ne_nan q)

/-- Rounding of a positive value of a normal binade `e`, from the rounded multiple `n` of the
unit of the binade. -/
theorem rn_pos_of {q : ℚ} (e n : ℤ) (r : ℚ) (he : -126 ≤ e) (hlo : (2 : ℚ) ^ e ≤ q)
    (hhi : q < 2 ^ (e + 1)) (hn : rhe (q / 2 ^ (e - 23)) = n)
    (hr : (n : ℚ) * 2 ^ (e - 23) = r) (hf : r < 2 ^ 128) : rn q = F32.fin r := by
  have h0 : 0 < q := lt_of_lt_of_le (two_zpow_pos e) hlo
  have hm : roundMag |q| = r := by
    rw [abs_of_pos h0]
    unfold roundMag
    rw [binade_eq hlo hhi he, hn, hr]
  unfold rn
  rw [hm, if_neg (not_le.mpr hf), if_neg (not_lt.mpr (le_of_lt h0))]

/-- Rounding of a positive value of the subnormal range. -/
theorem rn_sub_of {q : ℚ} (n : ℤ) (r : ℚ) (h0 : 0 < q) (hhi : q < 2 ^ (-126 : ℤ))
    (hn : rhe (q / 2 ^ (-149 : ℤ)) = n) (hr : (n : ℚ) * 2 ^ (-149 : ℤ) = r)
    (hf : r < 2 ^ 128) : rn q = F32.fin r := by
  have hm : roundMag |q| = r := by
    rw [abs_of_pos h0]
    unfold roundMag
    rw [binade_subnormal h0 hhi]
    have e : (-126 : ℤ) - 23 = -149 := by norm_num
    rw [e, hn, hr]
  unfold rn
  rw [hm, if_neg (not_le.mpr hf), if_neg (not_lt.mpr (le_of_lt h0))]

theorem rn_neg_of {q r : ℚ} (h : rn q = F32.fin r) : rn (-q) = F32.fin (-r) := by
  rw [rn_neg, h]
  rfl

theorem rn_half : rn (1 / 2) = F32.fin (1 / 2) :=
  rn_pos_of (-1) (2 ^ 23) _ (by norm_num) (by norm_num) (by norm_num)
    (rhe_near (by norm_num) (by norm_num)) (by norm_num) (by norm_num)

theorem rn_one : rn 1 = F32.fin 1 :=
  rn_pos_of 0 (2 ^ 23) _ (by norm_num) (by norm_num) (by norm_num)
    (rhe_near (by norm_num) (by norm_num)) (by norm_num) (by norm_num)

/-- The literal `32.99f`. -/
theorem rn_lit_3299 : rn (3299 / 100) = F32.fin (8648131 / 262144) :=
  rn_pos_of 5 8648131 _ (by norm_num) (by norm_num) (by norm_num)
    (rhe_near (by norm_num) (by norm_num)) (by norm_num) (by norm_num)

/-- The literal `1.6666666f`. -/
theorem rn_lit_16666666 : rn (16666666 / 10000000) = F32.fin (13981013 / 8388608) :=
  rn_pos_of 0 13981013 _ (by norm_num) (by norm_num) (by norm_num)
    (rhe_near (by norm_num) (by norm_num)) (by norm_num) (by norm_num)

/-! ## Symmetries of the operations -/

theorem fmul_comm (a b : F32) : fmul a b = fmul b a := by
  cases a with
  | fin x =>
    cases b with
    | fin y => simp only [fmul, mul_comm]
    | inf t => cases t <;> simp [fmul]
    | nan => rfl
  | inf s =>
    cases b with
    | fin y => cases s <;> simp [fmul]
    | inf t => cases s <;> cases t <;> rfl
    | nan => rfl
  | nan => cases b <;> rfl

theorem fneg_fneg (a : F32) : fneg (fneg a) = a := by
  cases a with
  | fin x => simp [fneg]
  | inf s => simp [fneg]
  | nan => rfl

/-- Exchanging the operands of a subtraction negates the result. -/
theorem fsub_swap (a b : F32) : fsub b a = fneg (fsub a b) := by
  cases a with
  | fin x =>
    cases b with
    | fin y =>
      show rn (y + -x) = fneg (rn (x + -y))
      rw [← rn_neg]
      congr 1
      ring
    | inf t => cases t <;> rfl
    | nan => rfl
  | inf s =>
    cases b with
    | fin y => cases s <;> rfl
    | inf t => cases s <;> cases t <;> rfl
    | nan => rfl
  | nan => cases b <;> rfl

theorem flt_fneg {d : F32} (h : flt d (F32.fin 0) = true) : flt (F32.fin 0) (fneg d) = true := by
  cases d with
  | fin x =>
    simp only [flt, fneg, decide_eq_true_eq] at h ⊢
    linarith
  | inf s =>
    cases s
    · simp [flt] at h
    · rfl
  | nan => simp [flt] at h

theorem fle_of_flt {a b : F32} (h : flt a b = true) : fle a b = true := by
  cases a with
  | fin x =>
    cases b with
    | fin y =>
      simp only [flt, fle, decide_eq_true_eq] at h ⊢
      exact le_of_lt h
    | inf t => exact h
    | nan => simp [flt] at h
  | inf s =>
    cases b with
    | fin y => exact h
    | inf t => cases s <;> cases t <;> simp [flt, fle] at h ⊢
    | nan => simp [flt] at h
  | nan => simp [flt] at h

/-- A value below zero is not at or above zero. -/
theorem not_fle_of_flt {d : F32} (h : flt d (F32.fin 0) = true) : fle (F32.fin 0) d = false := by
  cases d with
  | fin x =>
    simp only [flt, fle, decide_eq_true_eq, decide_eq_false_iff_not, not_le] at h ⊢
    exact h
  | inf s =>
    cases s
    · simp [flt] at h
    · rfl
  | nan => rfl

/-! ## Evaluation of the operations at concrete values -/

/-- Rounding of a value `p > 0` of the normal binade `e` that lies nearest to the multiple `n`
of the unit of the binade. -/
theorem rn_near {q : ℚ} (p : ℚ) (e n : ℤ) (r : ℚ)
    (h : q = p ∧ -126 ≤ e ∧ (2 : ℚ) ^ e ≤ p ∧ p < 2 ^ (e + 1) ∧
      (n : ℚ) - 1 / 2 < p / 2 ^ (e - 23) ∧ p / 2 ^ (e - 23) < n + 1 / 2 ∧
      (n : ℚ) * 2 ^ (e - 23) = r ∧ r < 2 ^ 128) : rn q = F32.fin r := by
  obtain ⟨hq, he, hlo, hhi, h1, h2, hr, hf⟩ := h
  rw [hq]
  exact rn_pos_of e n r he hlo hhi (rhe_near h1 h2) hr hf

/-- Rounding of a value `-p < 0` with `p` as in `rn_near`. -/
theorem rn_near_neg {q : ℚ} (p : ℚ) (e n : ℤ) (r : ℚ)
    (h : q = -p ∧ -126 ≤ e ∧ (2 : ℚ) ^ e ≤ p ∧ p < 2 ^ (e + 1) ∧
      (n : ℚ) - 1 / 2 < p / 2 ^ (e - 23) ∧ p / 2 ^ (e - 23) < n + 1 / 2 ∧
      -((n : ℚ) * 2 ^ (e - 23)) = r ∧ -r < 2 ^ 128) : rn q = F32.fin r := by
  obtain ⟨hq, he, hlo, hhi, h1, h2, hr, hf⟩ := h
  rw [hq, ← hr]
  rw [← hr, neg_neg] at hf
  exact rn_neg_of (rn_pos_of e n _ he hlo hhi (rhe_near h1 h2) rfl hf)

/-- Rounding of a value `p > 0` half way between two multiples of the unit of its binade: to
the even multiple `n`. -/
theorem rn_tie {q : ℚ} (p : ℚ) (e n : ℤ) (r : ℚ)
    (h : q = p ∧ -126 ≤ e ∧ (2 : ℚ) ^ e ≤ p ∧ p < 2 ^ (e + 1) ∧
      (p / 2 ^ (e - 23) = n + 1 / 2 ∨ p / 2 ^ (e - 23) = n - 1 / 2) ∧ n % 2 = 0 ∧
      (n : ℚ) * 2 ^ (e - 23) = r ∧ r < 2 ^ 128) : rn q = F32.fin r := by
  obtain ⟨hq, he, hlo, hhi, h1, h2, hr, hf⟩ := h
  rw [hq]
  rcases h1 with h1 | h1
  · exact rn_pos_of e n r he hlo hhi (rhe_tie_even h1 h2) hr hf
  · exact rn_pos_of e n r he hlo hhi (rhe_tie_up h1 h2) hr hf

/-- Rounding of a value `-p < 0` with `p` as in `rn_tie`. -/
theorem rn_tie_neg {q : ℚ} (p : ℚ) (e n : ℤ) (r : ℚ)
    (h : q = -p ∧ -126 ≤ e ∧ (2 : ℚ) ^ e ≤ p ∧ p < 2 ^ (e + 1) ∧
      (p / 2 ^ (e - 23) = n + 1 / 2 ∨ p / 2 ^ (e - 23) = n - 1 / 2) ∧ n % 2 = 0 ∧
      -((n : ℚ) * 2 ^ (e - 23)) = r ∧ -r < 2 ^ 128) : rn q = F32.fin r := by
  obtain ⟨hq, he, hlo, hhi, h1, h2, hr, hf⟩ := h
  rw [hq, ← hr]
  rw [← hr, neg_neg] at hf
  rcases h1 with h1 | h1
  · exact rn_neg_of (rn_pos_of e n _ he hlo hhi (rhe_tie_even h1 h2) rfl hf)
  · exact rn_neg_of (rn_pos_of e n _ he hlo hhi (rhe_tie_up h1 h2) rfl hf)

/-- Rounding of a value `p > 0` below the normal range, to the multiple `n` of `2^-149`. -/
theorem rn_tiny {q : ℚ} (p : ℚ) (n : ℤ) (r : ℚ)
    (h : q = p ∧ 0 < p ∧ p < 2 ^ (-126 : ℤ) ∧ (n : ℚ) - 1 / 2 < p / 2 ^ (-149 : ℤ) ∧
      p / 2 ^ (-149 : ℤ) < n + 1 / 2 ∧ (n : ℚ) * 2 ^ (-149 : ℤ) = r ∧ r < 2 ^ 128) :
    rn q = F32.fin r := by
  obtain ⟨hq, h0, hhi, h1, h2, hr, hf⟩ := h
  rw [hq]
  exact rn_sub_of n r h0 hhi (rhe_near h1 h2) hr hf

theorem rn_at_zero {q : ℚ} (hq : q = 0) : rn q = F32.fin 0 := by
  rw [hq]
  exact rn_zero

theorem fadd_fin {a b r : ℚ} (h : rn (a + b) = F32.fin r) :
    fadd (F32.fin a) (F32.fin b) = F32.fin r := h

theorem fsub_fin {a b r : ℚ} (h : rn (a + -b) = F32.fin r) :
    fsub (F32.fin a) (F32.fin b) = F32.fin r := h

theorem fmul_fin {a b r : ℚ} (h : rn (a * b) = F32.fin r) :
    fmul (F32.fin a) (F32.fin b) = F32.fin r := h

theorem fdiv_fin {a b r : ℚ} (hb : b ≠ 0) (h : rn (a / b) = F32.fin r) :
    fdiv (F32.fin a) (F32.fin b) = F32.fin r := by
  show (if b = 0 then (if a = 0 then F32.nan else F32.inf (decide (a < 0))) else rn (a / b))
    = F32.fin r
  rw [if_neg hb]
  exact h
/-! ## Face index recovery beyond 256 faces -/

/-- The low byte of a packed word `(a & 0xFFFFFF00) | i` is `i mod 256`, for every `a`, `i`. -/
theorem pack_low_mod (a i : Nat) : ((a &&& 0xFFFFFF00) ||| i) &&& 0xFF = i % 256 := by
  have e : (0xFF : Nat) = 2 ^ 8 - 1 := by norm_num
  have e256 : (256 : Nat) = 2 ^ 8 := by norm_num
  have eM : (0xFFFFFF00 : Nat) = 2 ^ 8 * (2 ^ 24 - 1) := by norm_num
  rw [e, Nat.and_pow_two_sub_one_eq_mod, e256]
  apply Nat.eq_of_testBit_eq
  intro j
  rw [Nat.testBit_mod_two_pow, Nat.testBit_mod_two_pow, Nat.testBit_or, Nat.testBit_and, eM,
    Nat.testBit_mul_pow_two]
  by_cases h8 : j < 8
  · have : ¬ (8 ≤ j) := by omega
    simp [h8, this]
  · simp [h8]

/-- The faces recovered by the draw loop are, up to order, the face indices modulo 256. -/
theorem Scene3D_drawShape_faces_perm (zbits : Nat → Nat) (nFaces : Nat)
    (table1 table2 vals vals_temp : List Nat)
    (h1 : nFaces ≤ table1.length) (h2 : nFaces ≤ table2.length) (hn : nFaces < 2 ^ 32) :
    (Scene3D_drawShape_faces zbits nFaces table1 table2 vals vals_temp).Perm
      ((List.range nFaces).map (fun i => i % 256)) := by
  unfold Scene3D_drawShape_faces
  rw [(Scene3D_drawShape_walk_spec zbits nFaces table1 table2 vals vals_temp h1 h2 hn).1]
  have hp : (lsdKeys 2 (lsdKeys 1 (lsdKeys 0 (packedKeys zbits nFaces)))).Perm
      (packedKeys zbits nFaces) :=
    (lsdKeys_perm 2 _).trans ((lsdKeys_perm 1 _).trans (lsdKeys_perm 0 _))
  have hm : (packedKeys zbits nFaces).map (fun e => e &&& 0xFF)
      = (List.range nFaces).map (fun i => i % 256) := by
    unfold packedKeys
    rw [List.map_map]
    apply List.map_congr_left
    intro i _
    exact pack_low_mod _ i
  rw [← hm]
  exact hp.map _

/-- C11: for a shape of any size (in particular with more than 256 faces) and every face index
`i`, the index recovered from the packed key of face `i`, `key AND 0xFF`, is `i mod 256`; so the
faces `i` and `i + 256` have the same recovered index. -/
theorem Scene3D_drawShape_key_index_wraps (zbits : Nat → Nat) (nFaces : Nat)
    (tmp_order_table1 : List Nat) (i : Nat)
    (hcap : nFaces ≤ tmp_order_table1.length) (hi : i < nFaces) :
    (Scene3D_drawShape_keys zbits nFaces tmp_order_table1).getD i 0 &&& 0xFF = i % 256 ∧
    (i + 256 < nFaces →
      (Scene3D_drawShape_keys zbits nFaces tmp_order_table1).getD (i + 256) 0 &&& 0xFF
        = (Scene3D_drawShape_keys zbits nFaces tmp_order_table1).getD i 0 &&& 0xFF) := by
  have hk := (Scene3D_drawShape_keys_getD zbits nFaces tmp_order_table1 hcap).2
  refine ⟨?_, fun h => ?_⟩
  · rw [hk i hi]
    exact pack_low_mod _ i
  · rw [hk i hi, hk (i + 256) h, pack_low_mod, pack_low_mod]
    omega

/-- Witness of C11: a shape with 258 faces, all at depth bits 0; faces 1 and 257 both recover
the index 1. -/
theorem Scene3D_drawShape_key_index_wraps_witness :
    (1 : Nat) + 256 < 258 ∧
    (Scene3D_drawShape_keys (fun _ => 0) 258 (List.replicate 258 0)).getD (1 + 256) 0 &&& 0xFF
      = (Scene3D_drawShape_keys (fun _ => 0) 258 (List.replicate 258 0)).getD 1 0 &&& 0xFF :=
  ⟨by decide,
   (Scene3D_drawShape_key_index_wraps (fun _ => 0) 258 (List.replicate 258 0) 1
      (le_of_eq (List.length_replicate _ _).symm) (by decide)).2 (by decide)⟩


/-! ## Culling in `drawShapeFace` -/

/-- C12: for every face in which at least one of the three vertices has camera-space `z <= 0`,
`drawShapeFace` calls neither `fillTriangle` nor `drawLine` (its list of primitive calls is
empty), whatever the style flags, the other coordinates, the normal and the light. -/
theorem drawShapeFace_behind_camera (out_of_range : F32 → Int)
    (v3_dot : float3 → float3 → F32) (kRenderFilled kRenderWireframe : Nat)
    (light p1 p2 p3 normal : float3) (style : Nat)
    (hz : fle p1.z (F32.fin 0) = true ∨ fle p2.z (F32.fin 0) = true ∨
      fle p3.z (F32.fin 0) = true) :
    drawShapeFace out_of_range v3_dot kRenderFilled kRenderWireframe light p1 p2 p3 normal
      style = [] := by
  unfold drawShapeFace
  rw [if_pos hz]

/-- Witness of C12: a front-facing on-screen triangle whose third vertex lies in the camera
plane, both style flags set. -/
theorem drawShapeFace_behind_camera_witness :
    drawShapeFace (fun _ => -2 ^ 31) v3_dot_f32 1 2 ⟨F32.fin 0, F32.fin 0, F32.fin (-1)⟩
      ⟨F32.fin 10, F32.fin 10, F32.fin 1⟩ ⟨F32.fin 10, F32.fin 20, F32.fin 1⟩
      ⟨F32.fin 20, F32.fin 10, F32.fin 0⟩ ⟨F32.fin 0, F32.fin 0, F32.fin 1⟩ 3 = [] :=
  drawShapeFace_behind_camera (fun _ => -2 ^ 31) v3_dot_f32 1 2
    ⟨F32.fin 0, F32.fin 0, F32.fin (-1)⟩
    ⟨F32.fin 10, F32.fin 10, F32.fin 1⟩ ⟨F32.fin 10, F32.fin 20, F32.fin 1⟩
    ⟨F32.fin 20, F32.fin 10, F32.fin 0⟩ ⟨F32.fin 0, F32.fin 0, F32.fin 1⟩ 3
    (Or.inr (Or.inr (by simp [fle])))

/-- The computed signed area changes sign when the last two vertices are exchanged: the
products are the same two, subtracted the other way round, and rounding is symmetric. -/
theorem drawShapeFace_d_swap (p1 p2 p3 : float3) :
    drawShapeFace_d p1 p3 p2 = fneg (drawShapeFace_d p1 p2 p3) := by
  unfold drawShapeFace_d
  dsimp only
  rw [fmul_comm (fsub p3.x p1.x) (fsub p2.y p1.y), fmul_comm (fsub p3.y p1.y) (fsub p2.x p1.x)]
  exact fsub_swap _ _

/-- A face whose computed signed area is at or above zero produces no primitive call. -/
theorem drawShapeFace_culled (out_of_range : F32 → Int) (v3_dot : float3 → float3 → F32)
    (kRenderFilled kRenderWireframe : Nat) (light p1 p2 p3 normal : float3) (style : Nat)
    (hd : fle (F32.fin 0) (drawShapeFace_d p1 p2 p3) = true) :
    drawShapeFace out_of_range v3_dot kRenderFilled kRenderWireframe light p1 p2 p3 normal
      style = [] := by
  unfold drawShapeFace
  by_cases h1 : fle p1.z (F32.fin 0) = true ∨ fle p2.z (F32.fin 0) = true ∨
      fle p3.z (F32.fin 0) = true
  · rw [if_pos h1]
  · rw [if_neg h1]
    dsimp only
    rw [if_pos hd]
    split_ifs <;> rfl

/-- The calls made for a face that passes the depth, bounds and winding tests. -/
theorem drawShapeFace_visible (out_of_range : F32 → Int) (v3_dot : float3 → float3 → F32)
    (kRenderFilled kRenderWireframe : Nat) (light p1 p2 p3 normal : float3) (style : Nat)
    (hz : fle p1.z (F32.fin 0) = false ∧ fle p2.z (F32.fin 0) = false ∧
      fle p3.z (F32.fin 0) = false)
    (hb : ¬ offScreen p1 p2 p3)
    (hd : fle (F32.fin 0) (drawShapeFace_d p1 p2 p3) = false) :
    drawShapeFace out_of_range v3_dot kRenderFilled kRenderWireframe light p1 p2 p3 normal style
      = (if style &&& kRenderFilled ≠ 0 then
          [DrawCall.fillTriangle p1 p2 p3
            (patterns.getD (drawShapeFace_vi out_of_range (v3_dot normal light)).toNat [])]
        else []) ++
        (if style &&& kRenderWireframe ≠ 0 then
          [DrawCall.drawLine p1 p2 1 (patterns.getD (drawShapeFace_edge_vi
              (drawShapeFace_vi out_of_range (v3_dot normal light))).toNat []),
            DrawCall.drawLine p2 p3 1 (patterns.getD (drawShapeFace_edge_vi
              (drawShapeFace_vi out_of_range (v3_dot normal light))).toNat []),
            DrawCall.drawLine p3 p1 1 (patterns.getD (drawShapeFace_edge_vi
              (drawShapeFace_vi out_of_range (v3_dot normal light))).toNat [])]
        else []) := by
  have h1 : ¬ (fle p1.z (F32.fin 0) = true ∨ fle p2.z (F32.fin 0) = true ∨
      fle p3.z (F32.fin 0) = true) := by
    rw [hz.1, hz.2.1, hz.2.2]
    simp
  unfold offScreen at hb
  unfold drawShapeFace
  rw [if_neg h1]
  dsimp only
  rw [if_neg hb, if_neg (by rw [hd]; simp)]

/-- The computed signed area of a thin on-screen triangle: `-1/2048`, where the exact value of
`dx21*dy31 - dy21*dx31` at these vertices is positive. -/
theorem drawShapeFace_d_thin :
    drawShapeFace_d ⟨F32.fin (2797983 / 8192), F32.fin (13316455 / 524288), F32.fin 1⟩
      ⟨F32.fin (9959023 / 32768), F32.fin (8389693 / 131072), F32.fin 1⟩
      ⟨F32.fin (1266039 / 8192), F32.fin (445017 / 2048), F32.fin 1⟩ = F32.fin (-1 / 2048) := by
  have e1 : fsub (F32.fin (9959023 / 32768)) (F32.fin (2797983 / 8192))
      = F32.fin (-1232909 / 32768) :=
    fsub_fin (rn_near_neg (1232909 / 32768) 5 9863272 (-1232909 / 32768) (by norm_num))
  have e2 : fsub (F32.fin (445017 / 2048)) (F32.fin (13316455 / 524288))
      = F32.fin (12575987 / 65536) :=
    fsub_fin (rn_near (100607897 / 524288) 7 12575987 (12575987 / 65536) (by norm_num))
  have e3 : fsub (F32.fin (1266039 / 8192)) (F32.fin (2797983 / 8192)) = F32.fin (-191493 / 1024) :=
    fsub_fin (rn_near_neg (191493 / 1024) 7 12255552 (-191493 / 1024) (by norm_num))
  have e4 : fsub (F32.fin (8389693 / 131072)) (F32.fin (13316455 / 524288))
      = F32.fin (5060579 / 131072) :=
    fsub_fin (rn_tie (20242317 / 524288) 5 10121158 (5060579 / 131072) (by norm_num))
  have e5 : fmul (F32.fin (-1232909 / 32768)) (F32.fin (12575987 / 65536))
      = F32.fin (-7393383 / 1024) :=
    fmul_fin (rn_near_neg (15505047556183 / 2147483648) 12 14786766 (-7393383 / 1024) (by norm_num))
  have e6 : fmul (F32.fin (5060579 / 131072)) (F32.fin (-191493 / 1024))
      = F32.fin (-14786765 / 2048) :=
    fmul_fin (rn_near_neg (969065454447 / 134217728) 12 14786765 (-14786765 / 2048) (by norm_num))
  have e7 : fsub (F32.fin (-7393383 / 1024)) (F32.fin (-14786765 / 2048)) = F32.fin (-1 / 2048) :=
    fsub_fin (rn_near_neg (1 / 2048) (-11) 8388608 (-1 / 2048) (by norm_num))
  unfold drawShapeFace_d
  dsimp only
  rw [e1, e2, e3, e4, e5, e6, e7]

/-- C13: for every triangle `(p1, p2, p3)` that passes the back-face test of `drawShapeFace`
with a signed area `d = dx21*dy31 - dy21*dx31 < 0`, as the code computes it in `float`, the
triangle with its vertex order reversed, `(p1, p3, p2)`, has the computed signed area
`-d > 0` and is culled: no primitive is called for it, whatever the flags, the normal and
the light. -/
theorem drawShapeFace_winding_cull (p1 p2 p3 : float3)
    (hd : flt (drawShapeFace_d p1 p2 p3) (F32.fin 0) = true) :
    drawShapeFace_d p1 p3 p2 = fneg (drawShapeFace_d p1 p2 p3) ∧
    flt (F32.fin 0) (drawShapeFace_d p1 p3 p2) = true ∧
    ∀ (out_of_range : F32 → Int) (v3_dot : float3 → float3 → F32)
      (kRenderFilled kRenderWireframe : Nat) (light normal : float3) (style : Nat),
      drawShapeFace out_of_range v3_dot kRenderFilled kRenderWireframe light p1 p3 p2 normal
        style = [] := by
  have hs := drawShapeFace_d_swap p1 p2 p3
  have hpos : flt (F32.fin 0) (drawShapeFace_d p1 p3 p2) = true := by
    rw [hs]
    exact flt_fneg hd
  exact ⟨hs, hpos, fun out_of_range v3_dot kF kW light normal style =>
    drawShapeFace_culled out_of_range v3_dot kF kW light p1 p3 p2 normal style
      (fle_of_flt hpos)⟩

/-- Witness of C13: the thin on-screen triangle of `drawShapeFace_d_thin`, whose computed
signed area is `-1/2048`; with the last two vertices exchanged the computed area is `1/2048`
and nothing is drawn. -/
theorem drawShapeFace_winding_cull_witness :
    flt (drawShapeFace_d ⟨F32.fin (2797983 / 8192), F32.fin (13316455 / 524288), F32.fin 1⟩
      ⟨F32.fin (9959023 / 32768), F32.fin (8389693 / 131072), F32.fin 1⟩
      ⟨F32.fin (1266039 / 8192), F32.fin (445017 / 2048), F32.fin 1⟩) (F32.fin 0) = true ∧
    drawShapeFace_d ⟨F32.fin (2797983 / 8192), F32.fin (13316455 / 524288), F32.fin 1⟩
      ⟨F32.fin (1266039 / 8192), F32.fin (445017 / 2048), F32.fin 1⟩
      ⟨F32.fin (9959023 / 32768), F32.fin (8389693 / 131072), F32.fin 1⟩
      = fneg (F32.fin (-1 / 2048)) ∧
    drawShapeFace (fun _ => -2 ^ 31) v3_dot_f32 1 2 ⟨F32.fin 0, F32.fin 0, F32.fin (-1)⟩
      ⟨F32.fin (2797983 / 8192), F32.fin (13316455 / 524288), F32.fin 1⟩
      ⟨F32.fin (1266039 / 8192), F32.fin (445017 / 2048), F32.fin 1⟩
      ⟨F32.fin (9959023 / 32768), F32.fin (8389693 / 131072), F32.fin 1⟩
      ⟨F32.fin 0, F32.fin 0, F32.fin 1⟩ 3 = [] := by
  have hd : flt (drawShapeFace_d
      ⟨F32.fin (2797983 / 8192), F32.fin (13316455 / 524288), F32.fin 1⟩
      ⟨F32.fin (9959023 / 32768), F32.fin (8389693 / 131072), F32.fin 1⟩
      ⟨F32.fin (1266039 / 8192), F32.fin (445017 / 2048), F32.fin 1⟩) (F32.fin 0) = true := by
    rw [drawShapeFace_d_thin]
    norm_num [flt]
  have h := drawShapeFace_winding_cull
    ⟨F32.fin (2797983 / 8192), F32.fin (13316455 / 524288), F32.fin 1⟩
    ⟨F32.fin (9959023 / 32768), F32.fin (8389693 / 131072), F32.fin 1⟩
    ⟨F32.fin (1266039 / 8192), F32.fin (445017 / 2048), F32.fin 1⟩ hd
  refine ⟨hd, ?_, h.2.2 _ _ _ _ _ _ _⟩
  rw [h.1, drawShapeFace_d_thin]


/-- The computed signed area of the triangle (0,0), (4096,4097), (4097,4098): the product
`4097 * 4097 = 16785409` rounds to `16785408 = 4096 * 4098`, so the computed area is 0 where
the exact value of the expression is -1, and the face is culled. -/
theorem drawShapeFace_d_cancelled :
    drawShapeFace_d ⟨F32.fin 0, F32.fin 0, F32.fin 1⟩
      ⟨F32.fin 4096, F32.fin 4097, F32.fin 1⟩
      ⟨F32.fin 4097, F32.fin 4098, F32.fin 1⟩ = F32.fin 0 := by
  have e1 : fsub (F32.fin 4096) (F32.fin 0) = F32.fin 4096 :=
    fsub_fin (rn_near 4096 12 8388608 4096 (by norm_num))
  have e2 : fsub (F32.fin 4098) (F32.fin 0) = F32.fin 4098 :=
    fsub_fin (rn_near 4098 12 8392704 4098 (by norm_num))
  have e3 : fsub (F32.fin 4097) (F32.fin 0) = F32.fin 4097 :=
    fsub_fin (rn_near 4097 12 8390656 4097 (by norm_num))
  have e4 : fmul (F32.fin 4096) (F32.fin 4098) = F32.fin 16785408 :=
    fmul_fin (rn_near 16785408 24 8392704 16785408 (by norm_num))
  have e5 : fmul (F32.fin 4097) (F32.fin 4097) = F32.fin 16785408 :=
    fmul_fin (rn_tie 16785409 24 8392704 16785408 (by norm_num))
  have e6 : fsub (F32.fin 16785408) (F32.fin 16785408) = F32.fin 0 :=
    fsub_fin (rn_at_zero (by norm_num))
  unfold drawShapeFace_d
  dsimp only
  simp only [e1, e2, e3, e4, e5, e6]

/-! ## Lighting index of `drawShapeFace` -/

theorem patterns_length : patterns.length = 33 := rfl

/-- The lighting block clamps the converted product. -/
theorem drawShapeFace_vi_eq (out_of_range : F32 → Int) (dot : F32) :
    drawShapeFace_vi out_of_range dot
      = max 0 (min 32 (float_to_int out_of_range (drawShapeFace_vf dot))) := by
  unfold drawShapeFace_vi drawShapeFace_vf
  dsimp only
  split_ifs <;> omega

theorem drawShapeFace_vi_range (out_of_range : F32 → Int) (dot : F32) :
    0 ≤ drawShapeFace_vi out_of_range dot ∧ drawShapeFace_vi out_of_range dot ≤ 32 := by
  rw [drawShapeFace_vi_eq]
  omega

/-- A defined conversion truncates toward zero. -/
theorem float_to_int_fin (out_of_range : F32 → Int) {p : ℚ}
    (h : intDefined (F32.fin p)) :
    float_to_int out_of_range (F32.fin p) = if 0 ≤ p then ⌊p⌋ else ⌈p⌉ := by
  have h1 : -2 ^ 31 - 1 < p ∧ p < 2 ^ 31 := h
  show (if -2 ^ 31 - 1 < p ∧ p < 2 ^ 31 then (if 0 ≤ p then ⌊p⌋ else ⌈p⌉)
    else out_of_range (F32.fin p)) = _
  rw [if_pos h1]

/-- After the clamp to `[0, 32]` a truncation toward zero is the floor. -/
theorem clamp_trunc_eq_floor (p : ℚ) :
    max 0 (min 32 (if 0 ≤ p then ⌊p⌋ else ⌈p⌉)) = max 0 (min 32 ⌊p⌋) := by
  by_cases hq : 0 ≤ p
  · rw [if_pos hq]
  · rw [if_neg hq]
    have h1 : ⌈p⌉ ≤ 0 := Int.ceil_le.mpr (by push_cast; exact le_of_lt (not_le.mp hq))
    have h2 : ⌊p⌋ < 0 := Int.floor_lt.mpr (by push_cast; exact not_le.mp hq)
    omega

theorem trunc_mono {a b : ℚ} (h : a ≤ b) :
    (if 0 ≤ a then ⌊a⌋ else ⌈a⌉) ≤ (if 0 ≤ b then ⌊b⌋ else ⌈b⌉) := by
  by_cases ha : 0 ≤ a
  · have hb : 0 ≤ b := le_trans ha h
    rw [if_pos ha, if_pos hb]
    exact Int.floor_mono h
  · rw [if_neg ha]
    by_cases hb : 0 ≤ b
    · rw [if_pos hb]
      have h1 : ⌈a⌉ ≤ 0 := Int.ceil_le.mpr (by push_cast; exact le_of_lt (not_le.mp ha))
      have h2 : 0 ≤ ⌊b⌋ := Int.floor_nonneg.mpr hb
      omega
    · rw [if_neg hb]
      exact Int.ceil_mono h

theorem intDefined_fin {x : F32} (h : intDefined x) : ∃ p, x = F32.fin p := by
  cases x with
  | fin p => exact ⟨p, rfl⟩
  | inf s => exact absurd h (by simp [intDefined])
  | nan => exact absurd h (by simp [intDefined])

/-- A finite product `32.99f * v` comes from a finite `dot` through three roundings. -/
theorem drawShapeFace_vf_fin_inv {dot : F32} {p : ℚ} (h : drawShapeFace_vf dot = F32.fin p) :
    ∃ a x v : ℚ, dot = F32.fin a ∧ rn (a * (1 / 2)) = F32.fin x ∧
      rn (1 / 2 + -x) = F32.fin v ∧ rn (8648131 / 262144 * v) = F32.fin p := by
  unfold drawShapeFace_vf at h
  rw [rn_lit_3299] at h
  cases dot with
  | fin a =>
    have e1 : fmul (F32.fin a) (F32.fin (1 / 2)) = rn (a * (1 / 2)) := rfl
    rw [e1] at h
    cases hx : rn (a * (1 / 2)) with
    | fin x =>
      rw [hx] at h
      have e2 : fsub (F32.fin (1 / 2)) (F32.fin x) = rn (1 / 2 + -x) := rfl
      rw [e2] at h
      cases hv : rn (1 / 2 + -x) with
      | fin v =>
        rw [hv] at h
        exact ⟨a, x, v, rfl, hx, hv, h⟩
      | inf t =>
        rw [hv] at h
        simp [fmul] at h
      | nan => exact absurd hv (rn_ne_nan _)
    | inf s =>
      rw [hx] at h
      simp [fsub, fneg, fadd, fmul] at h
    | nan => exact absurd hx (rn_ne_nan _)
  | inf s => simp [fsub, fneg, fadd, fmul] at h
  | nan => simp [fsub, fneg, fadd, fmul] at h

/-- The product `32.99f * v` does not increase with `dot`, where it is finite. -/
theorem drawShapeFace_vf_anti {d1 d2 : F32} {p1 p2 : ℚ} (h : fle d2 d1 = true)
    (h1 : drawShapeFace_vf d1 = F32.fin p1) (h2 : drawShapeFace_vf d2 = F32.fin p2) :
    p1 ≤ p2 := by
  obtain ⟨a1, x1, v1, rfl, hx1, hv1, hp1⟩ := drawShapeFace_vf_fin_inv h1
  obtain ⟨a2, x2, v2, rfl, hx2, hv2, hp2⟩ := drawShapeFace_vf_fin_inv h2
  have ha : a2 ≤ a1 := by simpa [fle] using h
  have hx : x2 ≤ x1 := rn_mono_fin (by linarith) hx2 hx1
  have hv : v1 ≤ v2 := rn_mono_fin (by linarith) hv1 hv2
  exact rn_mono_fin (by nlinarith) hp1 hp2

/-- For `dot` in `[-1, 1]` the product `32.99f * v` is a finite value in `[0, 32.99f]`. -/
theorem drawShapeFace_vf_unit (q : ℚ) (h1 : -1 ≤ q) (h2 : q ≤ 1) :
    ∃ p, drawShapeFace_vf (F32.fin q) = F32.fin p ∧ 0 ≤ p ∧ p ≤ 8648131 / 262144 := by
  have hh : rn (-(1 / 2)) = F32.fin (-(1 / 2)) := rn_neg_of rn_half
  obtain ⟨x, hx, x1, x2⟩ := rn_between hh rn_half
    (show -(1 / 2) ≤ q * (1 / 2) by linarith) (show q * (1 / 2) ≤ 1 / 2 by linarith)
  obtain ⟨v, hv, v1, v2⟩ := rn_between rn_zero rn_one
    (show (0 : ℚ) ≤ 1 / 2 + -x by linarith) (show 1 / 2 + -x ≤ 1 by linarith)
  have hc : rn (8648131 / 262144) = F32.fin (8648131 / 262144) :=
    rn_near (8648131 / 262144) 5 8648131 (8648131 / 262144) (by norm_num)
  obtain ⟨p, hp, p1, p2⟩ := rn_between rn_zero hc
    (show (0 : ℚ) ≤ 8648131 / 262144 * v by positivity)
    (show (8648131 / 262144 : ℚ) * v ≤ 8648131 / 262144 by nlinarith)
  refine ⟨p, ?_, p1, p2⟩
  unfold drawShapeFace_vf
  rw [rn_lit_3299]
  show fmul _ (fsub _ (rn (q * (1 / 2)))) = _
  rw [hx]
  show fmul _ (rn (1 / 2 + -x)) = _
  rw [hv]
  exact hp

theorem drawShapeFace_vf_unit_defined (q : ℚ) (h1 : -1 ≤ q) (h2 : q ≤ 1) :
    intDefined (drawShapeFace_vf (F32.fin q)) := by
  obtain ⟨p, hp, p1, p2⟩ := drawShapeFace_vf_unit q h1 h2
  rw [hp]
  unfold intDefined
  constructor
  · linarith
  · have : (8648131 / 262144 : ℚ) < 2 ^ 31 := by norm_num
    linarith

/-- The index where the conversion is defined: the clamped floor of the product. -/
theorem drawShapeFace_vi_of_fin (out_of_range : F32 → Int) {dot : F32} {p : ℚ}
    (hp : drawShapeFace_vf dot = F32.fin p) (h : intDefined (drawShapeFace_vf dot)) :
    drawShapeFace_vi out_of_range dot = max 0 (min 32 ⌊p⌋) := by
  rw [drawShapeFace_vi_eq, hp, float_to_int_fin out_of_range (by rw [← hp]; exact h),
    clamp_trunc_eq_floor]

/-- The index does not increase with `dot` where the conversion is defined. -/
theorem drawShapeFace_vi_anti (out_of_range : F32 → Int) {d1 d2 : F32} (h : fle d2 d1 = true)
    (h1 : intDefined (drawShapeFace_vf d1)) (h2 : intDefined (drawShapeFace_vf d2)) :
    drawShapeFace_vi out_of_range d1 ≤ drawShapeFace_vi out_of_range d2 := by
  obtain ⟨p1, e1⟩ := intDefined_fin h1
  obtain ⟨p2, e2⟩ := intDefined_fin h2
  rw [drawShapeFace_vi_of_fin out_of_range e1 h1, drawShapeFace_vi_of_fin out_of_range e2 h2]
  have := Int.floor_mono (drawShapeFace_vf_anti h e1 e2)
  omega

/-! ### The lighting block at concrete values -/

/-- At `dot = 1`: `v = 0` and the product is 0. -/
theorem drawShapeFace_vf_at_one : drawShapeFace_vf (F32.fin 1) = F32.fin 0 := by
  have e1 : fmul (F32.fin 1) (F32.fin (1 / 2)) = F32.fin (1 / 2) :=
    fmul_fin (rn_near (1 / 2) (-1) 8388608 (1 / 2) (by norm_num))
  have e2 : fsub (F32.fin (1 / 2)) (F32.fin (1 / 2)) = F32.fin 0 :=
    fsub_fin (rn_at_zero (by norm_num))
  have e3 : fmul (F32.fin (8648131 / 262144)) (F32.fin 0) = F32.fin 0 :=
    fmul_fin (rn_at_zero (by norm_num))
  unfold drawShapeFace_vf
  rw [rn_lit_3299, e1, e2, e3]

/-- At `dot = -1`: `v = 1` and the product is the literal `32.99f`. -/
theorem drawShapeFace_vf_at_neg_one :
    drawShapeFace_vf (F32.fin (-1)) = F32.fin (8648131 / 262144) := by
  have e1 : fmul (F32.fin (-1)) (F32.fin (1 / 2)) = F32.fin (-1 / 2) :=
    fmul_fin (rn_near_neg (1 / 2) (-1) 8388608 (-1 / 2) (by norm_num))
  have e2 : fsub (F32.fin (1 / 2)) (F32.fin (-1 / 2)) = F32.fin 1 :=
    fsub_fin (rn_near 1 0 8388608 1 (by norm_num))
  have e3 : fmul (F32.fin (8648131 / 262144)) (F32.fin 1) = F32.fin (8648131 / 262144) :=
    fmul_fin (rn_near (8648131 / 262144) 5 8648131 (8648131 / 262144) (by norm_num))
  unfold drawShapeFace_vf
  rw [rn_lit_3299, e1, e2, e3]

/-- At `dot = -1/2`: `v = 0.75` and the product `24.7425...` rounds to `3243049/131072`. -/
theorem drawShapeFace_vf_at_neg_half :
    drawShapeFace_vf (F32.fin (-1 / 2)) = F32.fin (3243049 / 131072) := by
  have e1 : fmul (F32.fin (-1 / 2)) (F32.fin (1 / 2)) = F32.fin (-1 / 4) :=
    fmul_fin (rn_near_neg (1 / 4) (-2) 8388608 (-1 / 4) (by norm_num))
  have e2 : fsub (F32.fin (1 / 2)) (F32.fin (-1 / 4)) = F32.fin (3 / 4) :=
    fsub_fin (rn_near (3 / 4) (-1) 12582912 (3 / 4) (by norm_num))
  have e3 : fmul (F32.fin (8648131 / 262144)) (F32.fin (3 / 4)) = F32.fin (3243049 / 131072) :=
    fmul_fin (rn_tie (25944393 / 1048576) 4 12972196 (3243049 / 131072) (by norm_num))
  unfold drawShapeFace_vf
  rw [rn_lit_3299, e1, e2, e3]

/-- At `dot = 317211/2097152` the product, `13.9999994...` before rounding, rounds to 14. -/
theorem drawShapeFace_vf_at_fourteen :
    drawShapeFace_vf (F32.fin (317211 / 2097152)) = F32.fin 14 := by
  have e1 : fmul (F32.fin (317211 / 2097152)) (F32.fin (1 / 2)) = F32.fin (317211 / 4194304) :=
    fmul_fin (rn_near (317211 / 4194304) (-4) 10150752 (317211 / 4194304) (by norm_num))
  have e2 : fsub (F32.fin (1 / 2)) (F32.fin (317211 / 4194304)) = F32.fin (1779941 / 4194304) :=
    fsub_fin (rn_near (1779941 / 4194304) (-2) 14239528 (1779941 / 4194304) (by norm_num))
  have e3 : fmul (F32.fin (8648131 / 262144)) (F32.fin (1779941 / 4194304)) = F32.fin 14 :=
    fmul_fin (rn_near (15393162940271 / 1099511627776) 3 14680064 14 (by norm_num))
  unfold drawShapeFace_vf
  rw [rn_lit_3299, e1, e2, e3]

/-- At `dot = -1530747/16777216` (bit pattern `0xBDBADBD8`) the product, `17.9999996...` before
rounding, rounds to 18. -/
theorem drawShapeFace_vf_at_eighteen :
    drawShapeFace_vf (F32.fin (-1530747 / 16777216)) = F32.fin 18 := by
  have e1 : fmul (F32.fin (-1530747 / 16777216)) (F32.fin (1 / 2))
      = F32.fin (-1530747 / 33554432) :=
    fmul_fin (rn_near_neg (1530747 / 33554432) (-5) 12245976 (-1530747 / 33554432) (by norm_num))
  have e2 : fsub (F32.fin (1 / 2)) (F32.fin (-1530747 / 33554432)) = F32.fin (4576991 / 8388608) :=
    fsub_fin (rn_tie (18307963 / 33554432) (-1) 9153982 (4576991 / 8388608) (by norm_num))
  have e3 : fmul (F32.fin (8648131 / 262144)) (F32.fin (4576991 / 8388608)) = F32.fin 18 :=
    fmul_fin (rn_near (39582417753821 / 2199023255552) 4 9437184 18 (by norm_num))
  unfold drawShapeFace_vf
  rw [rn_lit_3299, e1, e2, e3]

/-- At `dot = -10^10` the product is `164950016000`, above `INT_MAX`. -/
theorem drawShapeFace_vf_at_far :
    drawShapeFace_vf (F32.fin (-10000000000)) = F32.fin 164950016000 := by
  have e1 : fmul (F32.fin (-10000000000)) (F32.fin (1 / 2)) = F32.fin (-5000000000) :=
    fmul_fin (rn_near_neg 5000000000 32 9765625 (-5000000000) (by norm_num))
  have e2 : fsub (F32.fin (1 / 2)) (F32.fin (-5000000000)) = F32.fin 5000000000 :=
    fsub_fin (rn_near (10000000001 / 2) 32 9765625 5000000000 (by norm_num))
  have e3 : fmul (F32.fin (8648131 / 262144)) (F32.fin 5000000000) = F32.fin 164950016000 :=
    fmul_fin (rn_near (84454404296875 / 512) 37 10067750 164950016000 (by norm_num))
  unfold drawShapeFace_vf
  rw [rn_lit_3299, e1, e2, e3]

/-- The computed signed area of the triangle (10,10), (10,20), (20,10): -100. -/
theorem drawShapeFace_d_front :
    drawShapeFace_d ⟨F32.fin 10, F32.fin 10, F32.fin 1⟩
      ⟨F32.fin 10, F32.fin 20, F32.fin 1⟩
      ⟨F32.fin 20, F32.fin 10, F32.fin 1⟩ = F32.fin (-100) := by
  have e1 : fsub (F32.fin 10) (F32.fin 10) = F32.fin 0 :=
    fsub_fin (rn_at_zero (by norm_num))
  have e2 : fsub (F32.fin 20) (F32.fin 10) = F32.fin 10 :=
    fsub_fin (rn_near 10 3 10485760 10 (by norm_num))
  have e3 : fmul (F32.fin 0) (F32.fin 0) = F32.fin 0 :=
    fmul_fin (rn_at_zero (by norm_num))
  have e4 : fmul (F32.fin 10) (F32.fin 10) = F32.fin 100 :=
    fmul_fin (rn_near 100 6 13107200 100 (by norm_num))
  have e5 : fsub (F32.fin 0) (F32.fin 100) = F32.fin (-100) :=
    fsub_fin (rn_near_neg 100 6 13107200 (-100) (by norm_num))
  unfold drawShapeFace_d
  dsimp only
  simp only [e1, e2, e3, e4, e5]

/-- The dot product of the normal `(0, 0, 1)` and the light `(0, 0, -1/2)`. -/
theorem v3_dot_f32_neg_half :
    v3_dot_f32 ⟨F32.fin 0, F32.fin 0, F32.fin 1⟩ ⟨F32.fin 0, F32.fin 0, F32.fin (-1 / 2)⟩
        = F32.fin (-1 / 2) := by
  have e1 : fmul (F32.fin 0) (F32.fin 0) = F32.fin 0 :=
    fmul_fin (rn_at_zero (by norm_num))
  have e2 : fadd (F32.fin 0) (F32.fin 0) = F32.fin 0 :=
    fadd_fin (rn_at_zero (by norm_num))
  have e3 : fmul (F32.fin 1) (F32.fin (-1 / 2)) = F32.fin (-1 / 2) :=
    fmul_fin (rn_near_neg (1 / 2) (-1) 8388608 (-1 / 2) (by norm_num))
  have e4 : fadd (F32.fin 0) (F32.fin (-1 / 2)) = F32.fin (-1 / 2) :=
    fadd_fin (rn_near_neg (1 / 2) (-1) 8388608 (-1 / 2) (by norm_num))
  unfold v3_dot_f32
  dsimp only
  simp only [e1, e2, e3, e4]


/-- C14, counterexample to the rounding reading: for `dot(normal, light) = -1/2` the code has
`v = 0.75`, the product `32.99f * v` is `24.7425...` and the `(int)` conversion gives the index
24, whatever `out_of_range` is, while `round(32.99 * v)` clamped to `[0, 32]` is 25; a visible
filled face with normal `(0, 0, 1)` and light `(0, 0, -1/2)` is filled with `patterns[24]`. -/
theorem drawShapeFace_vi_not_rounded :
    (∀ out_of_range : F32 → Int, drawShapeFace_vi out_of_range (F32.fin (-1 / 2)) = 24) ∧
    vi_rounded (-1 / 2) = 25 ∧
    drawShapeFace (fun _ => -2 ^ 31) v3_dot_f32 1 2 ⟨F32.fin 0, F32.fin 0, F32.fin (-1 / 2)⟩
      ⟨F32.fin 10, F32.fin 10, F32.fin 1⟩ ⟨F32.fin 10, F32.fin 20, F32.fin 1⟩
      ⟨F32.fin 20, F32.fin 10, F32.fin 1⟩ ⟨F32.fin 0, F32.fin 0, F32.fin 1⟩ 1
      = [DrawCall.fillTriangle ⟨F32.fin 10, F32.fin 10, F32.fin 1⟩
          ⟨F32.fin 10, F32.fin 20, F32.fin 1⟩ ⟨F32.fin 20, F32.fin 10, F32.fin 1⟩
          (patterns.getD 24 [])] := by
  have h1 : ∀ out_of_range : F32 → Int,
      drawShapeFace_vi out_of_range (F32.fin (-1 / 2)) = 24 := by
    intro out_of_range
    rw [drawShapeFace_vi_of_fin out_of_range drawShapeFace_vf_at_neg_half
      (by rw [drawShapeFace_vf_at_neg_half]; norm_num [intDefined])]
    have hf : ⌊(3243049 / 131072 : ℚ)⌋ = 24 := by
      rw [Int.floor_eq_iff]
      norm_num
    rw [hf]
    rfl
  have h2 : vi_rounded (-1 / 2) = 25 := by
    simp only [vi_rounded]
    rw [round_eq]
    norm_num
  refine ⟨h1, h2, ?_⟩
  rw [drawShapeFace_visible _ _ 1 2 _ _ _ _ _ 1
    ⟨by norm_num [fle], by norm_num [fle], by norm_num [fle]⟩
    (by norm_num [offScreen, flt, fle, WIDTH, HEIGHT])
    (by rw [drawShapeFace_d_front]; norm_num [fle]),
    if_pos (by decide), if_neg (by decide), v3_dot_f32_neg_half, h1]
  rfl

/-- C14, amended: for every face normal and light, and whatever an undefined conversion
yields, the pattern index computed by `drawShapeFace` is `floor(32.99f * v)` clamped to
`[0, 32]`, where `v = 0.5f - dot * 0.5f` and each operation is rounded to `float`, whenever the
conversion of the product to `int` is defined, which it is for every `dot` in `[-1, 1]`: the
`(int)` conversion truncates toward zero, which after the clamp is the floor, not the nearest
integer. -/
theorem drawShapeFace_vi_floor_clamped (out_of_range : F32 → Int) :
    (∀ dot : F32, intDefined (drawShapeFace_vf dot) →
      ∃ p : ℚ, drawShapeFace_vf dot = F32.fin p ∧
        drawShapeFace_vi out_of_range dot = max 0 (min 32 ⌊p⌋)) ∧
    (∀ q : ℚ, -1 ≤ q → q ≤ 1 → intDefined (drawShapeFace_vf (F32.fin q))) := by
  refine ⟨fun dot h => ?_, drawShapeFace_vf_unit_defined⟩
  obtain ⟨p, hp⟩ := intDefined_fin h
  exact ⟨p, hp, drawShapeFace_vi_of_fin out_of_range hp h⟩

/-- Witness of C14: at `dot = 317211/2097152` the product `32.99f * v` is the float 14 (its
exact value before rounding is below 14) and the index is 14. -/
theorem drawShapeFace_vi_floor_clamped_witness :
    intDefined (drawShapeFace_vf (F32.fin (317211 / 2097152))) ∧
    drawShapeFace_vi (fun _ => -2 ^ 31) (F32.fin (317211 / 2097152)) = 14 := by
  have hd : intDefined (drawShapeFace_vf (F32.fin (317211 / 2097152))) := by
    rw [drawShapeFace_vf_at_fourteen]
    norm_num [intDefined]
  obtain ⟨p, hp, hv⟩ := (drawShapeFace_vi_floor_clamped (fun _ => -2 ^ 31)).1
    (F32.fin (317211 / 2097152)) hd
  rw [drawShapeFace_vf_at_fourteen] at hp
  have e : p = 14 := (F32.fin.inj hp).symm
  rw [e] at hv
  have hf : ⌊(14 : ℚ)⌋ = 14 := by
    rw [Int.floor_eq_iff]
    norm_num
  rw [hf] at hv
  exact ⟨hd, hv⟩

/-- C15, counterexample to the monotonicity over all `dot` values: at `dot = -10^10` the
product `32.99f * v` is `164950016000`, outside `int`, where the conversion is undefined in C;
with the result `INT_MIN` of the x86-64 conversion the index is clamped to 0, below the index
32 of the larger `dot = -1`. -/
theorem drawShapeFace_vi_not_monotone :
    fle (F32.fin (-10000000000)) (F32.fin (-1)) = true ∧
    drawShapeFace_vf (F32.fin (-10000000000)) = F32.fin 164950016000 ∧
    ¬ intDefined (drawShapeFace_vf (F32.fin (-10000000000))) ∧
    drawShapeFace_vi (fun _ => -2 ^ 31) (F32.fin (-10000000000)) = 0 ∧
    drawShapeFace_vi (fun _ => -2 ^ 31) (F32.fin (-1)) = 32 ∧
    ¬ (drawShapeFace_vi (fun _ => -2 ^ 31) (F32.fin (-1))
        ≤ drawShapeFace_vi (fun _ => -2 ^ 31) (F32.fin (-10000000000))) := by
  have hn : ¬ intDefined (drawShapeFace_vf (F32.fin (-10000000000))) := by
    rw [drawShapeFace_vf_at_far]
    norm_num [intDefined]
  have h0 : drawShapeFace_vi (fun _ => -2 ^ 31) (F32.fin (-10000000000)) = 0 := by
    rw [drawShapeFace_vi_eq, drawShapeFace_vf_at_far]
    have e : float_to_int (fun _ => -2 ^ 31) (F32.fin 164950016000) = -2 ^ 31 := by
      show (if -2 ^ 31 - 1 < (164950016000 : ℚ) ∧ (164950016000 : ℚ) < 2 ^ 31 then _
        else (-2 ^ 31 : Int)) = _
      rw [if_neg (by norm_num)]
    rw [e]
    decide
  have h32 : drawShapeFace_vi (fun _ => -2 ^ 31) (F32.fin (-1)) = 32 := by
    rw [drawShapeFace_vi_of_fin _ drawShapeFace_vf_at_neg_one
      (by rw [drawShapeFace_vf_at_neg_one]; norm_num [intDefined])]
    have hf : ⌊(8648131 / 262144 : ℚ)⌋ = 32 := by
      rw [Int.floor_eq_iff]
      norm_num
    rw [hf]
    rfl
  refine ⟨by norm_num [fle], drawShapeFace_vf_at_far, hn, h0, h32, ?_⟩
  rw [h0, h32]
  decide

/-- C15, amended: whatever an undefined conversion yields, the pattern index is a
non-increasing function of `dot(normal, light)` over the values whose product `32.99f * v`
converts to `int` with a defined result, among them every `dot` in `[-1, 1]`: for such
`d1 >= d2` the index for `d1` is at most the index for `d2`; it is 0 at `dot = 1` and 32 at
`dot = -1`; and for every `dot` whatever it lies in `[0, 32]`, hence inside the 33-entry
pattern table. -/
theorem drawShapeFace_vi_monotone (out_of_range : F32 → Int) :
    (∀ d1 d2 : F32, fle d2 d1 = true → intDefined (drawShapeFace_vf d1) →
      intDefined (drawShapeFace_vf d2) →
      drawShapeFace_vi out_of_range d1 ≤ drawShapeFace_vi out_of_range d2) ∧
    (∀ q1 q2 : ℚ, -1 ≤ q2 → q2 ≤ q1 → q1 ≤ 1 →
      drawShapeFace_vi out_of_range (F32.fin q1) ≤ drawShapeFace_vi out_of_range (F32.fin q2)) ∧
    drawShapeFace_vi out_of_range (F32.fin 1) = 0 ∧
    drawShapeFace_vi out_of_range (F32.fin (-1)) = 32 ∧
    (∀ d : F32, 0 ≤ drawShapeFace_vi out_of_range d ∧ drawShapeFace_vi out_of_range d ≤ 32 ∧
      (drawShapeFace_vi out_of_range d).toNat < patterns.length) := by
  refine ⟨fun d1 d2 h h1 h2 => drawShapeFace_vi_anti out_of_range h h1 h2,
    fun q1 q2 a b c => ?_, ?_, ?_, fun d => ?_⟩
  · exact drawShapeFace_vi_anti out_of_range (by simpa [fle] using b)
      (drawShapeFace_vf_unit_defined q1 (by linarith) c)
      (drawShapeFace_vf_unit_defined q2 a (by linarith))
  · rw [drawShapeFace_vi_of_fin out_of_range drawShapeFace_vf_at_one
      (by rw [drawShapeFace_vf_at_one]; norm_num [intDefined])]
    have hf : ⌊(0 : ℚ)⌋ = 0 := Int.floor_zero
    rw [hf]
    rfl
  · rw [drawShapeFace_vi_of_fin out_of_range drawShapeFace_vf_at_neg_one
      (by rw [drawShapeFace_vf_at_neg_one]; norm_num [intDefined])]
    have hf : ⌊(8648131 / 262144 : ℚ)⌋ = 32 := by
      rw [Int.floor_eq_iff]
      norm_num
    rw [hf]
    rfl
  · have h := drawShapeFace_vi_range out_of_range d
    refine ⟨h.1, h.2, ?_⟩
    rw [patterns_length]
    omega

/-- Witness of C15: the index at `dot = 1/2` is at most the index at `dot = -1/2`. -/
theorem drawShapeFace_vi_monotone_witness :
    (-1 : ℚ) ≤ -1 / 2 ∧ (-1 / 2 : ℚ) ≤ 1 / 2 ∧ (1 / 2 : ℚ) ≤ 1 ∧
    drawShapeFace_vi (fun _ => -2 ^ 31) (F32.fin (1 / 2))
      ≤ drawShapeFace_vi (fun _ => -2 ^ 31) (F32.fin (-1 / 2)) :=
  ⟨by norm_num, by norm_num, by norm_num,
    (drawShapeFace_vi_monotone (fun _ => -2 ^ 31)).2.1 (1 / 2) (-1 / 2) (by norm_num)
      (by norm_num) (by norm_num)⟩

/-! ## Projection loop of `Scene3D_drawShape` -/

theorem getD_set_eq_float3 (l : List float3) (i : Nat) (x d : float3) (h : i < l.length) :
    (l.set i x).getD i d = x := by
  simp [List.getD_eq_getElem?_getD, List.getElem?_set, h]

theorem getD_set_ne_float3 (l : List float3) (i j : Nat) (x d : float3) (h : i ≠ j) :
    (l.set i x).getD j d = l.getD j d := by
  simp [List.getD_eq_getElem?_getD, List.getElem?_set, h]

/-- The projection loop applies the loop body to each of the first `nPoints` points, once, and
leaves the other entries as they are. -/
theorem Scene3D_drawShape_project_getD (scale centerx centery : F32) (tmp_points : List float3)
    (nPoints : Nat) (hcap : nPoints ≤ tmp_points.length) :
    (Scene3D_drawShape_project scale centerx centery tmp_points nPoints).length
      = tmp_points.length ∧
    (∀ i, i < nPoints →
      (Scene3D_drawShape_project scale centerx centery tmp_points nPoints).getD i
          ⟨F32.fin 0, F32.fin 0, F32.fin 0⟩
        = Scene3D_drawShape_project_point scale centerx centery
            (tmp_points.getD i ⟨F32.fin 0, F32.fin 0, F32.fin 0⟩)) ∧
    (∀ i, nPoints ≤ i →
      (Scene3D_drawShape_project scale centerx centery tmp_points nPoints).getD i
          ⟨F32.fin 0, F32.fin 0, F32.fin 0⟩
        = tmp_points.getD i ⟨F32.fin 0, F32.fin 0, F32.fin 0⟩) := by
  unfold Scene3D_drawShape_project
  apply foldl_range_inv _
    (fun m (t : List float3) => t.length = tmp_points.length ∧
      (∀ i, i < m → t.getD i ⟨F32.fin 0, F32.fin 0, F32.fin 0⟩
        = Scene3D_drawShape_project_point scale centerx centery
            (tmp_points.getD i ⟨F32.fin 0, F32.fin 0, F32.fin 0⟩)) ∧
      (∀ i, m ≤ i → t.getD i ⟨F32.fin 0, F32.fin 0, F32.fin 0⟩
        = tmp_points.getD i ⟨F32.fin 0, F32.fin 0, F32.fin 0⟩))
  · exact ⟨rfl, fun i hi => absurd hi (Nat.not_lt_zero i), fun i _ => rfl⟩
  · rintro m t hm ⟨hl, hlt, hge⟩
    refine ⟨by simp [hl], ?_, ?_⟩
    · intro i hi
      by_cases him : i = m
      · subst him
        rw [getD_set_eq_float3 _ _ _ _ (by omega), hge i (le_refl i)]
      · rw [getD_set_ne_float3 _ _ _ _ _ (fun h => him h.symm)]
        exact hlt i (by omega)
    · intro i hi
      rw [getD_set_ne_float3 _ _ _ _ _ (by omega)]
      exact hge i (by omega)

/-- The loop body for a point with `z > 0`, with the value of the literal `1.6666666f`. -/
theorem Scene3D_drawShape_project_point_pos (scale centerx centery : F32) (p : float3)
    (hz : flt (F32.fin 0) p.z = true) :
    Scene3D_drawShape_project_point scale centerx centery p
      = { x := fmul scale (fadd (fdiv p.x p.z) (fmul (F32.fin (13981013 / 8388608)) centerx)),
          y := fmul scale (fadd (fdiv p.y p.z) centery),
          z := p.z } := by
  unfold Scene3D_drawShape_project_point
  rw [if_pos hz, rn_lit_16666666]

/-- The loop body at the point `(0, 0, 1)` with `scale = 240`, `centerx = centery = 1/2`. -/
theorem Scene3D_drawShape_project_point_axis :
    Scene3D_drawShape_project_point (F32.fin 240) (F32.fin (1 / 2)) (F32.fin (1 / 2))
      ⟨F32.fin 0, F32.fin 0, F32.fin 1⟩ = ⟨F32.fin 200, F32.fin 120, F32.fin 1⟩ := by
  have e1 : fdiv (F32.fin 0) (F32.fin 1) = F32.fin 0 :=
    fdiv_fin (by norm_num) (rn_at_zero (by norm_num))
  have e2 : fmul (F32.fin (13981013 / 8388608)) (F32.fin (1 / 2)) = F32.fin (13981013 / 16777216) :=
    fmul_fin (rn_near (13981013 / 16777216) (-1) 13981013 (13981013 / 16777216) (by norm_num))
  have e3 : fadd (F32.fin 0) (F32.fin (13981013 / 16777216)) = F32.fin (13981013 / 16777216) :=
    fadd_fin (rn_near (13981013 / 16777216) (-1) 13981013 (13981013 / 16777216) (by norm_num))
  have e4 : fmul (F32.fin 240) (F32.fin (13981013 / 16777216)) = F32.fin 200 :=
    fmul_fin (rn_near (209715195 / 1048576) 7 13107200 200 (by norm_num))
  have e5 : fadd (F32.fin 0) (F32.fin (1 / 2)) = F32.fin (1 / 2) :=
    fadd_fin (rn_near (1 / 2) (-1) 8388608 (1 / 2) (by norm_num))
  have e6 : fmul (F32.fin 240) (F32.fin (1 / 2)) = F32.fin 120 :=
    fmul_fin (rn_near 120 6 15728640 120 (by norm_num))
  rw [Scene3D_drawShape_project_point_pos _ _ _ _ (by norm_num [flt])]
  dsimp only
  simp only [e1, e2, e3, e4, e5, e6]

/-- The loop body at the point `(3, -4, 2)` with `scale = 240`, `centerx = centery = 1/2`. -/
theorem Scene3D_drawShape_project_point_off_axis :
    Scene3D_drawShape_project_point (F32.fin 240) (F32.fin (1 / 2)) (F32.fin (1 / 2))
      ⟨F32.fin 3, F32.fin (-4), F32.fin 2⟩ = ⟨F32.fin 560, F32.fin (-360), F32.fin 2⟩ := by
  have e1 : fdiv (F32.fin 3) (F32.fin 2) = F32.fin (3 / 2) :=
    fdiv_fin (by norm_num) (rn_near (3 / 2) 0 12582912 (3 / 2) (by norm_num))
  have e2 : fmul (F32.fin (13981013 / 8388608)) (F32.fin (1 / 2)) = F32.fin (13981013 / 16777216) :=
    fmul_fin (rn_near (13981013 / 16777216) (-1) 13981013 (13981013 / 16777216) (by norm_num))
  have e3 : fadd (F32.fin (3 / 2)) (F32.fin (13981013 / 16777216)) = F32.fin (9786709 / 4194304) :=
    fadd_fin (rn_near (39146837 / 16777216) 1 9786709 (9786709 / 4194304) (by norm_num))
  have e4 : fmul (F32.fin 240) (F32.fin (9786709 / 4194304)) = F32.fin 560 :=
    fmul_fin (rn_near (146800635 / 262144) 9 9175040 560 (by norm_num))
  have e5 : fdiv (F32.fin (-4)) (F32.fin 2) = F32.fin (-2) :=
    fdiv_fin (by norm_num) (rn_near_neg 2 1 8388608 (-2) (by norm_num))
  have e6 : fadd (F32.fin (-2)) (F32.fin (1 / 2)) = F32.fin (-3 / 2) :=
    fadd_fin (rn_near_neg (3 / 2) 0 12582912 (-3 / 2) (by norm_num))
  have e7 : fmul (F32.fin 240) (F32.fin (-3 / 2)) = F32.fin (-360) :=
    fmul_fin (rn_near_neg 360 8 11796480 (-360) (by norm_num))
  rw [Scene3D_drawShape_project_point_pos _ _ _ _ (by norm_num [flt])]
  dsimp only
  simp only [e1, e2, e3, e4, e5, e6, e7]


/-- C16, counterexample to the factor 4/3: for the point `(0, 0, 1)` with `scale = 240` and
`centerx = centery = 1/2` the code stores `x = 240 * (0/1 + 1.6666666f * 0.5f)`, which is the
float 200, while `scale * (x/z + (4/3) * centerX)` is 160. -/
theorem Scene3D_drawShape_project_not_four_thirds :
    Scene3D_drawShape_project (F32.fin 240) (F32.fin (1 / 2)) (F32.fin (1 / 2))
      [⟨F32.fin 0, F32.fin 0, F32.fin 1⟩] 1 = [⟨F32.fin 200, F32.fin 120, F32.fin 1⟩] ∧
    project_x_four_thirds 240 (1 / 2) 0 1 = 160 ∧
    ((Scene3D_drawShape_project (F32.fin 240) (F32.fin (1 / 2)) (F32.fin (1 / 2))
      [⟨F32.fin 0, F32.fin 0, F32.fin 1⟩] 1).getD 0 ⟨F32.fin 0, F32.fin 0, F32.fin 0⟩).x
      ≠ F32.fin (project_x_four_thirds 240 (1 / 2) 0 1) := by
  have h1 : Scene3D_drawShape_project (F32.fin 240) (F32.fin (1 / 2)) (F32.fin (1 / 2))
      [⟨F32.fin 0, F32.fin 0, F32.fin 1⟩] 1 = [⟨F32.fin 200, F32.fin 120, F32.fin 1⟩] := by
    show [Scene3D_drawShape_project_point (F32.fin 240) (F32.fin (1 / 2)) (F32.fin (1 / 2))
      ⟨F32.fin 0, F32.fin 0, F32.fin 1⟩] = _
    rw [Scene3D_drawShape_project_point_axis]
  have h2 : project_x_four_thirds 240 (1 / 2) 0 1 = 160 := by
    norm_num [project_x_four_thirds]
  refine ⟨h1, h2, ?_⟩
  rw [h1, h2]
  show F32.fin 200 ≠ F32.fin 160
  intro h
  have := F32.fin.inj h
  norm_num at this

/-- C16, amended: for every point `(x, y, z)` of the first `nPoints` transformed points with
`z > 0`, the projection loop of `Scene3D_drawShape` replaces `x` by
`scale * (x/z + 1.6666666f * centerX)` and `y` by `scale * (y/z + centerY)`, each operation
rounded to `float`, and leaves `z` unchanged; the horizontal factor is the literal
`1.6666666f`, the float `13981013/8388608` (about 5/3), not 4/3. -/
theorem Scene3D_drawShape_project_spec (scale centerx centery : F32)
    (tmp_points : List float3) (nPoints i : Nat) (hcap : nPoints ≤ tmp_points.length)
    (hi : i < nPoints)
    (hz : flt (F32.fin 0) (tmp_points.getD i ⟨F32.fin 0, F32.fin 0, F32.fin 0⟩).z = true) :
    (Scene3D_drawShape_project scale centerx centery tmp_points nPoints).getD i
        ⟨F32.fin 0, F32.fin 0, F32.fin 0⟩
      = { x := fmul scale
            (fadd (fdiv (tmp_points.getD i ⟨F32.fin 0, F32.fin 0, F32.fin 0⟩).x
                (tmp_points.getD i ⟨F32.fin 0, F32.fin 0, F32.fin 0⟩).z)
              (fmul (F32.fin (13981013 / 8388608)) centerx)),
          y := fmul scale
            (fadd (fdiv (tmp_points.getD i ⟨F32.fin 0, F32.fin 0, F32.fin 0⟩).y
                (tmp_points.getD i ⟨F32.fin 0, F32.fin 0, F32.fin 0⟩).z) centery),
          z := (tmp_points.getD i ⟨F32.fin 0, F32.fin 0, F32.fin 0⟩).z } := by
  rw [(Scene3D_drawShape_project_getD scale centerx centery tmp_points nPoints hcap).2.1 i hi]
  exact Scene3D_drawShape_project_point_pos scale centerx centery _ hz

/-- Witness of C16: the point `(3, -4, 2)` as second of two points, `scale = 240`,
`centerx = centery = 1/2`, is stored as `(560, -360, 2)`. -/
theorem Scene3D_drawShape_project_spec_witness :
    (Scene3D_drawShape_project (F32.fin 240) (F32.fin (1 / 2)) (F32.fin (1 / 2))
      [⟨F32.fin 0, F32.fin 0, F32.fin 1⟩, ⟨F32.fin 3, F32.fin (-4), F32.fin 2⟩] 2).getD 1
        ⟨F32.fin 0, F32.fin 0, F32.fin 0⟩
      = ⟨F32.fin 560, F32.fin (-360), F32.fin 2⟩ := by
  rw [Scene3D_drawShape_project_spec (F32.fin 240) (F32.fin (1 / 2)) (F32.fin (1 / 2))
    [⟨F32.fin 0, F32.fin 0, F32.fin 1⟩, ⟨F32.fin 3, F32.fin (-4), F32.fin 2⟩] 2 1
    (le_refl _) (by decide) (by norm_num [flt]),
    ← Scene3D_drawShape_project_point_pos (F32.fin 240) (F32.fin (1 / 2)) (F32.fin (1 / 2))
      _ (by norm_num [flt])]
  exact Scene3D_drawShape_project_point_off_axis
/-! ## Scratch-buffer capacities -/

theorem Scene3D_drawShape_caps_eq (scene : Scene3D) (nPoints nFaces : Int) :
    (Scene3D_drawShape_caps scene nPoints nFaces).tmp_points_cap
      = max scene.tmp_points_cap nPoints ∧
    (Scene3D_drawShape_caps scene nPoints nFaces).tmp_faces_cap
      = max scene.tmp_faces_cap nFaces := by
  unfold Scene3D_drawShape_caps
  by_cases hp : scene.tmp_points_cap < nPoints <;>
    by_cases hf : scene.tmp_faces_cap < nFaces
  · simp only [hp, hf, if_true]
    constructor <;> omega
  · simp only [hp, hf, if_true, if_false]
    constructor <;> omega
  · simp only [hp, hf, if_true, if_false]
    constructor <;> omega
  · simp only [hp, hf, if_false]
    constructor <;> omega

theorem drawShapes_append (scene : Scene3D) (pre post : List (Int × Int)) :
    drawShapes scene (pre ++ post) = drawShapes (drawShapes scene pre) post := by
  unfold drawShapes
  rw [List.foldl_append]

theorem drawShapes_mono (scene : Scene3D) (shapes : List (Int × Int)) :
    scene.tmp_points_cap ≤ (drawShapes scene shapes).tmp_points_cap ∧
    scene.tmp_faces_cap ≤ (drawShapes scene shapes).tmp_faces_cap := by
  induction shapes generalizing scene with
  | nil => exact ⟨le_refl _, le_refl _⟩
  | cons sh rest ih =>
    have h := Scene3D_drawShape_caps_eq scene sh.1 sh.2
    have h2 := ih (Scene3D_drawShape_caps scene sh.1 sh.2)
    have e : drawShapes scene (sh :: rest)
        = drawShapes (Scene3D_drawShape_caps scene sh.1 sh.2) rest := rfl
    rw [e]
    omega

/-- C17: for every scene state and every shape, after `Scene3D_drawShape` the capacities are
`tmp_points_cap = max(old tmp_points_cap, nPoints)` and
`tmp_faces_cap = max(old tmp_faces_cap, nFaces)`; hence over any sequence of draws no capacity
ever decreases (the capacities after a longer sequence are at least those after any initial
part of it), and after each draw each capacity is at least the size of the shape just drawn. -/
theorem Scene3D_drawShape_caps_monotone (scene : Scene3D) :
    (∀ nPoints nFaces : Int,
      (Scene3D_drawShape_caps scene nPoints nFaces).tmp_points_cap
        = max scene.tmp_points_cap nPoints ∧
      (Scene3D_drawShape_caps scene nPoints nFaces).tmp_faces_cap
        = max scene.tmp_faces_cap nFaces) ∧
    (∀ pre post : List (Int × Int),
      (drawShapes scene pre).tmp_points_cap ≤ (drawShapes scene (pre ++ post)).tmp_points_cap ∧
      (drawShapes scene pre).tmp_faces_cap ≤ (drawShapes scene (pre ++ post)).tmp_faces_cap) ∧
    (∀ (pre : List (Int × Int)) (nPoints nFaces : Int),
      nPoints ≤ (drawShapes scene (pre ++ [(nPoints, nFaces)])).tmp_points_cap ∧
      nFaces ≤ (drawShapes scene (pre ++ [(nPoints, nFaces)])).tmp_faces_cap) ∧
    (Scene3D_init scene).tmp_points_cap = 0 ∧ (Scene3D_init scene).tmp_faces_cap = 0 := by
  refine ⟨fun nP nF => Scene3D_drawShape_caps_eq scene nP nF, fun pre post => ?_,
    fun pre nP nF => ?_, rfl, rfl⟩
  · rw [drawShapes_append]
    exact drawShapes_mono _ post
  · rw [drawShapes_append]
    have h := Scene3D_drawShape_caps_eq (drawShapes scene pre) nP nF
    have e : drawShapes (drawShapes scene pre) [(nP, nF)]
        = Scene3D_drawShape_caps (drawShapes scene pre) nP nF := rfl
    rw [e]
    omega

/-! ## The pattern table -/

set_option maxRecDepth 100000 in
/-- C20: the pattern table has exactly 33 entries of 8 bytes; entry 0 has all 64 bits clear,
entry 32 has all 64 bits set, and for every `k` in `0..31` the set bits of entry `k` are a
strict subset of the set bits of entry `k+1`; entry `k` has exactly `2k` set bits. -/
theorem patterns_ramp :
    patterns.length = 33 ∧
    (∀ row ∈ patterns, row.length = 8 ∧ ∀ b ∈ row, b < 256) ∧
    patterns.getD 0 [] = [0, 0, 0, 0, 0, 0, 0, 0] ∧
    patterns.getD 32 [] = [0xFF, 0xFF, 0xFF, 0xFF, 0xFF, 0xFF, 0xFF, 0xFF] ∧
    (∀ k, k < 32 →
      (∀ r, r < 8 → ∀ c, c < 8 → patternBit (patterns.getD k []) r c = true →
        patternBit (patterns.getD (k + 1) []) r c = true) ∧
      (∃ r, r < 8 ∧ ∃ c, c < 8 ∧ patternBit (patterns.getD k []) r c = false ∧
        patternBit (patterns.getD (k + 1) []) r c = true)) ∧
    (∀ k, k < 33 → inkCount (patterns.getD k []) = 2 * k) := by
  refine ⟨rfl, by decide, rfl, rfl, by decide, by decide⟩

/-- Witness of C20: entries 5 and 6 of the table. -/
theorem patterns_ramp_witness :
    inkCount (patterns.getD 5 []) = 2 * 5 ∧
    (∃ r, r < 8 ∧ ∃ c, c < 8 ∧ patternBit (patterns.getD 5 []) r c = false ∧
        patternBit (patterns.getD (5 + 1) []) r c = true) :=
  ⟨patterns_ramp.2.2.2.2.2 5 (by decide), (patterns_ramp.2.2.2.2.1 5 (by decide)).2⟩


/-! ## Style flags of `drawShapeFace` -/

theorem drawShapeFace_edge_vi_eq (vi : Int) : drawShapeFace_edge_vi vi = max (vi - 16) 0 := by
  unfold drawShapeFace_edge_vi
  dsimp only
  split_ifs <;> omega

/-- The dot product of the normal `(0, 0, 1)` and the light `(0, 0, 317211/2097152)`. -/
theorem v3_dot_f32_fourteen :
    v3_dot_f32 ⟨F32.fin 0, F32.fin 0, F32.fin 1⟩ ⟨F32.fin 0, F32.fin 0, F32.fin (317211 / 2097152)⟩
        = F32.fin (317211 / 2097152) := by
  have e1 : fmul (F32.fin 0) (F32.fin 0) = F32.fin 0 :=
    fmul_fin (rn_at_zero (by norm_num))
  have e2 : fadd (F32.fin 0) (F32.fin 0) = F32.fin 0 :=
    fadd_fin (rn_at_zero (by norm_num))
  have e3 : fmul (F32.fin 1) (F32.fin (317211 / 2097152)) = F32.fin (317211 / 2097152) :=
    fmul_fin (rn_near (317211 / 2097152) (-3) 10150752 (317211 / 2097152) (by norm_num))
  have e4 : fadd (F32.fin 0) (F32.fin (317211 / 2097152)) = F32.fin (317211 / 2097152) :=
    fadd_fin (rn_near (317211 / 2097152) (-3) 10150752 (317211 / 2097152) (by norm_num))
  unfold v3_dot_f32
  dsimp only
  simp only [e1, e2, e3, e4]

/-- The dot product of the normal `(0, 0, 1)` and the light `(0, 0, -1530747/16777216)`. -/
theorem v3_dot_f32_eighteen :
    v3_dot_f32 ⟨F32.fin 0, F32.fin 0, F32.fin 1⟩
        ⟨F32.fin 0, F32.fin 0, F32.fin (-1530747 / 16777216)⟩ = F32.fin (-1530747 / 16777216) := by
  have e1 : fmul (F32.fin 0) (F32.fin 0) = F32.fin 0 :=
    fmul_fin (rn_at_zero (by norm_num))
  have e2 : fadd (F32.fin 0) (F32.fin 0) = F32.fin 0 :=
    fadd_fin (rn_at_zero (by norm_num))
  have e3 : fmul (F32.fin 1) (F32.fin (-1530747 / 16777216)) = F32.fin (-1530747 / 16777216) :=
    fmul_fin (rn_near_neg (1530747 / 16777216) (-4) 12245976 (-1530747 / 16777216) (by norm_num))
  have e4 : fadd (F32.fin 0) (F32.fin (-1530747 / 16777216)) = F32.fin (-1530747 / 16777216) :=
    fadd_fin (rn_near_neg (1530747 / 16777216) (-4) 12245976 (-1530747 / 16777216) (by norm_num))
  unfold v3_dot_f32
  dsimp only
  simp only [e1, e2, e3, e4]

/-- The index at `dot = 317211/2097152` is 14, whatever `out_of_range` is. -/
theorem drawShapeFace_vi_fourteen (out_of_range : F32 → Int) :
    drawShapeFace_vi out_of_range (F32.fin (317211 / 2097152)) = 14 := by
  rw [drawShapeFace_vi_of_fin out_of_range drawShapeFace_vf_at_fourteen
    (by rw [drawShapeFace_vf_at_fourteen]; norm_num [intDefined])]
  have hf : ⌊(14 : ℚ)⌋ = 14 := by
    rw [Int.floor_eq_iff]
    norm_num
  rw [hf]
  rfl

/-- The index at `dot = -1530747/16777216` is 18, whatever `out_of_range` is. -/
theorem drawShapeFace_vi_eighteen (out_of_range : F32 → Int) :
    drawShapeFace_vi out_of_range (F32.fin (-1530747 / 16777216)) = 18 := by
  rw [drawShapeFace_vi_of_fin out_of_range drawShapeFace_vf_at_eighteen
    (by rw [drawShapeFace_vf_at_eighteen]; norm_num [intDefined])]
  have hf : ⌊(18 : ℚ)⌋ = 18 := by
    rw [Int.floor_eq_iff]
    norm_num
  rw [hf]
  rfl

/-- C18: for every face that passes the depth, bounds and winding tests of the code (no
vertex with `z <= 0`, not all vertices off one side of the screen, computed signed area not
`>= 0`), and whatever an undefined conversion yields, `drawShapeFace` calls `fillTriangle`
exactly once, with the three points and `patterns[vi]`, if the filled flag is set and not at
all otherwise, and calls `drawLine` exactly three times if the wireframe flag is set and not at
all otherwise; with both flags set the fill precedes the three lines, and with neither set no
primitive is called. -/
theorem drawShapeFace_style_flags (out_of_range : F32 → Int) (v3_dot : float3 → float3 → F32)
    (kRenderFilled kRenderWireframe : Nat) (light p1 p2 p3 normal : float3) (style : Nat)
    (hz : fle p1.z (F32.fin 0) = false ∧ fle p2.z (F32.fin 0) = false ∧
      fle p3.z (F32.fin 0) = false)
    (hb : ¬ offScreen p1 p2 p3)
    (hd : fle (F32.fin 0) (drawShapeFace_d p1 p2 p3) = false) :
    ((drawShapeFace out_of_range v3_dot kRenderFilled kRenderWireframe light p1 p2 p3 normal
        style).countP DrawCall.isFill = if style &&& kRenderFilled ≠ 0 then 1 else 0) ∧
    (style &&& kRenderFilled ≠ 0 →
      (drawShapeFace out_of_range v3_dot kRenderFilled kRenderWireframe light p1 p2 p3 normal
        style).filter DrawCall.isFill = [DrawCall.fillTriangle p1 p2 p3
          (patterns.getD (drawShapeFace_vi out_of_range (v3_dot normal light)).toNat [])]) ∧
    ((drawShapeFace out_of_range v3_dot kRenderFilled kRenderWireframe light p1 p2 p3 normal
        style).countP DrawCall.isLine = if style &&& kRenderWireframe ≠ 0 then 3 else 0) ∧
    (style &&& kRenderFilled ≠ 0 → style &&& kRenderWireframe ≠ 0 →
      drawShapeFace out_of_range v3_dot kRenderFilled kRenderWireframe light p1 p2 p3 normal
          style
        = [DrawCall.fillTriangle p1 p2 p3
            (patterns.getD (drawShapeFace_vi out_of_range (v3_dot normal light)).toNat []),
          DrawCall.drawLine p1 p2 1 (patterns.getD (drawShapeFace_edge_vi
            (drawShapeFace_vi out_of_range (v3_dot normal light))).toNat []),
          DrawCall.drawLine p2 p3 1 (patterns.getD (drawShapeFace_edge_vi
            (drawShapeFace_vi out_of_range (v3_dot normal light))).toNat []),
          DrawCall.drawLine p3 p1 1 (patterns.getD (drawShapeFace_edge_vi
            (drawShapeFace_vi out_of_range (v3_dot normal light))).toNat [])]) ∧
    (style &&& kRenderFilled = 0 → style &&& kRenderWireframe = 0 →
      drawShapeFace out_of_range v3_dot kRenderFilled kRenderWireframe light p1 p2 p3 normal
        style = []) := by
  rw [drawShapeFace_visible out_of_range v3_dot kRenderFilled kRenderWireframe light p1 p2 p3
    normal style hz hb hd]
  by_cases hF : style &&& kRenderFilled ≠ 0 <;> by_cases hW : style &&& kRenderWireframe ≠ 0
  · rw [if_pos hF, if_pos hW, if_pos hF, if_pos hW]
    refine ⟨rfl, fun _ => rfl, rfl, fun _ _ => rfl, fun h => absurd h hF⟩
  · rw [if_pos hF, if_neg hW, if_pos hF, if_neg hW]
    refine ⟨rfl, fun _ => rfl, rfl, fun _ h => absurd h hW, fun h => absurd h hF⟩
  · rw [if_neg hF, if_pos hW, if_neg hF, if_pos hW]
    refine ⟨rfl, fun h => absurd h hF, rfl, fun h => absurd h hF,
      fun _ h => absurd h hW⟩
  · rw [if_neg hF, if_neg hW, if_neg hF, if_neg hW]
    refine ⟨rfl, fun h => absurd h hF, rfl, fun h => absurd h hF, fun _ _ => rfl⟩

/-- Witness of C18: the on-screen triangle (10,10), (10,20), (20,10) at depth 1 with the
lighting dot product `317211/2097152` and both flags set (filled = 1, wireframe = 2,
style = 3): the fill with `patterns[14]`, then the three lines with `patterns[0]`. -/
theorem drawShapeFace_style_flags_witness :
    drawShapeFace (fun _ => -2 ^ 31) v3_dot_f32 1 2
        ⟨F32.fin 0, F32.fin 0, F32.fin (317211 / 2097152)⟩
      ⟨F32.fin 10, F32.fin 10, F32.fin 1⟩ ⟨F32.fin 10, F32.fin 20, F32.fin 1⟩
      ⟨F32.fin 20, F32.fin 10, F32.fin 1⟩ ⟨F32.fin 0, F32.fin 0, F32.fin 1⟩ 3
      = [DrawCall.fillTriangle ⟨F32.fin 10, F32.fin 10, F32.fin 1⟩
          ⟨F32.fin 10, F32.fin 20, F32.fin 1⟩
          ⟨F32.fin 20, F32.fin 10, F32.fin 1⟩ (patterns.getD 14 []),
        DrawCall.drawLine ⟨F32.fin 10, F32.fin 10, F32.fin 1⟩ ⟨F32.fin 10, F32.fin 20, F32.fin 1⟩ 1
          (patterns.getD 0 []),
        DrawCall.drawLine ⟨F32.fin 10, F32.fin 20, F32.fin 1⟩ ⟨F32.fin 20, F32.fin 10, F32.fin 1⟩ 1
          (patterns.getD 0 []),
        DrawCall.drawLine ⟨F32.fin 20, F32.fin 10, F32.fin 1⟩ ⟨F32.fin 10, F32.fin 10, F32.fin 1⟩ 1
          (patterns.getD 0 [])] := by
  rw [(drawShapeFace_style_flags (fun _ => -2 ^ 31) v3_dot_f32 1 2
      ⟨F32.fin 0, F32.fin 0, F32.fin (317211 / 2097152)⟩
    ⟨F32.fin 10, F32.fin 10, F32.fin 1⟩ ⟨F32.fin 10, F32.fin 20, F32.fin 1⟩
    ⟨F32.fin 20, F32.fin 10, F32.fin 1⟩ ⟨F32.fin 0, F32.fin 0, F32.fin 1⟩ 3
    ⟨by norm_num [fle], by norm_num [fle], by norm_num [fle]⟩
    (by norm_num [offScreen, flt, fle, WIDTH, HEIGHT])
    (by rw [drawShapeFace_d_front]; norm_num [fle])).2.2.2.1 (by decide) (by decide),
    v3_dot_f32_fourteen, drawShapeFace_vi_fourteen]
  rfl

/-- C19: when the wireframe flag is set, `drawShapeFace` strokes, for a face that passes the
depth, bounds and winding tests of the code, the three edges `(p1,p2)`, `(p2,p3)`, `(p3,p1)`,
in this order, with width 1 and the pattern at index `max(vi - 16, 0)`, where `vi` is the
clamped fill index; this edge index lies in `[0, 16]`, for every value of the lighting dot
product, whatever an undefined conversion yields. -/
theorem drawShapeFace_wireframe_edges (out_of_range : F32 → Int)
    (v3_dot : float3 → float3 → F32) (kRenderFilled kRenderWireframe : Nat)
    (light p1 p2 p3 normal : float3) (style : Nat)
    (hz : fle p1.z (F32.fin 0) = false ∧ fle p2.z (F32.fin 0) = false ∧
      fle p3.z (F32.fin 0) = false)
    (hb : ¬ offScreen p1 p2 p3)
    (hd : fle (F32.fin 0) (drawShapeFace_d p1 p2 p3) = false)
    (hW : style &&& kRenderWireframe ≠ 0) :
    (drawShapeFace out_of_range v3_dot kRenderFilled kRenderWireframe light p1 p2 p3 normal
        style).filter DrawCall.isLine
      = [DrawCall.drawLine p1 p2 1 (patterns.getD
          (max (drawShapeFace_vi out_of_range (v3_dot normal light) - 16) 0).toNat []),
        DrawCall.drawLine p2 p3 1 (patterns.getD
          (max (drawShapeFace_vi out_of_range (v3_dot normal light) - 16) 0).toNat []),
        DrawCall.drawLine p3 p1 1 (patterns.getD
          (max (drawShapeFace_vi out_of_range (v3_dot normal light) - 16) 0).toNat [])] ∧
    (∀ dot : F32,
      drawShapeFace_edge_vi (drawShapeFace_vi out_of_range dot)
        = max (drawShapeFace_vi out_of_range dot - 16) 0 ∧
      0 ≤ max (drawShapeFace_vi out_of_range dot - 16) 0 ∧
      max (drawShapeFace_vi out_of_range dot - 16) 0 ≤ 16) := by
  constructor
  · rw [drawShapeFace_visible out_of_range v3_dot kRenderFilled kRenderWireframe light p1 p2 p3
      normal style hz hb hd, if_pos hW, drawShapeFace_edge_vi_eq]
    by_cases hF : style &&& kRenderFilled ≠ 0
    · rw [if_pos hF]
      rfl
    · rw [if_neg hF]
      rfl
  · intro dot
    have h := drawShapeFace_vi_range out_of_range dot
    refine ⟨drawShapeFace_edge_vi_eq _, ?_, ?_⟩ <;> omega

/-- Witness of C19: the same triangle with only the wireframe flag set and the lighting dot
product `-1530747/16777216` (bit pattern `0xBDBADBD8`): the fill index is 18 and the three
edges are stroked with `patterns[2]`. -/
theorem drawShapeFace_wireframe_edges_witness :
    (drawShapeFace (fun _ => -2 ^ 31) v3_dot_f32 1 2
        ⟨F32.fin 0, F32.fin 0, F32.fin (-1530747 / 16777216)⟩
      ⟨F32.fin 10, F32.fin 10, F32.fin 1⟩ ⟨F32.fin 10, F32.fin 20, F32.fin 1⟩
      ⟨F32.fin 20, F32.fin 10, F32.fin 1⟩
          ⟨F32.fin 0, F32.fin 0, F32.fin 1⟩ 2).filter DrawCall.isLine
      = [DrawCall.drawLine ⟨F32.fin 10, F32.fin 10, F32.fin 1⟩ ⟨F32.fin 10, F32.fin 20, F32.fin 1⟩ 1
          (patterns.getD 2 []),
        DrawCall.drawLine ⟨F32.fin 10, F32.fin 20, F32.fin 1⟩ ⟨F32.fin 20, F32.fin 10, F32.fin 1⟩ 1
          (patterns.getD 2 []),
        DrawCall.drawLine ⟨F32.fin 20, F32.fin 10, F32.fin 1⟩ ⟨F32.fin 10, F32.fin 10, F32.fin 1⟩ 1
          (patterns.getD 2 [])] := by
  rw [(drawShapeFace_wireframe_edges (fun _ => -2 ^ 31) v3_dot_f32 1 2
      ⟨F32.fin 0, F32.fin 0, F32.fin (-1530747 / 16777216)⟩
    ⟨F32.fin 10, F32.fin 10, F32.fin 1⟩ ⟨F32.fin 10, F32.fin 20, F32.fin 1⟩
    ⟨F32.fin 20, F32.fin 10, F32.fin 1⟩ ⟨F32.fin 0, F32.fin 0, F32.fin 1⟩ 2
    ⟨by norm_num [fle], by norm_num [fle], by norm_num [fle]⟩
    (by norm_num [offScreen, flt, fle, WIDTH, HEIGHT])
    (by rw [drawShapeFace_d_front]; norm_num [fle]) (by decide)).1,
    v3_dot_f32_eighteen, drawShapeFace_vi_eighteen]
  rfl

/-! ## The draw loop visits every face once -/

/-- C28: for every shape with `nFaces <= 256`, the face indices recovered by the draw loop of
`Scene3D_drawShape` (the low 8 bits of each entry of the walked buffer) are a permutation of
`0..nFaces-1`: every recovered index is below `nFaces` and every face is recovered exactly
once, so `drawShapeFace` is called exactly once per face. -/
theorem Scene3D_drawShape_faces_once (zbits : Nat → Nat) (nFaces : Nat)
    (tmp_order_table1 tmp_order_table2 values_in_out values_temp : List Nat)
    (h256 : nFaces ≤ 256)
    (h1 : nFaces ≤ tmp_order_table1.length) (h2 : nFaces ≤ tmp_order_table2.length) :
    (Scene3D_drawShape_faces zbits nFaces tmp_order_table1 tmp_order_table2 values_in_out
      values_temp).Perm (List.range nFaces) ∧
    (∀ fi ∈ Scene3D_drawShape_faces zbits nFaces tmp_order_table1 tmp_order_table2
      values_in_out values_temp, fi < nFaces) ∧
    (∀ f, f < nFaces →
      (Scene3D_drawShape_faces zbits nFaces tmp_order_table1 tmp_order_table2 values_in_out
        values_temp).count f = 1) := by
  have hp := Scene3D_drawShape_faces_perm zbits nFaces tmp_order_table1 tmp_order_table2
    values_in_out values_temp h1 h2 (by omega)
  have hm : (List.range nFaces).map (fun i => i % 256) = List.range nFaces := by
    conv_rhs => rw [← List.map_id (List.range nFaces)]
    apply List.map_congr_left
    intro i hi
    have := List.mem_range.mp hi
    show i % 256 = i
    omega
  rw [hm] at hp
  refine ⟨hp, ?_, ?_⟩
  · intro fi hfi
    exact List.mem_range.mp (hp.mem_iff.mp hfi)
  · intro f hf
    rw [hp.count_eq]
    exact List.count_eq_one_of_mem (List.nodup_range nFaces) (List.mem_range.mpr hf)

/-- Witness of C28: the two-face shape with depths -3.0 and -12.0. -/
theorem Scene3D_drawShape_faces_once_witness :
    (2 : Nat) ≤ 256 ∧
    (Scene3D_drawShape_faces (fun i => if i = 0 then 0xC0400000 else 0xC1400000) 2
      [0, 0] [0, 0] [0, 0] [0, 0]).Perm (List.range 2) :=
  ⟨by decide, (Scene3D_drawShape_faces_once (fun i => if i = 0 then 0xC0400000 else 0xC1400000)
    2 [0, 0] [0, 0] [0, 0] [0, 0] (by decide) (by decide) (by decide)).1⟩


/-! ## Camera construction -/

/-- What `Scene3D_setCamera` stores and divides by, stage by stage. -/
theorem Scene3D_setCamera_eq (H : CameraHelpers) (origin lookAt : float3) (scale : F32)
    (up : float3) :
    Scene3D_setCamera H origin lookAt scale up
      = { scale := fmul (F32.fin 240) scale,
          camera :=
            if feq up.x (F32.fin 0) = false ∨ feq up.y (F32.fin 0) = false then
              H.mtx_multiply (prerollTransform H origin lookAt)
                (H.mtx_make (fdiv up.y (upLength H up)) (fdiv up.x (upLength H up)) (F32.fin 0)
                  (fdiv (fneg up.x) (upLength H up)) (fdiv up.y (upLength H up)) (F32.fin 0)
                  (F32.fin 0) (F32.fin 0) (F32.fin 1))
            else prerollTransform H origin lookAt,
          divisors :=
            [lookLength H origin lookAt, lookLength H origin lookAt, lookLength H origin lookAt]
            ++ (if feq (lookDir H origin lookAt).x (F32.fin 0) = false ∨
                  feq (lookDir H origin lookAt).z (F32.fin 0) = false then
                [planarLength H origin lookAt, planarLength H origin lookAt,
                  planarLength H origin lookAt, planarLength H origin lookAt]
              else [])
            ++ (if feq up.x (F32.fin 0) = false ∨ feq up.y (F32.fin 0) = false then
                [upLength H up, upLength H up, upLength H up, upLength H up]
              else []) } := by
  unfold Scene3D_setCamera prerollTransform planarLength upLength
  by_cases hup : feq up.x (F32.fin 0) = false ∨ feq up.y (F32.fin 0) = false
  · by_cases hd : feq (lookDir H origin lookAt).x (F32.fin 0) = false ∨
        feq (lookDir H origin lookAt).z (F32.fin 0) = false
    · have hd2 := hd
      unfold lookDir lookLength lookDiff at hd2
      dsimp only at hd2 ⊢
      rw [if_pos hd, if_pos hd, if_pos hup, if_pos hup, if_pos hup, if_pos hd2]
      rfl
    · have hd2 := hd
      unfold lookDir lookLength lookDiff at hd2
      dsimp only at hd2 ⊢
      rw [if_neg hd, if_neg hd, if_pos hup, if_pos hup, if_pos hup, if_neg hd2]
      rfl
  · by_cases hd : feq (lookDir H origin lookAt).x (F32.fin 0) = false ∨
        feq (lookDir H origin lookAt).z (F32.fin 0) = false
    · have hd2 := hd
      unfold lookDir lookLength lookDiff at hd2
      dsimp only at hd2 ⊢
      rw [if_pos hd, if_pos hd, if_neg hup, if_neg hup, if_neg hup, if_pos hd2]
      rfl
    · have hd2 := hd
      unfold lookDir lookLength lookDiff at hd2
      dsimp only at hd2 ⊢
      rw [if_neg hd, if_neg hd, if_neg hup, if_neg hup, if_neg hup, if_neg hd2]
      rfl

theorem fsub_self_fin (a : ℚ) : fsub (F32.fin a) (F32.fin a) = F32.fin 0 := by
  show rn (a + -a) = F32.fin 0
  rw [add_neg_cancel]
  exact rn_zero

/-- With a look-at point equal to the origin the look direction is the zero vector. -/
theorem lookDiff_self (a b c : ℚ) :
    lookDiff ⟨F32.fin a, F32.fin b, F32.fin c⟩ ⟨F32.fin a, F32.fin b, F32.fin c⟩
      = ⟨F32.fin 0, F32.fin 0, F32.fin 0⟩ := by
  unfold lookDiff
  dsimp only
  rw [fsub_self_fin, fsub_self_fin, fsub_self_fin]

/-- The square of `2^-100` underflows to zero. -/
theorem fmul_underflow :
    fmul (F32.fin (1 / 2 ^ 100)) (F32.fin (1 / 2 ^ 100)) = F32.fin 0 :=
  fmul_fin (rn_tiny (1 / 2 ^ 200) 0 0 (by norm_num))

theorem fmul_zero_zero : fmul (F32.fin 0) (F32.fin 0) = F32.fin 0 :=
  fmul_fin (rn_at_zero (by norm_num))

theorem fadd_zero_zero : fadd (F32.fin 0) (F32.fin 0) = F32.fin 0 :=
  fadd_fin (rn_at_zero (by norm_num))

/-- The helpers of `floatHelpers` on the zero vector. -/
theorem floatHelpers_zero :
    floatHelpers.v3_lensq ⟨F32.fin 0, F32.fin 0, F32.fin 0⟩ = F32.fin 0 ∧
    floatHelpers.sqrtf (F32.fin 0) = F32.fin 0 := by
  constructor
  · show fadd (fadd (fmul (F32.fin 0) (F32.fin 0)) (fmul (F32.fin 0) (F32.fin 0)))
      (fmul (F32.fin 0) (F32.fin 0)) = F32.fin 0
    rw [fmul_zero_zero, fadd_zero_zero, fadd_zero_zero]
  · show sqrtf_nearest (F32.fin 0) = F32.fin 0
    simp [sqrtf_nearest]

/-- C22, counterexample: with `origin = lookAt = (1, 2, 3)` and the up vector `(0, 0, 1)` the
look direction has the length `sqrtf(0) = 0`, the three unguarded normalising divisions divide
zero by zero, the direction becomes NaN, and the yaw stage is not skipped either: it divides
by `sqrtf(NaN)`. -/
theorem Scene3D_setCamera_divides_by_zero :
    lookLength floatHelpers ⟨F32.fin 1, F32.fin 2, F32.fin 3⟩ ⟨F32.fin 1, F32.fin 2, F32.fin 3⟩
      = F32.fin 0 ∧
    lookDir floatHelpers ⟨F32.fin 1, F32.fin 2, F32.fin 3⟩ ⟨F32.fin 1, F32.fin 2, F32.fin 3⟩
      = ⟨F32.nan, F32.nan, F32.nan⟩ ∧
    (Scene3D_setCamera floatHelpers ⟨F32.fin 1, F32.fin 2, F32.fin 3⟩
      ⟨F32.fin 1, F32.fin 2, F32.fin 3⟩ (F32.fin 1)
      ⟨F32.fin 0, F32.fin 0, F32.fin 1⟩).divisors
      = [F32.fin 0, F32.fin 0, F32.fin 0, F32.nan, F32.nan, F32.nan, F32.nan] := by
  have hl : lookLength floatHelpers ⟨F32.fin 1, F32.fin 2, F32.fin 3⟩
      ⟨F32.fin 1, F32.fin 2, F32.fin 3⟩ = F32.fin 0 := by
    unfold lookLength
    rw [lookDiff_self, floatHelpers_zero.1, floatHelpers_zero.2]
  have hd : lookDir floatHelpers ⟨F32.fin 1, F32.fin 2, F32.fin 3⟩
      ⟨F32.fin 1, F32.fin 2, F32.fin 3⟩ = ⟨F32.nan, F32.nan, F32.nan⟩ := by
    unfold lookDir
    rw [hl, lookDiff_self]
    simp [fdiv]
  have hp : planarLength floatHelpers ⟨F32.fin 1, F32.fin 2, F32.fin 3⟩
      ⟨F32.fin 1, F32.fin 2, F32.fin 3⟩ = F32.nan := by
    unfold planarLength
    rw [hd]
    rfl
  refine ⟨hl, hd, ?_⟩
  rw [Scene3D_setCamera_eq, hl, hd, hp]
  rfl

/-- C22, amended: `Scene3D_setCamera` guards two of its three groups of float divisions. The
four divisions by the planar length `h` of the yaw stage are made exactly when the normalised
look direction has `dir.x != 0` or `dir.z != 0`, and the four divisions by the length `l` of
the roll stage exactly when `up.x != 0` or `up.y != 0`, so that an up vector with `up.x = 0`
and `up.y = 0` skips the roll stage and its divisions. The three divisions that normalise the
look direction are made for every input, and for `origin = lookAt` (finite coordinates) they
divide by `sqrtf(0) = 0`. A guard tests components, not the divisor: the up vector
`(2^-100, 0, z)` passes the roll guard and the stage divides by `sqrtf(0)`, the squares having
underflowed. -/
theorem Scene3D_setCamera_division_guards (H : CameraHelpers) (origin lookAt : float3)
    (scale : F32) (up : float3) :
    (Scene3D_setCamera H origin lookAt scale up).divisors
      = [lookLength H origin lookAt, lookLength H origin lookAt, lookLength H origin lookAt]
        ++ (if feq (lookDir H origin lookAt).x (F32.fin 0) = false ∨
              feq (lookDir H origin lookAt).z (F32.fin 0) = false then
            [planarLength H origin lookAt, planarLength H origin lookAt,
              planarLength H origin lookAt, planarLength H origin lookAt]
          else [])
        ++ (if feq up.x (F32.fin 0) = false ∨ feq up.y (F32.fin 0) = false then
            [upLength H up, upLength H up, upLength H up, upLength H up]
          else []) ∧
    (up.x = F32.fin 0 → up.y = F32.fin 0 →
      (Scene3D_setCamera H origin lookAt scale up).divisors
        = [lookLength H origin lookAt, lookLength H origin lookAt, lookLength H origin lookAt]
          ++ (if feq (lookDir H origin lookAt).x (F32.fin 0) = false ∨
                feq (lookDir H origin lookAt).z (F32.fin 0) = false then
              [planarLength H origin lookAt, planarLength H origin lookAt,
                planarLength H origin lookAt, planarLength H origin lookAt]
            else [])) ∧
    (origin = lookAt → (∃ a b c : ℚ, origin = ⟨F32.fin a, F32.fin b, F32.fin c⟩) →
      H.v3_lensq ⟨F32.fin 0, F32.fin 0, F32.fin 0⟩ = F32.fin 0 →
      H.sqrtf (F32.fin 0) = F32.fin 0 → lookLength H origin lookAt = F32.fin 0) ∧
    (∀ z : F32, feq (F32.fin (1 / 2 ^ 100)) (F32.fin 0) = false ∧
      upLength H ⟨F32.fin (1 / 2 ^ 100), F32.fin 0, z⟩ = H.sqrtf (F32.fin 0)) := by
  refine ⟨?_, ?_, ?_, ?_⟩
  · rw [Scene3D_setCamera_eq]
  · intro hx hy
    have hg : ¬ (feq up.x (F32.fin 0) = false ∨ feq up.y (F32.fin 0) = false) := by
      rw [hx, hy]
      simp [feq]
    rw [Scene3D_setCamera_eq]
    dsimp only
    rw [if_neg hg, List.append_nil]
  · rintro rfl ⟨a, b, c, rfl⟩ h1 h2
    unfold lookLength
    rw [lookDiff_self, h1, h2]
  · intro z
    constructor
    · norm_num [feq]
    · unfold upLength
      dsimp only
      rw [fmul_underflow, fmul_zero_zero, fadd_zero_zero]

/-- Witness of C22: the camera at the origin looking at the origin with the up vector
`(0, 0, 1)`: the normalising divisions divide by zero and no roll division is made. -/
theorem Scene3D_setCamera_division_guards_witness :
    lookLength floatHelpers ⟨F32.fin 0, F32.fin 0, F32.fin 0⟩ ⟨F32.fin 0, F32.fin 0, F32.fin 0⟩
      = F32.fin 0 ∧
    (Scene3D_setCamera floatHelpers ⟨F32.fin 0, F32.fin 0, F32.fin 0⟩
      ⟨F32.fin 0, F32.fin 0, F32.fin 0⟩ (F32.fin 1)
      ⟨F32.fin 0, F32.fin 0, F32.fin 1⟩).divisors.length ≤ 7 := by
  have h := Scene3D_setCamera_division_guards floatHelpers ⟨F32.fin 0, F32.fin 0, F32.fin 0⟩
    ⟨F32.fin 0, F32.fin 0, F32.fin 0⟩ (F32.fin 1) ⟨F32.fin 0, F32.fin 0, F32.fin 1⟩
  refine ⟨h.2.2.1 rfl ⟨0, 0, 0, rfl⟩ floatHelpers_zero.1 floatHelpers_zero.2, ?_⟩
  rw [h.2.1 rfl rfl]
  split_ifs <;> simp

/-- C23: for every origin, look-at point and scale, when the up vector has `up.x = 0` and
`up.y = 0`, `Scene3D_setCamera` stores as the scene camera exactly the pre-roll transform (the
translation by `-origin` composed with yaw and pitch), with no roll factor applied, and stores
the scale `240 * scale`. -/
theorem Scene3D_setCamera_degenerate_roll (H : CameraHelpers) (origin lookAt : float3)
    (scale : F32) (up : float3) (hx : up.x = F32.fin 0) (hy : up.y = F32.fin 0) :
    (Scene3D_setCamera H origin lookAt scale up).camera = prerollTransform H origin lookAt ∧
    (Scene3D_setCamera H origin lookAt scale up).scale = fmul (F32.fin 240) scale := by
  have hg : ¬ (feq up.x (F32.fin 0) = false ∨ feq up.y (F32.fin 0) = false) := by
    rw [hx, hy]
    simp [feq]
  rw [Scene3D_setCamera_eq]
  dsimp only
  rw [if_neg hg]
  exact ⟨rfl, rfl⟩

/-- Witness of C23: the camera at `(1, 2, 3)` looking at `(1, 2, 4)` with the up vector
`(0, 0, 1)`. -/
theorem Scene3D_setCamera_degenerate_roll_witness :
    (Scene3D_setCamera floatHelpers ⟨F32.fin 1, F32.fin 2, F32.fin 3⟩
      ⟨F32.fin 1, F32.fin 2, F32.fin 4⟩ (F32.fin 1) ⟨F32.fin 0, F32.fin 0, F32.fin 1⟩).camera
      = prerollTransform floatHelpers ⟨F32.fin 1, F32.fin 2, F32.fin 3⟩
          ⟨F32.fin 1, F32.fin 2, F32.fin 4⟩ :=
  (Scene3D_setCamera_degenerate_roll floatHelpers ⟨F32.fin 1, F32.fin 2, F32.fin 3⟩
    ⟨F32.fin 1, F32.fin 2, F32.fin 4⟩ (F32.fin 1) ⟨F32.fin 0, F32.fin 0, F32.fin 1⟩
    rfl rfl).1
end Scene

namespace Radixsort

/-! ## Histogram construction -/

theorem digit_eq_shift_mask (b key : Nat) : digit b key = (key >>> (8 * b)) &&& 0xFF := by
  unfold digit
  rw [kRadixBits_eq, Nat.mul_comm b 8]
  rfl

/-- C24: after `init_histograms_u32` on a zeroed table, for every byte position `b` in `0..3`
and digit `d` in `0..255` the entry `hist[b*256 + d]` is the number of keys read whose digit
`(key >> (8*b)) AND 0xFF` equals `d`; after `sum_histograms` it is the exclusive prefix sum,
the number of keys read whose digit at position `b` is strictly less than `d`. -/
theorem init_sum_histograms_counts (keys_in : List Nat) (size b d : Nat)
    (hsize : size < 2 ^ 32) (hb : b < 4) (hd : d < 256) :
    (init_histograms_u32 (List.replicate (kHistBuckets * kHistSize) 0) keys_in size).getD
        (b * 256 + d) 0
      = (readKeys keys_in size).countP (fun key => decide ((key >>> (8 * b)) &&& 0xFF = d)) ∧
    (sum_histograms
        (init_histograms_u32 (List.replicate (kHistBuckets * kHistSize) 0) keys_in size)).getD
        (b * 256 + d) 0
      = (readKeys keys_in size).countP (fun key => decide ((key >>> (8 * b)) &&& 0xFF < d)) := by
  have hlen : (readKeys keys_in size).length < 2 ^ 32 := by rw [readKeys_length]; exact hsize
  have hz : ∀ b' d', b' < 4 → d' < 256 →
      (List.replicate (kHistBuckets * kHistSize) 0).getD (b' * 256 + d') 0 = 0 := by
    intro b' d' hb' hd'
    rw [List.getD_eq_getElem?_getD, List.getElem?_replicate]
    split_ifs <;> rfl
  constructor
  · rw [init_histograms_u32_eq]
    have h := (init_histograms_foldl (readKeys keys_in size)
      (List.replicate (kHistBuckets * kHistSize) 0) (List.length_replicate _ _)
      (by intro b' d' hb' hd'; rw [hz b' d' hb' hd']; omega)).2 b d hb hd
    rw [h, hz b d hb hd, Nat.zero_add]
    congr 1
    funext key
    rw [digit_eq_shift_mask]
  · rw [init_histograms_u32_eq, (sum_init_spec (readKeys keys_in size) hlen).2 b d hb hd]
    unfold cntLt
    congr 1
    funext key
    rw [digit_eq_shift_mask]

/-- Witness of C24: the keys `[0x0102, 0x0302, 0x0005]`, byte position 0, digit 5: no key has
the low byte 5 before the sum, and two keys have a low byte below 5. -/
theorem init_sum_histograms_counts_witness :
    (init_histograms_u32 (List.replicate (kHistBuckets * kHistSize) 0)
        [0x0102, 0x0302, 0x0005] 3).getD (0 * 256 + 5) 0
      = (readKeys [0x0102, 0x0302, 0x0005] 3).countP
          (fun key => decide ((key >>> (8 * 0)) &&& 0xFF = 5)) ∧
    (sum_histograms (init_histograms_u32 (List.replicate (kHistBuckets * kHistSize) 0)
        [0x0102, 0x0302, 0x0005] 3)).getD (0 * 256 + 5) 0
      = (readKeys [0x0102, 0x0302, 0x0005] 3).countP
          (fun key => decide ((key >>> (8 * 0)) &&& 0xFF < 5)) :=
  init_sum_histograms_counts [0x0102, 0x0302, 0x0005] 3 0 5 (by decide) (by decide) (by decide)

/-! ## The 64-bit helpers -/

theorem init_histograms_u64_eq (hist keys_in : List Nat) (size : Nat) :
    init_histograms_u64 hist keys_in size = init_histograms_u32 hist keys_in size := rfl

theorem radixpass_u64_eq (hist : List Nat) (offset shift mask : Nat)
    (ki ko vi vo : List Nat) (size : Nat) :
    radixpass_u64 hist offset shift mask ki ko vi vo size
      = radixpass_u32 hist offset shift mask ki ko vi vo size := rfl

theorem digit_low_word (b key : Nat) (hb : b < 4) : digit b (key % 2 ^ 32) = digit b key := by
  rw [digit_eq, digit_eq]
  interval_cases b <;> norm_num <;> omega

/-- The histogram update for a key depends on the low 32 bits of the key only. -/
theorem init_histograms_key_low_word (h : List Nat) (key : Nat) :
    init_histograms_key h (key % 2 ^ 32) = init_histograms_key h key := by
  have e : ∀ k, init_histograms_key h k
      = (List.range kHistBuckets).foldl (fun h b =>
          h.set (b * kHistSize + digit b k) (u32 (h.getD (b * kHistSize + digit b k) 0 + 1)))
          h := fun _ => rfl
  have hr : List.range kHistBuckets = [0, 1, 2, 3] := by decide
  rw [e, e, hr]
  simp only [List.foldl_cons, List.foldl_nil, digit_low_word 0 key (by decide),
    digit_low_word 1 key (by decide), digit_low_word 2 key (by decide),
    digit_low_word 3 key (by decide)]

theorem init_histograms_u64_low_word (hist keys_in : List Nat) (size : Nat) :
    init_histograms_u64 hist (keys_in.map (fun k => k % 2 ^ 32)) size
      = init_histograms_u64 hist keys_in size := by
  unfold init_histograms_u64
  congr 1
  funext h i
  have hg : (keys_in.map (fun k => k % 2 ^ 32)).getD i 0 = keys_in.getD i 0 % 2 ^ 32 := by
    rw [List.getD_eq_getElem?_getD, List.getD_eq_getElem?_getD, List.getElem?_map]
    cases keys_in[i]? <;> rfl
  show init_histograms_key h ((keys_in.map (fun k => k % 2 ^ 32)).getD i 0)
    = init_histograms_key h (keys_in.getD i 0)
  rw [hg, init_histograms_key_low_word]

/-- A pass of `radixpass_u64` over byte `b` of the keys, driven by the summed histogram of
`init_histograms_u64`, writes the pairs bucket by bucket of that byte. -/
theorem radixpass_u64_pass (b : Nat) (keys_in values_in keys_out values_out : List Nat)
    (hb : b < 4) (hsize : keys_in.length < 2 ^ 32) (hvalues : values_in.length = keys_in.length)
    (hko : keys_in.length ≤ keys_out.length) (hvo : keys_in.length ≤ values_out.length) :
    (radixpass_u64 (sum_histograms (init_histograms_u64
        (List.replicate (kHistBuckets * kHistSize) 0) keys_in keys_in.length))
      (b * kHistSize) (b * kRadixBits) (kHistSize - 1)
      keys_in keys_out values_in values_out keys_in.length).keys_out
      = (lsdPass b (keys_in.zip values_in)).map Prod.fst ++ keys_out.drop keys_in.length ∧
    (radixpass_u64 (sum_histograms (init_histograms_u64
        (List.replicate (kHistBuckets * kHistSize) 0) keys_in keys_in.length))
      (b * kHistSize) (b * kRadixBits) (kHistSize - 1)
      keys_in keys_out values_in values_out keys_in.length).values_out
      = (lsdPass b (keys_in.zip values_in)).map Prod.snd ++ values_out.drop keys_in.length := by
  rw [radixpass_u64_eq, init_histograms_u64_eq, init_histograms_u32_eq, readKeys_self]
  obtain ⟨hl, hg⟩ := sum_init_spec keys_in hsize
  have hfst : (keys_in.zip values_in).map Prod.fst = keys_in := by
    rw [List.map_fst_zip]
    omega
  obtain ⟨h1, h2, _, _⟩ := radixpass_u32_pairs b
    (sum_histograms (keys_in.foldl init_histograms_key
      (List.replicate (kHistBuckets * kHistSize) 0)))
    keys_in keys_out values_in values_out keys_in.length (keys_in.zip values_in)
    (readPairs_self keys_in values_in hvalues) hsize hb hl
    (by intro d hd; rw [hg b d hb hd, hfst]) hko hvo
  exact ⟨h1, h2⟩

set_option maxRecDepth 20000 in
/-- Each of the four passes of `radixpass_u64` that the summed histogram can drive writes the
keys `0x100000000` and `0` in the input order. -/
theorem radixpass_u64_pair_order (b : Nat) (hb : b < 4) :
    (radixpass_u64 (sum_histograms (init_histograms_u64
        (List.replicate (kHistBuckets * kHistSize) 0) [0x100000000, 0] 2))
      (b * kHistSize) (b * kRadixBits) (kHistSize - 1)
      [0x100000000, 0] [0, 0] [7, 8] [0, 0] 2).keys_out = [0x100000000, 0] ∧
    (radixpass_u64 (sum_histograms (init_histograms_u64
        (List.replicate (kHistBuckets * kHistSize) 0) [0x100000000, 0] 2))
      (b * kHistSize) (b * kRadixBits) (kHistSize - 1)
      [0x100000000, 0] [0, 0] [7, 8] [0, 0] 2).values_out = [7, 8] := by
  obtain ⟨h1, h2⟩ := radixpass_u64_pass b [0x100000000, 0] [7, 8] [0, 0] [0, 0] hb
    (by decide) rfl (le_refl _) (le_refl _)
  have e : lsdPass b ([0x100000000, 0].zip [7, 8]) = [(0x100000000, 7), (0, 8)] := by
    interval_cases b <;> decide
  rw [e] at h1 h2
  exact ⟨h1, h2⟩

/-- C21, counterexample: the two 64-bit keys `0x100000000` and `0` with the values 7 and 8.
The histogram of `init_histograms_u64` is the one of the keys `0` and `0`, and each of the
`kHistBuckets = 4` passes of `radixpass_u64` that the summed histogram can drive (byte
positions 0, 1, 2, 3) writes them in the input order, `0x100000000` before `0`, which is not
ascending in the whole 64-bit key: the helpers read the bytes 0..3 only, where the two keys
agree. -/
theorem radixpass_u64_whole_key_unsorted :
    kHistBuckets = 4 ∧
    init_histograms_u64 (List.replicate (kHistBuckets * kHistSize) 0) [0x100000000, 0] 2
      = init_histograms_u64 (List.replicate (kHistBuckets * kHistSize) 0) [0, 0] 2 ∧
    (List.range kHistBuckets).map (fun b =>
      (radixpass_u64 (sum_histograms (init_histograms_u64
          (List.replicate (kHistBuckets * kHistSize) 0) [0x100000000, 0] 2))
        (b * kHistSize) (b * kRadixBits) (kHistSize - 1)
        [0x100000000, 0] [0, 0] [7, 8] [0, 0] 2).keys_out)
      = [[0x100000000, 0], [0x100000000, 0], [0x100000000, 0], [0x100000000, 0]] ∧
    (List.range kHistBuckets).map (fun b =>
      (radixpass_u64 (sum_histograms (init_histograms_u64
          (List.replicate (kHistBuckets * kHistSize) 0) [0x100000000, 0] 2))
        (b * kHistSize) (b * kRadixBits) (kHistSize - 1)
        [0x100000000, 0] [0, 0] [7, 8] [0, 0] 2).values_out)
      = [[7, 8], [7, 8], [7, 8], [7, 8]] ∧
    ¬ List.Sorted (fun a b => a ≤ b) [0x100000000, 0] := by
  have hr : List.range kHistBuckets = [0, 1, 2, 3] := by decide
  refine ⟨rfl, (init_histograms_u64_low_word _ [0x100000000, 0] 2).symm, ?_, ?_, by decide⟩
  · rw [hr]
    simp only [List.map_cons, List.map_nil]
    rw [(radixpass_u64_pair_order 0 (by decide)).1, (radixpass_u64_pair_order 1 (by decide)).1,
      (radixpass_u64_pair_order 2 (by decide)).1, (radixpass_u64_pair_order 3 (by decide)).1]
  · rw [hr]
    simp only [List.map_cons, List.map_nil]
    rw [(radixpass_u64_pair_order 0 (by decide)).2, (radixpass_u64_pair_order 1 (by decide)).2,
      (radixpass_u64_pair_order 2 (by decide)).2, (radixpass_u64_pair_order 3 (by decide)).2]

/-- C21, amended: the 64-bit helpers of the sorter cover the four low bytes of a key.
For every array of 64-bit keys with parallel values, the histograms of `init_histograms_u64`
do not depend on the bits 32..63 of the keys, and for every byte position `b` in `0..3` a pass
of `radixpass_u64` over byte `b`, driven by the summed histogram, is a stable counting sort
by that byte: the pairs written are a permutation of the input pairs, ascending in byte `b` of
the key, pairs of equal key in their input order. -/
theorem radixpass_u64_low_bytes (keys_in values_in keys_out values_out : List Nat) (b : Nat)
    (hb : b < kHistBuckets) (hsize : keys_in.length < 2 ^ 32)
    (hvalues : values_in.length = keys_in.length)
    (hko : keys_out.length = keys_in.length) (hvo : values_out.length = keys_in.length) :
    init_histograms_u64 (List.replicate (kHistBuckets * kHistSize) 0) keys_in keys_in.length
      = init_histograms_u64 (List.replicate (kHistBuckets * kHistSize) 0)
          (keys_in.map (fun k => k % 2 ^ 32)) keys_in.length ∧
    List.Perm
      ((radixpass_u64 (sum_histograms (init_histograms_u64
          (List.replicate (kHistBuckets * kHistSize) 0) keys_in keys_in.length))
        (b * kHistSize) (b * kRadixBits) (kHistSize - 1)
        keys_in keys_out values_in values_out keys_in.length).keys_out.zip
       (radixpass_u64 (sum_histograms (init_histograms_u64
          (List.replicate (kHistBuckets * kHistSize) 0) keys_in keys_in.length))
        (b * kHistSize) (b * kRadixBits) (kHistSize - 1)
        keys_in keys_out values_in values_out keys_in.length).values_out)
      (keys_in.zip values_in) ∧
    List.Pairwise (fun k1 k2 => (k1 >>> (8 * b)) &&& 0xFF ≤ (k2 >>> (8 * b)) &&& 0xFF)
      (radixpass_u64 (sum_histograms (init_histograms_u64
          (List.replicate (kHistBuckets * kHistSize) 0) keys_in keys_in.length))
        (b * kHistSize) (b * kRadixBits) (kHistSize - 1)
        keys_in keys_out values_in values_out keys_in.length).keys_out ∧
    (∀ k,
      ((radixpass_u64 (sum_histograms (init_histograms_u64
          (List.replicate (kHistBuckets * kHistSize) 0) keys_in keys_in.length))
        (b * kHistSize) (b * kRadixBits) (kHistSize - 1)
        keys_in keys_out values_in values_out keys_in.length).keys_out.zip
       (radixpass_u64 (sum_histograms (init_histograms_u64
          (List.replicate (kHistBuckets * kHistSize) 0) keys_in keys_in.length))
        (b * kHistSize) (b * kRadixBits) (kHistSize - 1)
        keys_in keys_out values_in values_out keys_in.length).values_out).filter
          (fun p => decide (p.1 = k))
      = (keys_in.zip values_in).filter (fun p => decide (p.1 = k))) := by
  have hb4 : b < 4 := hb
  obtain ⟨h1, h2⟩ := radixpass_u64_pass b keys_in values_in keys_out values_out hb4 hsize
    hvalues (by omega) (by omega)
  rw [List.drop_eq_nil_of_le (by omega), List.append_nil] at h1 h2
  rw [h1, h2, zip_map_fst_snd]
  refine ⟨(init_histograms_u64_low_word _ keys_in keys_in.length).symm, lsdPass_perm b _, ?_,
    fun k => lsdPass_filter_key b k _⟩
  rw [List.pairwise_map]
  have hp := bucketCat_pairwise (fun p : Nat × Nat => digit b p.1) (fun _ => 0) 1 256
    (keys_in.zip values_in) (fun _ _ => Nat.zero_lt_one)
    (List.pairwise_of_forall (fun _ _ => le_refl _))
  refine List.Pairwise.imp ?_ hp
  intro p q hpq
  rw [← digit_eq_shift_mask, ← digit_eq_shift_mask]
  dsimp only at hpq
  omega

/-- Witness of C21: three 64-bit keys whose order by the whole key differs from their order by
the low byte; the pass over byte 0 writes them in the order of that byte. -/
theorem radixpass_u64_low_bytes_witness :
    List.Pairwise (fun k1 k2 => (k1 >>> (8 * 0)) &&& 0xFF ≤ (k2 >>> (8 * 0)) &&& 0xFF)
      (radixpass_u64 (sum_histograms (init_histograms_u64
          (List.replicate (kHistBuckets * kHistSize) 0) [0x100000005, 3, 0x200000001]
          [0x100000005, 3, 0x200000001].length))
        (0 * kHistSize) (0 * kRadixBits) (kHistSize - 1)
        [0x100000005, 3, 0x200000001] [0, 0, 0] [10, 11, 12] [0, 0, 0]
        [0x100000005, 3, 0x200000001].length).keys_out :=
  (radixpass_u64_low_bytes [0x100000005, 3, 0x200000001] [10, 11, 12] [0, 0, 0] [0, 0, 0] 0
    (by decide) (by decide) rfl rfl rfl).2.2.1

/-! ## The returned selector and the temp buffers -/

/-- The temp buffers after `radixsort_f32`: they start with the flipped pairs after the first
three passes, the keys still flipped. -/
theorem radixsort_f32_temp_spec (ki kt vi vt : List Nat) (size : Nat)
    (hki : size ≤ ki.length) (hkt : size ≤ kt.length)
    (hvi : size ≤ vi.length) (hvt : size ≤ vt.length) (hlt : size < 2 ^ 32) :
    (radixsort_f32 ki kt vi vt size).bufs.keys1
      = (lsdPass 2 (lsdPass 1 (lsdPass 0 ((readPairs ki vi size).map flipPair)))).map Prod.fst
          ++ kt.drop size ∧
    (radixsort_f32 ki kt vi vt size).bufs.values1
      = (lsdPass 2 (lsdPass 1 (lsdPass 0 ((readPairs ki vi size).map flipPair)))).map Prod.snd
          ++ vt.drop size := by
  have hX0 : ((readPairs ki vi size).map flipPair).length = size := by
    rw [List.length_map, readPairs_length]
  have hfst : ((readPairs ki vi size).map flipPair).map Prod.fst
      = (readKeys ki size).map float_flip := by
    rw [List.map_map, ← readPairs_fst ki vi size, List.map_map]
    rfl
  obtain ⟨hl, hg⟩ := sum_init_spec ((readKeys ki size).map float_flip)
    (by rw [List.length_map, readKeys_length]; exact hlt)
  rw [← init_histograms_f32_eq] at hl hg
  rw [← hfst] at hg
  have hH : ∀ b, b < 4 → ∀ X : List (Nat × Nat), X.Perm ((readPairs ki vi size).map flipPair) →
      ∀ d, d < 256 →
      (sum_histograms (init_histograms_f32 (List.replicate (kHistBuckets * kHistSize) 0)
        ki size)).getD (b * 256 + d) 0 = cntLt (digit b) d (X.map Prod.fst) := by
    intro b hb X hX d hd
    rw [hg b d hb hd, cntLt_perm _ d (hX.map Prod.fst)]
  have p1 := lsdPass_perm 0 ((readPairs ki vi size).map flipPair)
  have p2 := (lsdPass_perm 1 _).trans p1
  have n1 := p1.length_eq
  have n2 := p2.length_eq
  rw [radixsort_f32_unroll]
  simp only []
  generalize sum_histograms (init_histograms_f32 (List.replicate (kHistBuckets * kHistSize) 0)
    ki size) = hist at hl hH ⊢
  have e0 : lsdPass 0 ((readPairs ki vi size).map flipPair)
      = (bucketCat (fun p : Nat × Nat => digit 0 (float_flip p.1)) 256
          (readPairs ki vi size)).map flipPair := by
    unfold lsdPass
    rw [bucketCat_map]
    rfl
  obtain ⟨hk0, v0⟩ := scatter_range (fun p : Nat × Nat => digit 0 (float_flip p.1))
    (fun p => float_flip p.1) Prod.snd (0 * 256) hist ki kt vi vt size hlt
    (fun x => digit_lt 0 _) (by omega)
    (by intro d hd
        rw [hH 0 (by omega) _ (List.Perm.refl _) d hd, cntLt_map, cntLt_map]
        rfl)
  obtain ⟨k0, l0, o0⟩ := hk0 hkt
  have v0 := v0 hvt
  generalize (List.range size).foldl
    (fun st i => scatterStep (fun p : Nat × Nat => digit 0 (float_flip p.1))
      (fun p => float_flip p.1) Prod.snd (0 * 256) st (ki.getD i 0, vi.getD i 0))
    { hist := hist, keys_out := kt, values_out := vt } = s0 at k0 v0 l0 o0 ⊢
  have k0' : s0.keys_out
      = (lsdPass 0 ((readPairs ki vi size).map flipPair)).map Prod.fst ++ kt.drop size := by
    rw [k0, e0, List.map_map]; rfl
  have v0' : s0.values_out
      = (lsdPass 0 ((readPairs ki vi size).map flipPair)).map Prod.snd ++ vt.drop size := by
    rw [v0, e0, List.map_map]; rfl
  have ck0 : size ≤ s0.keys_out.length := by rw [k0']; simp; omega
  have cv0 : size ≤ s0.values_out.length := by rw [v0']; simp; omega
  have tk0 : s0.keys_out.drop size = kt.drop size := by
    rw [k0']; exact List.drop_left' (by simp; omega)
  have tv0 : s0.values_out.drop size = vt.drop size := by
    rw [v0']; exact List.drop_left' (by simp; omega)
  obtain ⟨k1, v1, l1, o1⟩ := radixpass_u32_pairs 1 s0.hist s0.keys_out ki s0.values_out vi size
    (lsdPass 0 ((readPairs ki vi size).map flipPair))
    (by rw [k0', v0']; exact readPairs_append _ _ _ _ (by omega)) hlt (by omega) (l0.trans hl)
    (by intro d hd; rw [o0 (1 * 256 + d) (by omega)]; exact hH 1 (by omega) _ p1 d hd) hki hvi
  generalize radixpass_u32 s0.hist (1 * kHistSize) (1 * kRadixBits) (kHistSize - 1)
    s0.keys_out ki s0.values_out vi size = s1 at k1 v1 l1 o1 ⊢
  obtain ⟨k2, v2, _, _⟩ := radixpass_u32_pairs 2 s1.hist s1.keys_out s0.keys_out s1.values_out
    s0.values_out size (lsdPass 1 (lsdPass 0 ((readPairs ki vi size).map flipPair)))
    (by rw [k1, v1]; exact readPairs_append _ _ _ _ (by omega)) hlt (by omega) l1
    (by intro d hd; rw [o1 2 d (by omega) hd, o0 (2 * 256 + d) (by omega)]
        exact hH 2 (by omega) _ p2 d hd) ck0 cv0
  rw [tk0] at k2
  rw [tv0] at v2
  exact ⟨k2, v2⟩

theorem radixsort_u32_out (ki kt vi vt : List Nat) (size : Nat) :
    (radixsort_u32 ki kt vi vt size).out = 0 := by
  rw [radixsort_u32_unroll]

theorem radixsort_f32_out (ki kt vi vt : List Nat) (size : Nat) :
    (radixsort_f32 ki kt vi vt size).out = 0 := by
  rw [radixsort_f32_unroll]

/-- C26: `radix8sort_u32` and `radix8sort_f32` return selector 0 for every input (the pass
count `kHistBuckets` is four, an even number), so the designated buffers are the caller's in/out
buffers; these start with the pairs after all four passes (for floats with the keys flipped
back), while the temp buffers start with the pairs after the third pass (for floats with the
keys still flipped). -/
theorem radix8sort_selector_zero (keys_in_out keys_temp values_in_out values_temp : List Nat)
    (size : Nat) :
    kHistBuckets = 4 ∧
    (radix8sort_u32 keys_in_out keys_temp values_in_out values_temp size).out = 0 ∧
    (radix8sort_f32 keys_in_out keys_temp values_in_out values_temp size).out = 0 ∧
    (size ≤ keys_in_out.length → size ≤ keys_temp.length → size ≤ values_in_out.length →
      size ≤ values_temp.length → size < 2 ^ 32 →
      ((radix8sort_u32 keys_in_out keys_temp values_in_out values_temp size).bufs.keys0
          = (lsdPass 3 (lsdPass 2 (lsdPass 1 (lsdPass 0
              (readPairs keys_in_out values_in_out size))))).map Prod.fst
            ++ keys_in_out.drop size ∧
        (radix8sort_u32 keys_in_out keys_temp values_in_out values_temp size).bufs.values0
          = (lsdPass 3 (lsdPass 2 (lsdPass 1 (lsdPass 0
              (readPairs keys_in_out values_in_out size))))).map Prod.snd
            ++ values_in_out.drop size ∧
        (radix8sort_u32 keys_in_out keys_temp values_in_out values_temp size).bufs.keys1
          = (lsdPass 2 (lsdPass 1 (lsdPass 0
              (readPairs keys_in_out values_in_out size)))).map Prod.fst
            ++ keys_temp.drop size ∧
        (radix8sort_u32 keys_in_out keys_temp values_in_out values_temp size).bufs.values1
          = (lsdPass 2 (lsdPass 1 (lsdPass 0
              (readPairs keys_in_out values_in_out size)))).map Prod.snd
            ++ values_temp.drop size) ∧
      ((radix8sort_f32 keys_in_out keys_temp values_in_out values_temp size).bufs.keys0
          = (lsdPass 3 (lsdPass 2 (lsdPass 1 (lsdPass 0
              ((readPairs keys_in_out values_in_out size).map flipPair))))).map
                (fun p => inv_float_flip p.1)
            ++ keys_in_out.drop size ∧
        (radix8sort_f32 keys_in_out keys_temp values_in_out values_temp size).bufs.values0
          = (lsdPass 3 (lsdPass 2 (lsdPass 1 (lsdPass 0
              ((readPairs keys_in_out values_in_out size).map flipPair))))).map Prod.snd
            ++ values_in_out.drop size ∧
        (radix8sort_f32 keys_in_out keys_temp values_in_out values_temp size).bufs.keys1
          = (lsdPass 2 (lsdPass 1 (lsdPass 0
              ((readPairs keys_in_out values_in_out size).map flipPair)))).map Prod.fst
            ++ keys_temp.drop size ∧
        (radix8sort_f32 keys_in_out keys_temp values_in_out values_temp size).bufs.values1
          = (lsdPass 2 (lsdPass 1 (lsdPass 0
              ((readPairs keys_in_out values_in_out size).map flipPair)))).map Prod.snd
            ++ values_temp.drop size)) := by
  refine ⟨rfl, radixsort_u32_out _ _ _ _ _, radixsort_f32_out _ _ _ _ _, ?_⟩
  intro hki hkt hvi hvt hlt
  obtain ⟨_, a1, a2, a3, a4⟩ := radixsort_u32_spec keys_in_out keys_temp values_in_out
    values_temp size hki hkt hvi hvt hlt
  obtain ⟨_, b1, b2⟩ := radixsort_f32_spec keys_in_out keys_temp values_in_out
    values_temp size hki hkt hvi hvt hlt
  obtain ⟨b3, b4⟩ := radixsort_f32_temp_spec keys_in_out keys_temp values_in_out
    values_temp size hki hkt hvi hvt hlt
  exact ⟨⟨a1, a2, a3, a4⟩, ⟨b1, b2, b3, b4⟩⟩

set_option maxRecDepth 20000 in
/-- Witness of C26: two keys that the fourth pass exchanges; the in/out buffer holds them in
order and the temp buffer holds them as the third pass left them. -/
theorem radix8sort_selector_zero_witness :
    (radix8sort_u32 [0x02000000, 0x01000001] [0, 0] [7, 8] [0, 0] 2).bufs.keys0
      = [0x01000001, 0x02000000] ∧
    (radix8sort_u32 [0x02000000, 0x01000001] [0, 0] [7, 8] [0, 0] 2).bufs.keys1
      = [0x02000000, 0x01000001] := by
  obtain ⟨h0, _, h1, _⟩ := ((radix8sort_selector_zero [0x02000000, 0x01000001] [0, 0] [7, 8]
    [0, 0] 2).2.2.2 (by decide) (by decide) (by decide) (by decide) (by decide)).1
  have hp : readPairs [0x02000000, 0x01000001] [7, 8] 2
      = [(0x02000000, 7), (0x01000001, 8)] := by decide
  have e3 : lsdPass 2 (lsdPass 1 (lsdPass 0 [(0x02000000, 7), (0x01000001, 8)]))
      = [(0x02000000, 7), (0x01000001, 8)] := by decide
  have e4 : lsdPass 3 [(0x02000000, 7), (0x01000001, 8)]
      = [(0x01000001, 8), (0x02000000, 7)] := by decide
  rw [hp, e3, e4] at h0
  rw [hp, e3] at h1
  exact ⟨h0, h1⟩

/-! ## Bounds of the scatter indices -/

theorem slots_length {α : Type} (dg : α → Nat) (xs : List α) :
    ∀ (rest done : List α), (slots dg xs done rest).length = rest.length := by
  intro rest
  induction rest with
  | nil => intro done; rfl
  | cons x r ih =>
    intro done
    show (slotOf dg xs done x :: slots dg xs (done ++ [x]) r).length = (x :: r).length
    rw [List.length_cons, List.length_cons, ih]

theorem slots_lt {α : Type} (dg : α → Nat) (xs : List α) :
    ∀ (rest done : List α), done ++ rest = xs →
      ∀ s ∈ slots dg xs done rest, s < xs.length := by
  intro rest
  induction rest with
  | nil => intro done _ s hs; exact absurd hs (List.not_mem_nil s)
  | cons x r ih =>
    intro done hxs s hs
    have hs' : s ∈ slotOf dg xs done x :: slots dg xs (done ++ [x]) r := hs
    rcases List.mem_cons.mp hs' with h | h
    · have := (scatter_slot dg xs done r x hxs).1
      rw [h]
      unfold slotOf
      omega
    · exact ih (done ++ [x]) (by rw [List.append_assoc]; exact hxs) s h

/-- A later slot differs from the slot of an earlier item. -/
theorem slots_ne {α : Type} (dg : α → Nat) (xs done : List α) (x : α) :
    ∀ (rest mid : List α), (done ++ x :: mid) ++ rest = xs →
      ∀ s ∈ slots dg xs (done ++ x :: mid) rest, s ≠ slotOf dg xs done x := by
  intro rest
  induction rest with
  | nil => intro mid _ s hs; exact absurd hs (List.not_mem_nil s)
  | cons y r ih =>
    intro mid hxs s hs
    have hs' : s ∈ slotOf dg xs (done ++ x :: mid) y
        :: slots dg xs ((done ++ x :: mid) ++ [y]) r := hs
    rcases List.mem_cons.mp hs' with h | h
    · rw [h]
      unfold slotOf
      have hc : cntEq dg (dg x) (done ++ x :: mid)
          = cntEq dg (dg x) done + 1 + cntEq dg (dg x) mid := by
        rw [cntEq_append]
        have : cntEq dg (dg x) (x :: mid) = 1 + cntEq dg (dg x) mid := by
          simp [cntEq, List.countP_cons]
          omega
        omega
      by_cases hd : dg y = dg x
      · rw [hd, hc]
        omega
      · have h2 := (scatter_slot dg xs (done ++ x :: mid) r y hxs).2 (dg x)
          (fun e => hd e.symm)
        rcases h2 with h2 | h2
        · omega
        · omega
    · have e : (done ++ x :: mid) ++ [y] = done ++ x :: (mid ++ [y]) := by simp
      rw [e] at h
      exact ih (mid ++ [y]) (by rw [← hxs]; simp) s h

theorem slots_nodup {α : Type} (dg : α → Nat) (xs : List α) :
    ∀ (rest done : List α), done ++ rest = xs → (slots dg xs done rest).Nodup := by
  intro rest
  induction rest with
  | nil => intro done _; exact List.nodup_nil
  | cons x r ih =>
    intro done hxs
    show (slotOf dg xs done x :: slots dg xs (done ++ [x]) r).Nodup
    rw [List.nodup_cons]
    refine ⟨?_, ih (done ++ [x]) (by rw [List.append_assoc]; exact hxs)⟩
    intro hmem
    have e : done ++ [x] = done ++ x :: [] := rfl
    rw [e] at hmem
    exact slots_ne dg xs done x r [] (by rw [← hxs]; simp) _ hmem rfl

/-- The indices recorded by the trace loop over `rest` are the slots of the items, when the
histogram block holds the bucket starts plus the counts of the items already processed. -/
theorem trace_foldl {α : Type} (dg w : α → Nat) (offset : Nat) (hist0 out0 : List Nat)
    (xs : List α) (hdg : ∀ x ∈ xs, dg x < 256) (hlen : xs.length < 2 ^ 32)
    (hoff : offset + 256 ≤ hist0.length) (hcap : xs.length ≤ out0.length) :
    ∀ (rest done : List α) (st : List Nat × List Nat) (idxs : List Nat), done ++ rest = xs →
      ScatterInv dg w offset hist0 out0 xs done st →
      (rest.foldl (traceStep dg offset) (st.1, idxs)).2 = idxs ++ slots dg xs done rest := by
  intro rest
  induction rest with
  | nil =>
    intro done st idxs _ _
    show idxs = idxs ++ []
    rw [List.append_nil]
  | cons x r ih =>
    intro done st idxs hxs inv
    have hx : x ∈ xs := by rw [← hxs]; simp
    have hb := inv.hist_block (dg x) (hdg x hx)
    have inv' := scatterInv_step dg w offset hist0 out0 xs done r x st hxs (hdg x hx) hlen
      hoff hcap inv
    have hstep : traceStep dg offset (st.1, idxs) x
        = ((scatterStep1 dg w offset st x).1, idxs ++ [slotOf dg xs done x]) := by
      unfold traceStep scatterStep1 slotOf
      simp only []
      rw [hb]
    rw [List.foldl_cons, hstep, ih (done ++ [x]) _ _ (by rw [List.append_assoc]; exact hxs) inv']
    show idxs ++ [slotOf dg xs done x] ++ slots dg xs (done ++ [x]) r
      = idxs ++ (slotOf dg xs done x :: slots dg xs (done ++ [x]) r)
    simp

/-- The scatter indices of a call of `radixpass_u32` for byte `b`, when block `b` of the
histogram holds the exclusive prefix sums for the keys read: one index per key, each below
`size`, no two equal. -/
theorem radixpass_u32_indices_spec (b : Nat) (hist ki : List Nat) (size : Nat)
    (hlt : size < 2 ^ 32) (hb : b < 4) (hhl : hist.length = 1024)
    (hH : ∀ d, d < 256 → hist.getD (b * 256 + d) 0 = cntLt (digit b) d (readKeys ki size)) :
    (radixpass_u32_indices hist (b * kHistSize) (b * kRadixBits) (kHistSize - 1) ki size).length
      = size ∧
    (∀ index ∈ radixpass_u32_indices hist (b * kHistSize) (b * kRadixBits) (kHistSize - 1)
      ki size, index < size) ∧
    (radixpass_u32_indices hist (b * kHistSize) (b * kRadixBits) (kHistSize - 1)
      ki size).Nodup := by
  have hfold : radixpass_u32_indices hist (b * kHistSize) (b * kRadixBits) (kHistSize - 1)
      ki size = ((readKeys ki size).foldl (traceStep (digit b) (b * 256)) (hist, [])).2 := by
    unfold radixpass_u32_indices readKeys
    rw [List.foldl_map]
    rfl
  have hK : (readKeys ki size).length = size := readKeys_length ki size
  have h := trace_foldl (digit b) id (b * 256) hist (List.replicate size 0) (readKeys ki size)
    (fun x _ => digit_lt b x) (by omega) (by omega) (by rw [hK, List.length_replicate])
    (readKeys ki size) [] (hist, List.replicate size 0) [] rfl
    (scatterInv_init (digit b) id (b * 256) hist (List.replicate size 0) (readKeys ki size) hH)
  rw [hfold, h, List.nil_append]
  refine ⟨?_, ?_, ?_⟩
  · rw [slots_length, hK]
  · intro s hs
    have := slots_lt (digit b) (readKeys ki size) (readKeys ki size) [] rfl s hs
    omega
  · exact slots_nodup (digit b) (readKeys ki size) (readKeys ki size) [] rfl


theorem readKeys_succ (ks : List Nat) (n : Nat) :
    readKeys ks (n + 1) = readKeys ks n ++ [ks.getD n 0] := by
  unfold readKeys
  rw [List.range_succ, List.map_append]
  rfl

/-- The recorded indices are the write positions of `radixpass_u32`: its output buffers are the
initial ones with, for each key read in turn, the key and its value stored at the recorded
index. -/
theorem radixpass_u32_writes (hist : List Nat) (offset shift mask : Nat)
    (ki ko vi vo : List Nat) (size : Nat) :
    (radixpass_u32_indices hist offset shift mask ki size).length = size ∧
    (radixpass_u32 hist offset shift mask ki ko vi vo size).keys_out
      = ((radixpass_u32_indices hist offset shift mask ki size).zip (readKeys ki size)).foldl
          (fun out p => out.set p.1 p.2) ko ∧
    (radixpass_u32 hist offset shift mask ki ko vi vo size).values_out
      = ((radixpass_u32_indices hist offset shift mask ki size).zip (readKeys vi size)).foldl
          (fun out p => out.set p.1 p.2) vo := by
  unfold radixpass_u32_indices radixpass_u32
  suffices h : ∀ n,
      ((List.range n).foldl (fun (st : List Nat × List Nat) i =>
          let key := ki.getD i 0
          let pos := (key >>> shift) &&& mask
          let index := st.1.getD (offset + pos) 0
          (st.1.set (offset + pos) (u32 (index + 1)), st.2 ++ [index])) (hist, [])).1
        = ((List.range n).foldl (fun (st : PassState) i =>
          let key := ki.getD i 0
          let pos := (key >>> shift) &&& mask
          let index := st.hist.getD (offset + pos) 0
          { hist := st.hist.set (offset + pos) (u32 (index + 1)),
            keys_out := st.keys_out.set index key,
            values_out := st.values_out.set index (vi.getD i 0) })
          { hist := hist, keys_out := ko, values_out := vo }).hist ∧
      ((List.range n).foldl (fun (st : List Nat × List Nat) i =>
          let key := ki.getD i 0
          let pos := (key >>> shift) &&& mask
          let index := st.1.getD (offset + pos) 0
          (st.1.set (offset + pos) (u32 (index + 1)), st.2 ++ [index])) (hist, [])).2.length
        = n ∧
      ((List.range n).foldl (fun (st : PassState) i =>
          let key := ki.getD i 0
          let pos := (key >>> shift) &&& mask
          let index := st.hist.getD (offset + pos) 0
          { hist := st.hist.set (offset + pos) (u32 (index + 1)),
            keys_out := st.keys_out.set index key,
            values_out := st.values_out.set index (vi.getD i 0) })
          { hist := hist, keys_out := ko, values_out := vo }).keys_out
        = ((((List.range n).foldl (fun (st : List Nat × List Nat) i =>
          let key := ki.getD i 0
          let pos := (key >>> shift) &&& mask
          let index := st.1.getD (offset + pos) 0
          (st.1.set (offset + pos) (u32 (index + 1)), st.2 ++ [index])) (hist, [])).2).zip
            (readKeys ki n)).foldl (fun out p => out.set p.1 p.2) ko ∧
      ((List.range n).foldl (fun (st : PassState) i =>
          let key := ki.getD i 0
          let pos := (key >>> shift) &&& mask
          let index := st.hist.getD (offset + pos) 0
          { hist := st.hist.set (offset + pos) (u32 (index + 1)),
            keys_out := st.keys_out.set index key,
            values_out := st.values_out.set index (vi.getD i 0) })
          { hist := hist, keys_out := ko, values_out := vo }).values_out
        = ((((List.range n).foldl (fun (st : List Nat × List Nat) i =>
          let key := ki.getD i 0
          let pos := (key >>> shift) &&& mask
          let index := st.1.getD (offset + pos) 0
          (st.1.set (offset + pos) (u32 (index + 1)), st.2 ++ [index])) (hist, [])).2).zip
            (readKeys vi n)).foldl (fun out p => out.set p.1 p.2) vo by
    obtain ⟨_, h2, h3, h4⟩ := h size
    exact ⟨h2, h3, h4⟩
  intro n
  induction n with
  | zero => exact ⟨rfl, rfl, rfl, rfl⟩
  | succ n ih =>
    obtain ⟨i1, i2, i3, i4⟩ := ih
    rw [List.range_succ, List.foldl_append, List.foldl_append, readKeys_succ, readKeys_succ]
    simp only [List.foldl_cons, List.foldl_nil]
    refine ⟨?_, ?_, ?_, ?_⟩
    · rw [i1]
    · rw [List.length_append, i2]
      rfl
    · rw [List.zip_append (by rw [i2, readKeys_length]), List.foldl_append, ← i3, i1]
      rfl
    · rw [List.zip_append (by rw [i2, readKeys_length]), List.foldl_append, ← i4, i1]
      rfl
theorem radixsort_u32_indices_unroll (ki kt vi vt : List Nat) (size : Nat) :
    radixsort_u32_indices ki kt vi vt size =
      (let hist := sum_histograms
          (init_histograms_u32 (List.replicate (kHistBuckets * kHistSize) 0) ki size)
       let s0 := radixpass_u32 hist (0 * kHistSize) (0 * kRadixBits) (kHistSize - 1) ki kt vi vt size
       let s1 := radixpass_u32 s0.hist (1 * kHistSize) (1 * kRadixBits) (kHistSize - 1)
          s0.keys_out ki s0.values_out vi size
       let s2 := radixpass_u32 s1.hist (2 * kHistSize) (2 * kRadixBits) (kHistSize - 1)
          s1.keys_out s0.keys_out s1.values_out s0.values_out size
       let s3 := radixpass_u32 s2.hist (3 * kHistSize) (3 * kRadixBits) (kHistSize - 1)
          s2.keys_out s1.keys_out s2.values_out s1.values_out size
       ({ out := 0, hist := s3.hist,
          bufs := { keys0 := s3.keys_out, keys1 := s2.keys_out,
                    values0 := s3.values_out, values1 := s2.values_out } },
        [radixpass_u32_indices hist (0 * kHistSize) (0 * kRadixBits) (kHistSize - 1) ki size,
         radixpass_u32_indices s0.hist (1 * kHistSize) (1 * kRadixBits) (kHistSize - 1)
          s0.keys_out size,
         radixpass_u32_indices s1.hist (2 * kHistSize) (2 * kRadixBits) (kHistSize - 1)
          s1.keys_out size,
         radixpass_u32_indices s2.hist (3 * kHistSize) (3 * kRadixBits) (kHistSize - 1)
          s2.keys_out size])) := by
  have hr : List.range kHistBuckets = [0, 1, 2, 3] := by decide
  unfold radixsort_u32_indices
  simp only [hr, List.foldl_cons, List.foldl_nil]
  have a0 : 0 &&& 1 = 0 := by decide
  have a1 : 1 &&& 1 = 1 := by decide
  have a2 : 2 &&& 1 = 0 := by decide
  have a3 : 3 &&& 1 = 1 := by decide
  simp only [a0, a1, a2, a3, lnot, Buffers.keys, Buffers.values, Buffers.store, if_true,
    one_ne_zero, if_false, List.nil_append, List.cons_append]

/-- The scatter indices of the four passes of `radixsort_u32` are in range and written once,
for key buffers of at least `size` words. -/
theorem radixsort_u32_pass_indices (ki kt vi vt : List Nat) (size : Nat)
    (hki : size ≤ ki.length) (hkt : size ≤ kt.length) (hlt : size < 2 ^ 32) :
    ∀ pass ∈ (radixsort_u32_indices ki kt vi vt size).2, InRangeOnce size pass := by
  have hK0 : (readKeys ki size).length = size := readKeys_length ki size
  obtain ⟨hl, hg⟩ := sum_init_spec (readKeys ki size) (by omega)
  rw [← init_histograms_u32_eq] at hl hg
  have hH : ∀ b, b < 4 → ∀ K : List Nat, K.Perm (readKeys ki size) → ∀ d, d < 256 →
      (sum_histograms (init_histograms_u32 (List.replicate (kHistBuckets * kHistSize) 0)
        ki size)).getD (b * 256 + d) 0 = cntLt (digit b) d K := by
    intro b hb K hK d hd
    rw [hg b d hb hd, cntLt_perm _ d hK]
  have p1 := lsdKeys_perm 0 (readKeys ki size)
  have p2 := (lsdKeys_perm 1 _).trans p1
  have p3 := (lsdKeys_perm 2 _).trans p2
  have n1 := p1.length_eq
  have n2 := p2.length_eq
  have n3 := p3.length_eq
  rw [radixsort_u32_indices_unroll]
  simp only []
  generalize sum_histograms (init_histograms_u32 (List.replicate (kHistBuckets * kHistSize) 0)
    ki size) = hist at hl hH ⊢
  have g0 := radixpass_u32_indices_spec 0 hist ki size hlt (by omega) hl
    (hH 0 (by omega) _ (List.Perm.refl _))
  obtain ⟨k0, l0, o0⟩ := (radixpass_u32_spec 0 hist ki kt vi vt size hlt (by omega) hl
    (hH 0 (by omega) _ (List.Perm.refl _))).1 hkt
  generalize radixpass_u32 hist (0 * kHistSize) (0 * kRadixBits) (kHistSize - 1) ki kt vi vt size
    = s0 at k0 l0 o0 ⊢
  have r0 : readKeys s0.keys_out size = lsdKeys 0 (readKeys ki size) := by
    rw [k0]; exact readKeys_append _ _ _ (by omega)
  have h1 : ∀ d, d < 256 → s0.hist.getD (1 * 256 + d) 0
      = cntLt (digit 1) d (readKeys s0.keys_out size) := by
    intro d hd; rw [r0, o0 1 d (by omega) hd]; exact hH 1 (by omega) _ p1 d hd
  have g1 := radixpass_u32_indices_spec 1 s0.hist s0.keys_out size hlt (by omega) l0 h1
  obtain ⟨k1, l1, o1⟩ := (radixpass_u32_spec 1 s0.hist s0.keys_out ki s0.values_out vi size hlt
    (by omega) l0 h1).1 hki
  rw [r0] at k1
  generalize radixpass_u32 s0.hist (1 * kHistSize) (1 * kRadixBits) (kHistSize - 1)
    s0.keys_out ki s0.values_out vi size = s1 at k1 l1 o1 ⊢
  have r1 : readKeys s1.keys_out size = lsdKeys 1 (lsdKeys 0 (readKeys ki size)) := by
    rw [k1]; exact readKeys_append _ _ _ (by omega)
  have c0 : size ≤ s0.keys_out.length := by rw [k0]; simp; omega
  have h2 : ∀ d, d < 256 → s1.hist.getD (2 * 256 + d) 0
      = cntLt (digit 2) d (readKeys s1.keys_out size) := by
    intro d hd; rw [r1, o1 2 d (by omega) hd, o0 2 d (by omega) hd]
    exact hH 2 (by omega) _ p2 d hd
  have g2 := radixpass_u32_indices_spec 2 s1.hist s1.keys_out size hlt (by omega) l1 h2
  obtain ⟨k2, l2, o2⟩ := (radixpass_u32_spec 2 s1.hist s1.keys_out s0.keys_out s1.values_out
    s0.values_out size hlt (by omega) l1 h2).1 c0
  rw [r1] at k2
  generalize radixpass_u32 s1.hist (2 * kHistSize) (2 * kRadixBits) (kHistSize - 1)
    s1.keys_out s0.keys_out s1.values_out s0.values_out size = s2 at k2 l2 o2 ⊢
  have r2 : readKeys s2.keys_out size = lsdKeys 2 (lsdKeys 1 (lsdKeys 0 (readKeys ki size))) := by
    rw [k2]; exact readKeys_append _ _ _ (by omega)
  have h3 : ∀ d, d < 256 → s2.hist.getD (3 * 256 + d) 0
      = cntLt (digit 3) d (readKeys s2.keys_out size) := by
    intro d hd
    rw [r2, o2 3 d (by omega) hd, o1 3 d (by omega) hd, o0 3 d (by omega) hd]
    exact hH 3 (by omega) _ p3 d hd
  have g3 := radixpass_u32_indices_spec 3 s2.hist s2.keys_out size hlt (by omega) l2 h3
  intro pass hp
  simp only [List.mem_cons, List.mem_singleton, List.mem_nil_iff, or_false] at hp
  rcases hp with hp | hp | hp | hp
  · rw [hp]; exact g0
  · rw [hp]; exact g1
  · rw [hp]; exact g2
  · rw [hp]; exact g3

theorem radixsort_u32_indices_fst (ki kt vi vt : List Nat) (size : Nat) :
    (radixsort_u32_indices ki kt vi vt size).1 = radixsort_u32 ki kt vi vt size := by
  rw [radixsort_u32_indices_unroll, radixsort_u32_unroll]

theorem radixsort_u32_indices_length (ki kt vi vt : List Nat) (size : Nat) :
    (radixsort_u32_indices ki kt vi vt size).2.length = 4 := by
  rw [radixsort_u32_indices_unroll]
  rfl

/-- C27: for every input of `size` keys in buffers of at least `size` words, in each of the
four passes of `radix8sort_u32` every scatter index `hist[pos]++` is strictly less than `size`
and no output slot is written twice within the pass (one index per key, no two equal), so no
write is out of range of the key and value buffers. -/
theorem radix8sort_u32_scatter_in_range
    (keys_in_out keys_temp values_in_out values_temp : List Nat) (size : Nat)
    (hki : size ≤ keys_in_out.length) (hkt : size ≤ keys_temp.length)
    (hsize : size < 2 ^ 32) :
    (radixsort_u32_indices keys_in_out keys_temp values_in_out values_temp size).1
      = radix8sort_u32 keys_in_out keys_temp values_in_out values_temp size ∧
    (radixsort_u32_indices keys_in_out keys_temp values_in_out values_temp size).2.length
      = kHistBuckets ∧
    ∀ pass ∈ (radixsort_u32_indices keys_in_out keys_temp values_in_out values_temp size).2,
      pass.length = size ∧ (∀ index ∈ pass, index < size) ∧ pass.Nodup ∧
      (∀ index ∈ pass, index < keys_in_out.length ∧ index < keys_temp.length) := by
  refine ⟨radixsort_u32_indices_fst _ _ _ _ _, radixsort_u32_indices_length _ _ _ _ _, ?_⟩
  intro pass hp
  obtain ⟨h1, h2, h3⟩ := radixsort_u32_pass_indices keys_in_out keys_temp values_in_out
    values_temp size hki hkt hsize pass hp
  refine ⟨h1, h2, h3, ?_⟩
  intro index hi
  have := h2 index hi
  omega

/-- Witness of C27 on the five-element input with a duplicate key. -/
theorem radix8sort_u32_scatter_in_range_witness :
    (5 : Nat) ≤ [5, 3, 0x01000000, 3, 1].length ∧
    ∀ pass ∈ (radixsort_u32_indices [5, 3, 0x01000000, 3, 1] [0, 0, 0, 0, 0]
        [10, 11, 12, 13, 14] [0, 0, 0, 0, 0] 5).2,
      pass.length = 5 ∧ (∀ index ∈ pass, index < 5) ∧ pass.Nodup ∧
      (∀ index ∈ pass, index < [5, 3, 0x01000000, 3, 1].length ∧
        index < [0, 0, 0, 0, 0].length) :=
  ⟨by decide, (radix8sort_u32_scatter_in_range [5, 3, 0x01000000, 3, 1] [0, 0, 0, 0, 0]
    [10, 11, 12, 13, 14] [0, 0, 0, 0, 0] 5 (by decide) (by decide) (by decide)).2.2⟩

end Radixsort

namespace Effects

/-! ## The 2x2 ordered dither table against its documented matrix -/

/-- C25, evaluation at the failing frames. Under the indexing of `fx_prettyhip_update`, in a
frame with `frame_count & 3 = 2` the table `g_order_pattern_2x2` selects column 1 of the even
rows, the cell `(0, 1)`, which the documented matrix (rows `0 3` and `2 1`) labels 3, while the
cell labelled 2 is `(1, 0)`; in a frame with `frame_count & 3 = 3` it selects the cell `(1, 0)`,
labelled 2. Frames 0 and 1 select the cells labelled 0 and 1. The tables `g_order_pattern_3x2`,
`g_order_pattern_4x2` and `g_order_pattern_4x3` select in every frame `k` the cell that their
documented matrix labels `k`. -/
theorem g_order_pattern_2x2_frames_exchanged :
    fx_prettyhip_update_col_offset 2 0 = 1 ∧ fx_prettyhip_update_col_offset 2 1 = -1 ∧
    fx_prettyhip_update_pixels 4 2 2 = [1, 3] ∧
    selectedCells g_order_pattern_2x2 2 = [(0, 1)] ∧
    labelledCells matrix_2x2 2 = [(1, 0)] ∧
    (matrix_2x2.getD 0 []).getD 1 0 = 3 ∧
    fx_prettyhip_update_col_offset 3 0 = -1 ∧ fx_prettyhip_update_col_offset 3 1 = 0 ∧
    selectedCells g_order_pattern_2x2 3 = [(1, 0)] ∧
    labelledCells matrix_2x2 3 = [(0, 1)] ∧
    selectedCells g_order_pattern_2x2 0 = labelledCells matrix_2x2 0 ∧
    selectedCells g_order_pattern_2x2 1 = labelledCells matrix_2x2 1 ∧
    (List.range 4).map (fun k => selectedCells g_order_pattern_2x2 k)
      = (List.range 4).map (fun k => (List.range 2).flatMap (fun r =>
          if fx_prettyhip_update_col_offset k r < 0 then []
          else [(r, (fx_prettyhip_update_col_offset k r).toNat)])) ∧
    (List.range 6).map (selectedCells g_order_pattern_3x2)
      = (List.range 6).map (labelledCells matrix_3x2) ∧
    (List.range 8).map (selectedCells g_order_pattern_4x2)
      = (List.range 8).map (labelledCells matrix_4x2) ∧
    (List.range 12).map (selectedCells g_order_pattern_4x3)
      = (List.range 12).map (labelledCells matrix_4x3) := by
  decide

end Effects
